import Mathlib

/-!
# Task manager: presence, message relay, scoring, friends and deadline alerts

A shallow embedding of the server side of the task manager
(`task-backendd/server.js`, `task-backendd/routes/tasks.js`,
`task-backendd/routes/friends.js` and the Mongoose models they use) and of the
deadline and timer code of its pages (`task-frontend/src/pages/Dashboard.jsx`,
`task-frontend/src/pages/CategoryView.jsx`, `task-frontend/src/components/ChatWindow.jsx`),
followed by theorems about them.

Conventions of the embedding.

* Identifiers (Mongo `_id`s, socket ids, room names) are strings.
* A `Date` is the integer number of milliseconds since the epoch.
* Every `new Date()` of the source is a clock reading passed as an argument.
* A Mongo collection keyed by `_id` is a function from ids to optional documents.
* Every awaited database call may reject; whether it does is an input (`Faults`).
* JavaScript truthiness of a string: the empty string is falsy, every other
  string is truthy; `undefined` is `none`.
* The object `userSockets` is a finite map of its own properties; the properties every
  object inherits (`constructor`, `__proto__`, ...) are not ids of users and are left out.
* The server's local time is a fixed offset `tz` from UTC, without daylight saving.
* Numbers (`points`, `streak`, `unreadCount`) are integers.
* Documents are read and written through their Mongoose schema, which is strict (the
  default): a key of an update that is not a path of the schema is not written, and a
  loaded document has no property for such a key.
* Requests are served one at a time, each running to its end before the next starts.
-/

namespace TaskManagement

set_option autoImplicit false

/-! ## Identifiers -/

abbrev UserId := String
abbrev SocketId := String
abbrev TaskId := String

/-- Truthiness of an optional string, as in `if (x)` for `x` a string or `undefined`. -/
def truthy : Option String → Bool
  | none => false
  | some s => s != ""

/-! ## Presence registry (`server.js`, lines 36-46 and 79-84) -/

/-- The volatile connection state of the server process: the global `userSockets`
object and, per socket, its `userId` property. -/
structure Server where
  /-- The object `userSockets`: user id to socket id. -/
  userSockets : UserId → Option SocketId
  /-- The property `socket.userId` of the socket with the given id. -/
  socketUserId : SocketId → Option UserId

/-- The state at process start: `userSockets = {}` and no socket has a `userId`. -/
def Server.init : Server :=
  { userSockets := fun _ => none, socketUserId := fun _ => none }

/-- Assignment `obj[key] = val`. -/
def setKey {α : Type} (m : String → Option α) (key : String) (val : α) : String → Option α :=
  fun k => if k = key then some val else m k

/-- Statement `delete obj[key]`. -/
def deleteKey {α : Type} (m : String → Option α) (key : String) : String → Option α :=
  fun k => if k = key then none else m k

/-- Handler `socket.on('authenticate', (userId) => ...)` on the socket with id `socket`:
`socket.userId = userId; userSockets[userId] = socket.id`. -/
def authenticate (s : Server) (socket : SocketId) (userId : UserId) : Server :=
  { userSockets := setKey s.userSockets userId socket
    socketUserId := setKey s.socketUserId socket userId }

/-- Handler `socket.on('disconnect', ...)` on the socket with id `socket`:
`if (socket.userId) { delete userSockets[socket.userId]; }`. -/
def disconnect (s : Server) (socket : SocketId) : Server :=
  if truthy (s.socketUserId socket) then
    match s.socketUserId socket with
    | some uid => { s with userSockets := deleteKey s.userSockets uid }
    | none => s
  else s

/-! ## Documents (`models/User.js`, `models/Task.js`, `models/Message.js`) -/

/-- An entry of a user's `friends` array (`friendSchema`). -/
structure Friend where
  user : UserId
  status : String
  unreadCount : Int
deriving DecidableEq, Repr

/-- A user document (`userSchema`), without the credentials; its `_id` is the key under
which it is stored. `lastCompletionDate` has no default, so it starts `undefined`. -/
structure User where
  username : String
  points : Int
  streak : Int
  lastCompletionDate : Option Int
  friends : List Friend
deriving DecidableEq, Repr

/-- A task document as the collection holds it, restricted to the keys the update route
reads or computes (`title`, `description`, `priority`, `assignedTo` are copied through
unchanged and are left out). The first four are paths of `taskSchema`. The schema declares
no `startedAt` and no `estimatedCompletionTime` path: the last two fields are the keys of
that name of the stored document, `none` when the document has no such key, as is the case
for every document written through the schema. -/
structure Task where
  status : String
  completed : Bool
  dueDate : Option Int
  completedAt : Option Int
  startedAt : Option Int := none
  estimatedCompletionTime : Option Int := none
deriving DecidableEq, Repr

/-- The document `new Task({...})` of `router.post("/")`: schema defaults
`status = 'To Do'`, `completed = false`, `completedAt = null`. -/
def Task.create (dueDate : Option Int) : Task :=
  { status := "To Do", completed := false, dueDate := dueDate, completedAt := none }

/-- A chat message document (`messageSchema`), without its timestamps. -/
structure Message where
  fromUser : UserId
  toUser : UserId
  content : String
deriving DecidableEq, Repr

/-- The persistent store: the three collections. -/
structure Db where
  users : UserId → Option User
  tasks : TaskId → Option Task
  messages : List Message

/-- The projection `.select('username')` of a user document: `_id` and `username`. -/
structure Sender where
  id : UserId
  username : String
deriving DecidableEq, Repr

/-- The payload of an emitted socket event. -/
inductive Payload where
  | message (m : Message)
  | chat (fromUser : Option Sender) (content : String)
  | friendRequest (fromUser : Option Sender)
  | empty
deriving DecidableEq, Repr

/-- One call `io.to(target).emit(name, payload)`; `target = none` is the broadcast
`io.emit(name)`. A socket id is the name of the room holding just that socket. -/
structure Emit where
  target : Option String
  name : String
  payload : Payload
deriving DecidableEq, Repr

/-! ## Message relay (`server.js`, lines 53-77) -/

/-- The characters that `String.prototype.trim` removes, the white space and the line
terminators of ECMAScript: tab `U+0009`, line feed `U+000A`, vertical tab `U+000B`, form
feed `U+000C`, carriage return `U+000D`, the space separators of Unicode (`U+0020`,
`U+00A0`, `U+1680`, `U+2000` to `U+200A`, `U+202F`, `U+205F`, `U+3000`), the line and
paragraph separators `U+2028` and `U+2029`, and the byte order mark `U+FEFF`. -/
def isTrimChar (c : Char) : Bool :=
  c.toNat == 9 || c.toNat == 10 || c.toNat == 11 || c.toNat == 12 || c.toNat == 13 ||
  c.toNat == 32 || c.toNat == 160 || c.toNat == 5760 ||
  (decide (8192 ≤ c.toNat) && decide (c.toNat ≤ 8202)) ||
  c.toNat == 8232 || c.toNat == 8233 || c.toNat == 8239 || c.toNat == 8287 ||
  c.toNat == 12288 || c.toNat == 65279

/-- The call `s.trim()` of `String.prototype.trim`, which the `trim: true` setter of a
schema string and the chat window apply: the characters of `isTrimChar` are removed at
both ends. -/
def trim (s : String) : String :=
  String.mk (((s.toList.dropWhile isTrimChar).reverse.dropWhile isTrimChar).reverse)

/-- The document `new Message({ fromUser, toUser, content })`: `content` goes through the
`trim` setter. -/
def Message.new (fromUser toUser : UserId) (content : String) : Message :=
  { fromUser := fromUser, toUser := toUser, content := trim content }

/-- The argument of the `sendMessage` event. -/
structure SendData where
  fromUser : UserId
  toUser : UserId
  content : String
  roomName : String

/-- Which awaited database calls of the `sendMessage` handler reject.
`messageSave` stands for every rejection of `message.save()` other than the `required`
validator of `content` (an id that does not cast to an ObjectId, a lost connection). -/
structure RelayFaults where
  messageSave : Bool
  senderFind : Bool
  unreadUpdate : Bool

/-- The update `{ $inc: { 'friends.$.unreadCount': 1 } }` on the first array element
matching `'friends.user': peer`. -/
def incFirstUnread (peer : UserId) : List Friend → List Friend
  | [] => []
  | f :: fs =>
    if f.user = peer then { f with unreadCount := f.unreadCount + 1 } :: fs
    else f :: incFirstUnread peer fs

/-- The call `User.updateOne({ _id: toUser, 'friends.user': fromUser }, { $inc: ... })`. -/
def incUnread (users : UserId → Option User) (toUser fromUser : UserId) : UserId → Option User :=
  match users toUser with
  | some u => setKey users toUser { u with friends := incFirstUnread fromUser u.friends }
  | none => users

/-- The call `User.findById(id).select('username')`. -/
def findSender (users : UserId → Option User) (id : UserId) : Option Sender :=
  (users id).map fun u => { id := id, username := u.username }

/-- What a socket handler leaves behind: the store and the events emitted, in order. -/
structure RelayResult where
  db : Db
  emitted : List Emit

/-- Handler `socket.on('sendMessage', async (data) => ...)`. The `catch` only logs, so a
rejection stops the handler where it is and keeps what was done before. -/
def sendMessage (srv : Server) (db : Db) (f : RelayFaults) (data : SendData) : RelayResult :=
  let message := Message.new data.fromUser data.toUser data.content
  if f.messageSave || message.content == "" then
    { db := db, emitted := [] }
  else
    let db1 : Db := { db with messages := db.messages ++ [message] }
    let ev1 : Emit := { target := some data.roomName, name := "receiveMessage", payload := .message message }
    let recipientSocketId := srv.userSockets data.toUser
    if truthy recipientSocketId then
      match recipientSocketId with
      | some sid =>
        if f.senderFind then
          { db := db1, emitted := [ev1] }
        else
          let sender := findSender db1.users data.fromUser
          { db := db1
            emitted := [ev1, { target := some sid, name := "chatNotification"
                               payload := .chat sender message.content }] }
      | none => { db := db1, emitted := [ev1] }
    else if f.unreadUpdate then
      { db := db1, emitted := [ev1] }
    else
      { db := { db1 with users := incUnread db1.users data.toUser data.fromUser }, emitted := [ev1] }

/-- The `unreadCount` a user holds for a peer: that of the first `friends` entry for the
peer, if there is one. -/
def unreadCountFor (users : UserId → Option User) (user peer : UserId) : Option Int :=
  match users user with
  | some u => (u.friends.find? fun f => f.user = peer).map Friend.unreadCount
  | none => none

/-! ## Completion and scoring (`routes/tasks.js`, lines 11-20 and 132-192) -/

/-- The constant `oneDay = 24 * 60 * 60 * 1000` of `areConsecutiveDays`. -/
def oneDay : Int := 24 * 60 * 60 * 1000

/-- The call `d.setHours(0, 0, 0, 0)`: the instant of local midnight of the day of `t`,
for a server whose local time is `tz` milliseconds ahead of UTC all year round. -/
def setHoursZero (tz t : Int) : Int := t - (t + tz) % oneDay

/-- The helper `areConsecutiveDays(date1, date2)`. `Math.round(Math.abs(x / oneDay))` is
the integer nearest to `|x| / oneDay`, halves going up. -/
def areConsecutiveDays (tz : Int) (date1 date2 : Option Int) : Bool :=
  match date1, date2 with
  | some a, some b =>
    let d1 := setHoursZero tz a
    let d2 := setHoursZero tz b
    let diffDays : Int := (2 * ((d1 - d2).natAbs : Int) + oneDay) / (2 * oneDay)
    diffDays == 1
  | _, _ => false

/-- The fields of the request body the route destructures and uses for the task's state;
`none` is `undefined`, and `dueDate = some none` is an explicit `null`. -/
structure UpdateBody where
  dueDate : Option (Option Int)
  status : Option String
  estimatedCompletionTime : Option Int

/-- The object `updateFields`, a field being `none` while the key is not set. -/
structure UpdateFields where
  dueDate : Option (Option Int)
  status : Option String
  completed : Option Bool
  startedAt : Option Int
  estimatedCompletionTime : Option Int
  completedAt : Option (Option Int)

/-- The update `{ $set: updateFields }` applied to a task document. Keys that are not
schema paths (`startedAt`, `estimatedCompletionTime`) are dropped by the strict schema, so
the stored document keeps what it holds under those keys. -/
def applySet (t : Task) (u : UpdateFields) : Task :=
  { status := u.status.getD t.status
    completed := u.completed.getD t.completed
    dueDate := u.dueDate.getD t.dueDate
    completedAt := u.completedAt.getD t.completedAt
    startedAt := t.startedAt
    estimatedCompletionTime := t.estimatedCompletionTime }

/-- Which awaited database calls of the update route reject. -/
structure TaskFaults where
  taskFind : Bool
  userFind : Bool
  userSave : Bool
  taskWrite : Bool

/-- What the update route leaves behind: the store, the HTTP status, the events emitted. -/
structure PutResult where
  db : Db
  code : Nat
  emitted : List Emit

/-- Lines 162-173: the scoring block run on the loaded user document, `completedAt`
being `updateFields.completedAt` and `today` the later `new Date()`. -/
def scoreCompletion (tz : Int) (user : User) (taskToUpdate : Task) (completedAt today : Int) : User :=
  let pointsToAdd : Int :=
    if (match taskToUpdate.dueDate with
        | some due => decide (completedAt ≤ due)
        | none => false) then 10 + 5 else 10
  let streak : Int :=
    if areConsecutiveDays tz (some today) user.lastCompletionDate then
      (if user.streak = 0 then 0 else user.streak) + 1
    else 1
  { user with
    streak := streak
    lastCompletionDate := some today
    points := user.points + (pointsToAdd + streak * 2) }

/-- Lines 179-187: `Task.findOneAndUpdate`, then the broadcast and the response. -/
def writeTask (db : Db) (f : TaskFaults) (id : TaskId) (t : Task) (u : UpdateFields) : PutResult :=
  if f.taskWrite then
    { db := db, code := 500, emitted := [] }
  else
    { db := { db with tasks := setKey db.tasks id (applySet t u) }
      code := 200
      emitted := [{ target := none, name := "tasksUpdated", payload := .empty }] }

/-- Lines 135-155: the object `updateFields` as built from the request body, before the
completion logic. `taskToUpdate` is a document loaded through the schema, which has no path
`startedAt`: the loaded document has no property of that name whatever the stored document
holds, `taskToUpdate.startedAt` is `undefined`, and the test `!taskToUpdate.startedAt` of
line 149 succeeds. -/
def buildUpdateFields (body : UpdateBody) (now : Int) : UpdateFields :=
  let uf0 : UpdateFields :=
    { dueDate := body.dueDate, status := none, completed := none, startedAt := none
      estimatedCompletionTime := none, completedAt := none }
  match body.status with
  | none => uf0
  | some status =>
    let uf := { uf0 with status := some status, completed := some (status == "Done") }
    if status = "In Progress" then
      { uf with startedAt := some now
                estimatedCompletionTime := body.estimatedCompletionTime }
    else uf

/-- Assignment `updateFields.completedAt = value` (lines 159 and 176), `none` being `null`. -/
def setCompletedAt (u : UpdateFields) (value : Option Int) : UpdateFields :=
  { u with completedAt := some value }

/-- Route `router.put("/:id")` for the authenticated user `reqUser` (`req.user.id`).
`now` is the first `new Date()` the request evaluates (line 150 or line 159, which exclude
each other) and `today` the one of line 166. A rejection or a `TypeError` on a missing
user goes to the `catch`, which answers 500. -/
def putTask (tz : Int) (db : Db) (f : TaskFaults) (reqUser : UserId) (id : TaskId)
    (body : UpdateBody) (now today : Int) : PutResult :=
  if f.taskFind then
    { db := db, code := 500, emitted := [] }
  else
    match db.tasks id with
    | none => { db := db, code := 404, emitted := [] }
    | some taskToUpdate =>
      let uf1 := buildUpdateFields body now
      let isNowMarkedDone := uf1.status == some "Done" && taskToUpdate.status != "Done"
      if isNowMarkedDone then
        let uf2 := setCompletedAt uf1 (some now)
        if f.userFind then
          { db := db, code := 500, emitted := [] }
        else
          match db.users reqUser with
          | none => { db := db, code := 500, emitted := [] }
          | some user =>
            let user1 := scoreCompletion tz user taskToUpdate now today
            if f.userSave then
              { db := db, code := 500, emitted := [] }
            else
              writeTask { db with users := setKey db.users reqUser user1 } f id taskToUpdate uf2
      else if truthy body.status && body.status != some "Done" && taskToUpdate.status == "Done" then
        writeTask db f id taskToUpdate (setCompletedAt uf1 none)
      else
        writeTask db f id taskToUpdate uf1

/-- One update request as it reaches the route, with the clock readings and the database
behaviour it meets. -/
structure PutRequest where
  faults : TaskFaults
  reqUser : UserId
  id : TaskId
  body : UpdateBody
  now : Int
  today : Int

/-- The store after a sequence of update requests, served one after the other. -/
def putTasks (tz : Int) (db : Db) : List PutRequest → Db
  | [] => db
  | r :: rs => putTasks tz (putTask tz db r.faults r.reqUser r.id r.body r.now r.today).db rs

/-- The local calendar day of an instant, counted from the epoch, for a server whose local
time is `tz` milliseconds ahead of UTC. -/
def calendarDay (tz t : Int) : Int := (t + tz) / oneDay

/-- The test `isNowMarkedDone` of line 157, as a proposition. -/
def marksDone (body : UpdateBody) (t : Task) : Prop :=
  body.status = some "Done" ∧ t.status ≠ "Done"

/-- The test of line 175, as a proposition. -/
def revertsDone (body : UpdateBody) (t : Task) : Prop :=
  truthy body.status = true ∧ body.status ≠ some "Done" ∧ t.status = "Done"

instance (body : UpdateBody) (t : Task) : Decidable (marksDone body t) := by
  unfold marksDone
  infer_instance

instance (body : UpdateBody) (t : Task) : Decidable (revertsDone body t) := by
  unfold revertsDone
  infer_instance

/-- The `+5` of line 164 for a task completed at `completedAt`: granted when the task has a
due date and `completedAt <= dueDate`. -/
def onTimeBonus (t : Task) (completedAt : Int) : Int :=
  match t.dueDate with
  | some due => if completedAt ≤ due then 5 else 0
  | none => 0

/-- The values the schema's `enum` admits for `status`, or no `status` key at all. -/
def allowedStatus (status : Option String) : Prop :=
  status = none ∨ status = some "To Do" ∨ status = some "In Progress" ∨ status = some "Done"

instance (status : Option String) : Decidable (allowedStatus status) := by
  unfold allowedStatus
  infer_instance

/-- The task invariant of the data model: `completedAt` is non-null exactly when the status
is `Done`. -/
def completedAtMatchesStatus (t : Task) : Prop :=
  t.completedAt ≠ none ↔ t.status = "Done"

instance (t : Task) : Decidable (completedAtMatchesStatus t) := by
  unfold completedAtMatchesStatus
  infer_instance

/-! ## Friends routes (`routes/friends.js`, lines 31-60 and 74-95) -/

/-- What a route of the friends router leaves behind: the store, the HTTP status, the events
emitted. -/
structure RouteResult where
  db : Db
  code : Nat
  emitted : List Emit

/-- The update `{ $set: { 'friends.$.unreadCount': 0 } }` on the first array element
matching `'friends.user': peer`. -/
def resetFirstUnread (peer : UserId) : List Friend → List Friend
  | [] => []
  | f :: fs =>
    if f.user = peer then { f with unreadCount := 0 } :: fs
    else f :: resetFirstUnread peer fs

/-- The call `User.updateOne({ _id: user, 'friends.user': friendId }, { $set: ... })`. -/
def resetUnread (users : UserId → Option User) (user friendId : UserId) : UserId → Option User :=
  match users user with
  | some u => setKey users user { u with friends := resetFirstUnread friendId u.friends }
  | none => users

/-- Route `router.put('/read-messages/:friendId')` for the authenticated user `reqUser`;
`updateFails` says whether `User.updateOne` rejects. -/
def readMessages (db : Db) (updateFails : Bool) (reqUser friendId : UserId) : RouteResult :=
  if updateFails then
    { db := db, code := 500, emitted := [] }
  else
    { db := { db with users := resetUnread db.users reqUser friendId }, code := 200, emitted := [] }

/-- Which awaited database calls of the friend-request route reject. -/
structure FriendFaults where
  recipientFind : Bool
  senderPush : Bool
  recipientPush : Bool
  senderFind : Bool

/-- The call `User.findByIdAndUpdate(id, { $push: { friends: entry } })`; nothing happens
when no user has that id. -/
def pushFriend (users : UserId → Option User) (id : UserId) (entry : Friend) :
    UserId → Option User :=
  match users id with
  | some u => setKey users id { u with friends := u.friends ++ [entry] }
  | none => users

/-- Route `router.post('/request/:userId')` for the authenticated user `senderId`
(`req.user.id`) and the recipient `recipientId` (`req.params.userId`). A missing recipient
makes `recipient.friends` throw; every rejection and that `TypeError` go to the `catch`,
which answers 500 and keeps the updates already made. The pushed entries get the schema
default `unreadCount = 0`. -/
def requestFriend (srv : Server) (db : Db) (f : FriendFaults) (senderId recipientId : UserId) :
    RouteResult :=
  if f.recipientFind then
    { db := db, code := 500, emitted := [] }
  else
    match db.users recipientId with
    | none => { db := db, code := 500, emitted := [] }
    | some recipient =>
      if recipient.friends.any (fun fr => fr.user == senderId) then
        { db := db, code := 400, emitted := [] }
      else if f.senderPush then
        { db := db, code := 500, emitted := [] }
      else
        let users1 := pushFriend db.users senderId
          { user := recipientId, status := "sent", unreadCount := 0 }
        if f.recipientPush then
          { db := { db with users := users1 }, code := 500, emitted := [] }
        else
          let users2 := pushFriend users1 recipientId
            { user := senderId, status := "pending", unreadCount := 0 }
          let db2 : Db := { db with users := users2 }
          let recipientSocketId := srv.userSockets recipientId
          if truthy recipientSocketId then
            match recipientSocketId with
            | some sid =>
              if f.senderFind then
                { db := db2, code := 500, emitted := [] }
              else
                { db := db2, code := 200
                  emitted := [{ target := some sid, name := "friendRequest"
                                payload := .friendRequest (findSender users2 senderId) }] }
            | none => { db := db2, code := 200, emitted := [] }
          else
            { db := db2, code := 200, emitted := [] }

/-- A `friends` entry after `.populate('friends.user', 'username')`: the id is replaced by
the projection of the user it names, or by `null` when there is no such user. -/
structure PopulatedFriend where
  user : Option Sender
  status : String
  unreadCount : Int
deriving DecidableEq, Repr

/-- The population of one `friends` entry. -/
def populateFriend (users : UserId → Option User) (f : Friend) : PopulatedFriend :=
  { user := findSender users f.user, status := f.status, unreadCount := f.unreadCount }

/-- The body of the answer of `router.get('/')`. -/
structure FriendsResponse where
  friends : List PopulatedFriend
  pendingRequests : List PopulatedFriend
deriving DecidableEq, Repr

/-- Route `router.get('/')` for the authenticated user `reqUser`; `none` is the answer 500
(the lookup rejects, or `user.friends` throws because no such user is stored). -/
def getFriends (db : Db) (findFails : Bool) (reqUser : UserId) : Option FriendsResponse :=
  if findFails then none
  else
    match db.users reqUser with
    | none => none
    | some user =>
      let populated := user.friends.map (populateFriend db.users)
      some { friends := populated.filter fun f => f.status == "accepted"
             pendingRequests := populated.filter fun f => f.status == "pending" }

/-- The `friends` array of the user stored under `id`, empty when no such user is stored. -/
def friendsOf (users : UserId → Option User) (id : UserId) : List Friend :=
  match users id with
  | some u => u.friends
  | none => []

/-- The fields of a user document outside the `friends` array. -/
def profileOf (users : UserId → Option User) (id : UserId) :
    Option (String × Int × Int × Option Int) :=
  (users id).map fun u => (u.username, u.points, u.streak, u.lastCompletionDate)

/-! ## Deadline and timer reconciler (`pages/Dashboard.jsx`, lines 279-436 and 620-652)

The page code is embedded as functions of what it reads: the task list `allTasks`, the
value of the React state `confirmationTask` captured by the effect, `sessionStorage`, and
the clock. The clock reads a time after the epoch, a natural number of milliseconds.
`minutesLeft` is `msLeft / MS_IN_MIN`, so a test such as `minutesLeft <= 5` is written
`msLeft ≤ 5 * MS_IN_MIN`, and `Math.floor(minutesLeft / 10)` is `msLeft / (10 * MS_IN_MIN)`.
A number is interpolated into a string as its decimal digits. -/

/-- The browser's `sessionStorage`: `getItem` of a missing key, `null`, is `none`. -/
abbrev Storage := String → Option String

/-- A task as the page holds it: `id` is `taskRaw._id ?? taskRaw.id`; the optional fields
are `none` when the property is missing, `null` or empty; dates are the `getTime()` of the
parsed property; `estimatedCompletionTime` is a whole number of minutes. -/
structure ClientTask where
  id : String
  title : String
  status : String
  dueDate : Option Int
  startedAt : Option Int
  estimatedCompletionTime : Option Int
deriving DecidableEq, Repr

/-- The options of a toast. -/
structure ToastOpts where
  type : String
  duration : Nat
deriving DecidableEq, Repr

/-- One call `addToast(message, opts)`. -/
structure Toast where
  message : String
  opts : ToastOpts
deriving DecidableEq, Repr

/-- An entry of the alert panel. -/
structure Alert where
  id : String
  taskTitle : String
  message : String
deriving DecidableEq, Repr

/-- The arguments of one call `makeAlertIfNew(alertId, taskTitle, message, toastOpts)`. -/
structure AlertCall where
  alertId : String
  taskTitle : String
  message : String
  opts : ToastOpts
deriving DecidableEq, Repr

/-- The constant `MS_IN_MIN = 1000 * 60`. -/
def MS_IN_MIN : Int := 1000 * 60

/-- The constant `MS_24H = 24 * 60 * MS_IN_MIN`. -/
def MS_24H : Int := 24 * 60 * MS_IN_MIN

/-- The value `Math.ceil(minutesLeft)` for `minutesLeft = msLeft / MS_IN_MIN`. -/
def ceilMinutes (msLeft : Int) : Int := (msLeft + (MS_IN_MIN - 1)) / MS_IN_MIN

/-- What one run of `checkDeadlines` has accumulated so far: `sessionStorage`, the set
`alertsThisRun`, the array `upcomingAlerts`, the toasts shown, and the tasks passed to
`setConfirmationTask`, each in the order of the calls. -/
structure RunState where
  storage : Storage
  alertsThisRun : List String
  upcomingAlerts : List Alert
  toasts : List Toast
  confirmCalls : List ClientTask

/-- The stamp `s` followed by the number of the 30-second bucket of `now`:
`Math.floor(now.getTime() / 30000)`. -/
def bucketStamp (now : Nat) : String := "s" ++ toString (now / 30000)

/-- Lines 291-303: `makeAlertIfNew`. -/
def makeAlertIfNew (now : Nat) (st : RunState) (c : AlertCall) : RunState :=
  if c.alertId ∈ st.alertsThisRun then st
  else
    let bucketKey := c.alertId ++ "-bucket"
    if st.storage bucketKey = some (bucketStamp now) then st
    else
      { st with
        storage := setKey st.storage bucketKey (bucketStamp now)
        alertsThisRun := st.alertsThisRun ++ [c.alertId]
        upcomingAlerts := st.upcomingAlerts ++
          [{ id := c.alertId, taskTitle := c.taskTitle, message := c.message }]
        toasts := st.toasts ++ [{ message := c.message, opts := c.opts }] }

/-- Lines 313-344: the call of `makeAlertIfNew` chosen by the due-date branches, for a task
due at `due`; `none` when no branch is taken. -/
def dueAlert (task : ClientTask) (due : Int) (now : Nat) : Option AlertCall :=
  let msLeft : Int := due - now
  if 0 < msLeft ∧ msLeft ≤ 5 * MS_IN_MIN then
    some { alertId := task.id ++ "-due-urgent", taskTitle := task.title
           message := "⏰ \"" ++ task.title ++ "\" due in ~"
             ++ toString (ceilMinutes msLeft).toNat ++ " minute(s)!"
           opts := { type := "warning", duration := 7000 } }
  else if 5 * MS_IN_MIN < msLeft ∧ msLeft ≤ 10 * MS_IN_MIN then
    some { alertId := task.id ++ "-due-10min", taskTitle := task.title
           message := "⏰ \"" ++ task.title ++ "\" due in ~10 minutes."
           opts := { type := "info", duration := 6000 } }
  else if 10 * MS_IN_MIN < msLeft ∧ msLeft ≤ 60 * MS_IN_MIN then
    let tenBucket := (msLeft / (10 * MS_IN_MIN) * 10).toNat
    some { alertId := task.id ++ "-due-" ++ toString tenBucket ++ "min", taskTitle := task.title
           message := "⏰ \"" ++ task.title ++ "\" due in about " ++ toString tenBucket
             ++ " minutes."
           opts := { type := "info", duration := 5000 } }
  else if 60 * MS_IN_MIN < msLeft then
    let hours := (msLeft / (60 * MS_IN_MIN)).toNat
    some { alertId := task.id ++ "-due-" ++ toString hours ++ "h", taskTitle := task.title
           message := "⏰ \"" ++ task.title ++ "\" due in ~" ++ toString hours ++ " hour(s)."
           opts := { type := "info", duration := 4000 } }
  else if msLeft ≤ 0 then
    some { alertId := task.id ++ "-due-overdue", taskTitle := task.title
           message := "⚠️ \"" ++ task.title ++ "\" is overdue!"
           opts := { type := "error", duration := 9000 } }
  else none

/-- Lines 362-368: the confirmation prompt of a task whose timer has ended, raised when
there is no `confirm-shown` entry for the task and the task is not the one in
`confirmationTask`. Nothing is written to `sessionStorage`. -/
def raiseConfirmation (confirmationTask : Option ClientTask) (st : RunState)
    (task : ClientTask) : RunState :=
  let confirmKey := "confirm-shown-" ++ task.id
  let alreadyShown := st.storage confirmKey
  if (!truthy alreadyShown) &&
      (match confirmationTask with
       | none => true
       | some c => c.id != task.id) then
    { st with
      confirmCalls := st.confirmCalls ++ [task]
      toasts := st.toasts ++
        [{ message := "Timer ended for \"" ++ task.title ++ "\". Confirm completion."
           opts := { type := "info", duration := 7000 } }] }
  else st

/-- Lines 348-375: the estimate branches, for a task started at `started` with an
estimate of `est` minutes. -/
def estimateAlerts (now : Nat) (confirmationTask : Option ClientTask) (st : RunState)
    (task : ClientTask) (started est : Int) : RunState :=
  let msLeft : Int := started + est * MS_IN_MIN - now
  if 0 < msLeft ∧ msLeft ≤ 5 * MS_IN_MIN then
    makeAlertIfNew now st
      { alertId := task.id ++ "-est-urgent", taskTitle := task.title
        message := "⏱️ Timer: \"" ++ task.title ++ "\" completes in ~"
          ++ toString (ceilMinutes msLeft).toNat ++ " minute(s)."
        opts := { type := "info", duration := 6000 } }
  else if msLeft ≤ 0 ∧ (msLeft.natAbs : Int) ≤ MS_24H then
    makeAlertIfNew now (raiseConfirmation confirmationTask st task)
      { alertId := task.id ++ "-est-overdue", taskTitle := task.title
        message := "⚠️ Timer ended for \"" ++ task.title ++ "\". Please confirm."
        opts := { type := "warning", duration := 7000 } }
  else st

/-- Lines 311-345: the due-date part of the loop body. -/
def dueStep (now : Nat) (st : RunState) (task : ClientTask) : RunState :=
  match task.dueDate with
  | some due =>
    match dueAlert task due now with
    | some c => makeAlertIfNew now st c
    | none => st
  | none => st

/-- Lines 347-375: the estimate part of the loop body, entered when `task.startedAt` and
`task.estimatedCompletionTime` are truthy and the status is `In Progress`. -/
def estimateStep (now : Nat) (confirmationTask : Option ClientTask) (st : RunState)
    (task : ClientTask) : RunState :=
  match task.startedAt, task.estimatedCompletionTime with
  | some started, some est =>
    if est ≠ 0 ∧ task.status = "In Progress" then
      estimateAlerts now confirmationTask st task started est
    else st
  | _, _ => st

/-- Lines 305-376: the body of `allTasks.forEach`. -/
def checkTask (now : Nat) (confirmationTask : Option ClientTask) (st : RunState)
    (task : ClientTask) : RunState :=
  if task.status = "Done" then st
  else estimateStep now confirmationTask (dueStep now st task) task

/-- Lines 286-376: one run of `checkDeadlines` at the time `now`. -/
def checkDeadlines (now : Nat) (confirmationTask : Option ClientTask) (storage : Storage)
    (allTasks : List ClientTask) : RunState :=
  allTasks.foldl (checkTask now confirmationTask)
    { storage := storage, alertsThisRun := [], upcomingAlerts := [], toasts := []
      confirmCalls := [] }

/-- What the page keeps between runs: `sessionStorage` and the React states
`confirmationTask` and `taskAlerts`. -/
structure Page where
  storage : Storage
  confirmationTask : Option ClientTask
  taskAlerts : List Alert

/-- The page after a run: the last `setConfirmationTask` call of the run wins, and lines
378-384 put the alerts whose id is not yet in the panel in front of it. -/
def Page.afterRun (p : Page) (r : RunState) : Page :=
  { storage := r.storage
    confirmationTask :=
      match r.confirmCalls.getLast? with
      | some t => some t
      | none => p.confirmationTask
    taskAlerts :=
      (r.upcomingAlerts.filter fun a => !(p.taskAlerts.any fun b => b.id == a.id))
        ++ p.taskAlerts }

/-- One run of the Dashboard reconciler on a page. -/
def Page.run (p : Page) (now : Nat) (allTasks : List ClientTask) : RunState :=
  checkDeadlines now p.confirmationTask p.storage allTasks

/-- The value of a list of decimal digits, most significant first. -/
def ofDigitChars (l : List Char) : Nat :=
  l.foldl (fun a c => a * 10 + (c.toNat - 48)) 0

/-- A lower-case hexadecimal digit. -/
def isHexChar (c : Char) : Bool :=
  c.isDigit || (decide ('a' ≤ c) && decide (c ≤ 'f'))

/-- The string form of a Mongo `ObjectId`, which every task `_id` sent by the server has:
24 lower-case hexadecimal digits. -/
def isObjectId (s : String) : Bool :=
  s.data.length == 24 && s.data.all isHexChar

/-- What a run maintains: `alertsThisRun` holds the ids of `upcomingAlerts`, and every id
in it has the stamp of the current bucket in `sessionStorage`. -/
def RunInv (now : Nat) (st : RunState) : Prop :=
  st.alertsThisRun = st.upcomingAlerts.map Alert.id ∧
  ∀ y ∈ st.alertsThisRun, st.storage (y ++ "-bucket") = some (bucketStamp now)

/-- The run has put an alert with the id `x` into `upcomingAlerts` and shown a toast with
its message. -/
def EmittedId (st : RunState) (x : String) : Prop :=
  ∃ a ∈ st.upcomingAlerts, a.id = x ∧ ∃ t ∈ st.toasts, t.message = a.message

/-- The five due-date bands of the reconciler. -/
inductive DueBand where
  | overdue
  | urgent
  | tenMinutes
  | withinHour
  | beyondHour
deriving DecidableEq, Repr

/-- The values of `minutesLeft` a band stands for, `<= 0`, `(0,5]`, `(5,10]`, `(10,60]` and
`> 60`, as a condition on `msLeft`. -/
def DueBand.contains : DueBand → Int → Prop
  | .overdue, msLeft => msLeft ≤ 0
  | .urgent, msLeft => 0 < msLeft ∧ msLeft ≤ 5 * MS_IN_MIN
  | .tenMinutes, msLeft => 5 * MS_IN_MIN < msLeft ∧ msLeft ≤ 10 * MS_IN_MIN
  | .withinHour, msLeft => 10 * MS_IN_MIN < msLeft ∧ msLeft ≤ 60 * MS_IN_MIN
  | .beyondHour, msLeft => 60 * MS_IN_MIN < msLeft

instance (b : DueBand) (msLeft : Int) : Decidable (b.contains msLeft) := by
  cases b <;> unfold DueBand.contains <;> infer_instance

/-- The alert id the Dashboard gives to the alert of a band (lines 317, 322, 328, 334 and
340). -/
def DueBand.alertId (b : DueBand) (taskId : String) (msLeft : Int) : String :=
  match b with
  | .overdue => taskId ++ "-due-overdue"
  | .urgent => taskId ++ "-due-urgent"
  | .tenMinutes => taskId ++ "-due-10min"
  | .withinHour => taskId ++ "-due-" ++ toString (msLeft / (10 * MS_IN_MIN) * 10).toNat ++ "min"
  | .beyondHour => taskId ++ "-due-" ++ toString (msLeft / (60 * MS_IN_MIN)).toNat ++ "h"

/-- The toast of line 367, shown together with `setConfirmationTask(task)`. -/
def confirmToast (task : ClientTask) : Toast :=
  { message := "Timer ended for \"" ++ task.title ++ "\". Confirm completion."
    opts := { type := "info", duration := 7000 } }

/-- The `sessionStorage` key of the resolution marker of a task. -/
def confirmKey (taskId : String) : String := "confirm-shown-" ++ taskId

/-! ## Category page (`pages/CategoryView.jsx`, lines 149-273, 437-462 and 638-654) -/

/-- What one run of the category page's `checkDeadlines`, or one of its timer callbacks,
has accumulated: `sessionStorage`, the alerts collected (the values of the map `upcoming`,
or the entries handed to `setTaskAlerts`), the toasts, and the tasks passed to
`setConfirmationTask`. -/
structure CatRunState where
  storage : Storage
  upcoming : List Alert
  toasts : List Toast
  confirmCalls : List ClientTask

/-- Lines 216-223: `make(task, idSuffix, message, toastOpts)`. -/
def make (st : CatRunState) (task : ClientTask) (idSuffix message : String)
    (opts : ToastOpts) : CatRunState :=
  if st.upcoming.any (fun a => a.id == task.id ++ "-" ++ idSuffix) then st
  else
    { st with
      upcoming := st.upcoming ++
        [{ id := task.id ++ "-" ++ idSuffix, taskTitle := task.title, message := message }]
      toasts := st.toasts ++ [{ message := message, opts := opts }] }

/-- Lines 227-241: the due-date branches of the category page. -/
def categoryDueStep (now : Nat) (st : CatRunState) (task : ClientTask) (due : Int) :
    CatRunState :=
  if 0 < due - now ∧ due - now ≤ 10 * MS_IN_MIN then
    make st task "due-10"
      ("Deadline for \"" ++ task.title ++ "\" in ~"
        ++ toString (ceilMinutes (due - now)).toNat ++ " minute(s).")
      { type := "warning", duration := 7000 }
  else if 10 * MS_IN_MIN < due - now ∧ due - now ≤ 60 * MS_IN_MIN then
    if st.storage ("due-" ++ task.id ++ "-"
          ++ toString ((due - now) / (10 * MS_IN_MIN) * 10).toNat)
        ≠ some (toString ((due - now) / (10 * MS_IN_MIN) * 10).toNat) then
      make
        { st with
          storage := setKey st.storage
            ("due-" ++ task.id ++ "-" ++ toString ((due - now) / (10 * MS_IN_MIN) * 10).toNat)
            (toString ((due - now) / (10 * MS_IN_MIN) * 10).toNat) }
        task ("due-" ++ toString ((due - now) / (10 * MS_IN_MIN) * 10).toNat)
        ("Deadline for \"" ++ task.title ++ "\" in ~"
          ++ toString ((due - now) / (10 * MS_IN_MIN) * 10).toNat ++ " minutes.")
        { type := "info", duration := 5000 }
    else st
  else if due - now ≤ 0 then
    make st task "due-overdue" ("⚠️ \"" ++ task.title ++ "\" is overdue!")
      { type := "error", duration := 9000 }
  else st

/-- Lines 253-258: the confirmation prompt of the category page, raised when there is no
`confirm-shown` entry for the task. Nothing is written to `sessionStorage`. -/
def categoryRaise (st : CatRunState) (task : ClientTask) : CatRunState :=
  if !truthy (st.storage (confirmKey task.id)) then
    make { st with confirmCalls := st.confirmCalls ++ [task] } task "est-ended"
      ("⚠️ Timer ended for \"" ++ task.title ++ "\". Confirm completion.")
      { type := "warning", duration := 7000 }
  else st

/-- Lines 244-260: the estimate branches of the category page. -/
def categoryEstimateStep (now : Nat) (st : CatRunState) (task : ClientTask) : CatRunState :=
  match task.startedAt, task.estimatedCompletionTime with
  | some started, some est =>
    if est ≠ 0 ∧ task.status = "In Progress" then
      if 0 < started + est * 60 * 1000 - now ∧ started + est * 60 * 1000 - now ≤ 5 * MS_IN_MIN then
        make st task "est-urgent"
          ("Timer: \"" ++ task.title ++ "\" completes in ~"
            ++ toString (ceilMinutes (started + est * 60 * 1000 - now)).toNat ++ " minute(s).")
          { type := "info", duration := 6000 }
      else if started + est * 60 * 1000 - now ≤ 0 then categoryRaise st task
      else st
    else st
  | _, _ => st

/-- Lines 225-261: the body of `tasks.forEach`; a task without a due date or a done task is
skipped as a whole (line 226). -/
def categoryCheckTask (now : Nat) (st : CatRunState) (task : ClientTask) : CatRunState :=
  match task.dueDate with
  | none => st
  | some due =>
    if task.status = "Done" then st
    else categoryEstimateStep now (categoryDueStep now st task due) task

/-- Lines 212-261: one run of the category page's `checkDeadlines` at the time `now`. -/
def categoryCheckDeadlines (now : Nat) (storage : Storage) (tasks : List ClientTask) :
    CatRunState :=
  tasks.foldl (categoryCheckTask now)
    { storage := storage, upcoming := [], toasts := [], confirmCalls := [] }

/-- Lines 179-185 and 191-197: the prompt of the timer code, raised when there is no
`confirm-shown` entry for the task. -/
def timerRaise (st : CatRunState) (task : ClientTask) (toastMessage : String) : CatRunState :=
  if !truthy (st.storage (confirmKey task.id)) then
    { st with
      confirmCalls := st.confirmCalls ++ [task]
      toasts := st.toasts ++ [{ message := toastMessage
                                opts := { type := "warning", duration := 7000 } }]
      upcoming := st.upcoming ++
        [{ id := task.id ++ "-ended", taskTitle := task.title
           message := "Timer ended — confirm completion" }] }
  else st

/-- Lines 156-200: the body of the loop that resumes the timers when the task list
changes: a running task whose end time has passed is prompted for at once, for the others
an interval is started. -/
def resumeTimer (now : Nat) (st : CatRunState) (task : ClientTask) : CatRunState :=
  match task.startedAt, task.estimatedCompletionTime with
  | some started, some est =>
    if task.status = "In Progress" ∧ est ≠ 0 then
      if (now : Int) < started + est * 60 * 1000 then st
      else
        timerRaise st task
          ("Timer already ended for \"" ++ task.title ++ "\" — confirm completion.")
    else st
  | _, _ => st

/-- Lines 166-175: the first test of a tick, the notice that the timer is within its last
minute, given once per task and session. -/
def nearEndStep (tick : Nat) (st : CatRunState) (task : ClientTask) (endTime : Int) :
    CatRunState :=
  if endTime - tick ≤ 1000 * 60 * 1 ∧ 0 < endTime - tick then
    if !truthy (st.storage ("near-end-" ++ task.id)) then
      { st with
        storage := setKey st.storage ("near-end-" ++ task.id) "1"
        toasts := st.toasts ++
          [{ message := "Timer near end for \"" ++ task.title ++ "\""
             opts := { type := "info", duration := 5000 } }]
        upcoming := st.upcoming ++
          [{ id := task.id ++ "-near", taskTitle := task.title
             message := "Timer nearly finished" }] }
    else st
  else st

/-- Lines 164-187: one tick, at the time `tick`, of the interval started for a task whose
timer ends at `endTime`. -/
def timerTick (tick : Nat) (st : CatRunState) (task : ClientTask) (endTime : Int) :
    CatRunState :=
  if endTime - tick ≤ 0 then
    timerRaise (nearEndStep tick st task endTime) task
      ("Timer ended for \"" ++ task.title ++ "\" — confirm completion.")
  else nearEndStep tick st task endTime

/-! ## User actions on a confirmation and sessions -/

/-- What the user does with a confirmation prompt: the button `Yes, mark as "Done"`, the
button `No, move to "To Do"`, or closing the dialog. -/
inductive Resolution where
  | confirmDone
  | revertToTodo
  | dismiss
deriving DecidableEq, Repr

/-- `sessionStorage` after a user action on the prompt of the task `taskId` at the time
`clock` (Dashboard lines 398-436 and 628-633, category page lines 437-462 and 646-650).
The two buttons first send the update of the task and write the marker only when it
succeeds (`putOk`); closing the dialog writes it at once. -/
def resolveConfirmation (storage : Storage) (action : Resolution) (taskId : String)
    (putOk : Bool) (clock : Nat) : Storage :=
  match action with
  | .dismiss => setKey storage (confirmKey taskId) (toString clock)
  | _ => if putOk then setKey storage (confirmKey taskId) (toString clock) else storage

/-- What can happen on the pages during a browser session, as far as `sessionStorage` and
confirmation prompts go. A Dashboard run takes the value of `confirmationTask` it sees. -/
inductive SessionEvent where
  | dashboardRun (now : Nat) (confirmationTask : Option ClientTask) (tasks : List ClientTask)
  | categoryRun (now : Nat) (tasks : List ClientTask)
  | categoryResume (now : Nat) (tasks : List ClientTask)
  | categoryTick (tick : Nat) (task : ClientTask) (endTime : Int)
  | resolve (action : Resolution) (taskId : String) (putOk : Bool) (clock : Nat)

/-- One event: `sessionStorage` afterwards and the tasks passed to `setConfirmationTask`. -/
def sessionStep (storage : Storage) : SessionEvent → Storage × List ClientTask
  | .dashboardRun now ct tasks =>
    ((checkDeadlines now ct storage tasks).storage,
      (checkDeadlines now ct storage tasks).confirmCalls)
  | .categoryRun now tasks =>
    ((categoryCheckDeadlines now storage tasks).storage,
      (categoryCheckDeadlines now storage tasks).confirmCalls)
  | .categoryResume now tasks =>
    ((tasks.foldl (resumeTimer now)
        { storage := storage, upcoming := [], toasts := [], confirmCalls := [] }).storage,
      (tasks.foldl (resumeTimer now)
        { storage := storage, upcoming := [], toasts := [], confirmCalls := [] }).confirmCalls)
  | .categoryTick tick task endTime =>
    ((timerTick tick { storage := storage, upcoming := [], toasts := [], confirmCalls := [] }
        task endTime).storage,
      (timerTick tick { storage := storage, upcoming := [], toasts := [], confirmCalls := [] }
        task endTime).confirmCalls)
  | .resolve action taskId putOk clock =>
    (resolveConfirmation storage action taskId putOk clock, [])

/-- All the tasks passed to `setConfirmationTask` during a sequence of events, in order. -/
def sessionConfirmCalls (storage : Storage) : List SessionEvent → List ClientTask
  | [] => []
  | e :: es => (sessionStep storage e).2 ++ sessionConfirmCalls (sessionStep storage e).1 es

/-- `sessionStorage` after a sequence of events. -/
def sessionStorageAfter (storage : Storage) : List SessionEvent → Storage
  | [] => storage
  | e :: es => sessionStorageAfter (sessionStep storage e).1 es

/-! ## Timing keys of a task (`routes/tasks.js`, lines 146-155, and `models/Task.js`) -/

/-- What a stored task document holds under `startedAt` and `estimatedCompletionTime`. -/
def timingKeys (t : Task) : Option Int × Option Int :=
  (t.startedAt, t.estimatedCompletionTime)

/-- The invariant of the data model on the timing keys: `startedAt` and the estimate are
set together, and only while the status is `In Progress`. -/
def timingMatchesStatus (t : Task) : Prop :=
  (t.startedAt ≠ none ↔ t.estimatedCompletionTime ≠ none) ∧
    (t.startedAt ≠ none → t.status = "In Progress")

instance (t : Task) : Decidable (timingMatchesStatus t) := by
  unfold timingMatchesStatus
  infer_instance

/-- The request body `{ status: 'In Progress', startedAt: ..., estimatedCompletionTime }`
that `handleEstimationSubmit` of the category page sends (`CategoryView.jsx`, lines
386-390); the route does not read the body's `startedAt`. -/
def bodyStart (estimate : Int) : UpdateBody :=
  { dueDate := none, status := some "In Progress", estimatedCompletionTime := some estimate }

/-! ## Runs of the presence registry -/

/-- What a connected client can make the registry do: emit `authenticate` with a user id
on a socket (any number of times, with any ids), or close the socket. -/
inductive RegistryEvent where
  | authenticate (socket : SocketId) (userId : UserId)
  | disconnect (socket : SocketId)
deriving DecidableEq, Repr

/-- The handler that an event runs. -/
def registryStep (s : Server) : RegistryEvent → Server
  | .authenticate socket userId => authenticate s socket userId
  | .disconnect socket => disconnect s socket

/-- The registry after a sequence of events, handled one after the other. -/
def runRegistry (s : Server) (events : List RegistryEvent) : Server :=
  events.foldl registryStep s

/-- What a run keeps true when no socket authenticates under two different ids and no id
is empty: an entry of `userSockets` points at a socket whose `userId` is the entry's user. -/
def RegistryInv (s : Server) (rest : List RegistryEvent) : Prop :=
  (∀ u h, s.userSockets u = some h → s.socketUserId h = some u) ∧
  (∀ h u, s.socketUserId h = some u →
    u ≠ "" ∧ ∀ u', RegistryEvent.authenticate h u' ∈ rest → u' = u)


/-! ## Accepting a friend request (`routes/friends.js`, lines 63-71) and runs of the
social operations -/

/-- The update `{ $set: { 'friends.$.status': 'accepted' } }` on the first array element
matching `'friends.user': peer`. -/
def acceptFirst (peer : UserId) : List Friend → List Friend
  | [] => []
  | f :: fs =>
    if f.user = peer then { f with status := "accepted" } :: fs
    else f :: acceptFirst peer fs

/-- The call `User.updateOne({ _id: user, 'friends.user': peer }, { $set: ... })` of the
accept route. -/
def setAccepted (users : UserId → Option User) (user peer : UserId) : UserId → Option User :=
  match users user with
  | some u => setKey users user { u with friends := acceptFirst peer u.friends }
  | none => users

/-- Which awaited database calls of the accept route reject. -/
structure AcceptFaults where
  recipientUpdate : Bool
  senderUpdate : Bool

/-- Route `router.put('/accept/:userId')` for the authenticated user `recipientId`
(`req.user.id`) and the sender `senderId` (`req.params.userId`). The route does not test
that a request of the sender is pending. A rejection goes to the `catch`, which answers 500
and keeps the update already made. -/
def acceptFriend (db : Db) (f : AcceptFaults) (recipientId senderId : UserId) : RouteResult :=
  if f.recipientUpdate then
    { db := db, code := 500, emitted := [] }
  else
    let users1 := setAccepted db.users recipientId senderId
    if f.senderUpdate then
      { db := { db with users := users1 }, code := 500, emitted := [] }
    else
      { db := { db with users := setAccepted users1 senderId recipientId }, code := 200
        emitted := [] }

/-- An operation on the friends lists as it reaches the server, with the presence registry
and the database behaviour it meets: a friend request of `senderId` to `recipientId`, the
acceptance by `recipientId` of a request of `senderId`, a `sendMessage` event, or
`reqUser` marking the messages of `friendId` as read. -/
inductive SocialOp where
  | request (srv : Server) (f : FriendFaults) (senderId recipientId : UserId)
  | accept (f : AcceptFaults) (recipientId senderId : UserId)
  | send (srv : Server) (f : RelayFaults) (data : SendData)
  | read (updateFails : Bool) (reqUser friendId : UserId)

/-- The store after one operation. -/
def socialStep (db : Db) : SocialOp → Db
  | .request srv f senderId recipientId => (requestFriend srv db f senderId recipientId).db
  | .accept f recipientId senderId => (acceptFriend db f recipientId senderId).db
  | .send srv f data => (sendMessage srv db f data).db
  | .read updateFails reqUser friendId => (readMessages db updateFails reqUser friendId).db

/-- The store after a sequence of operations, served one after the other. -/
def runSocial (db : Db) (ops : List SocialOp) : Db :=
  ops.foldl socialStep db

/-- An operation that is not cut between its two writes by a database failure: in a
friend request the second `$push` does not reject, in an acceptance the second update does
not reject. -/
def SocialOp.whole : SocialOp → Prop
  | .request _ f _ _ => f.recipientPush = false
  | .accept f _ _ => f.senderUpdate = false
  | .send _ _ _ => True
  | .read _ _ _ => True

/-- A request or an acceptance between two different users. -/
def SocialOp.distinct : SocialOp → Prop
  | .request _ _ senderId recipientId => senderId ≠ recipientId
  | .accept _ recipientId senderId => recipientId ≠ senderId
  | .send _ _ _ => True
  | .read _ _ _ => True

instance (op : SocialOp) : Decidable op.whole := by
  cases op <;> unfold SocialOp.whole <;> infer_instance

instance (op : SocialOp) : Decidable op.distinct := by
  cases op <;> unfold SocialOp.distinct <;> infer_instance

/-- The status of the first entry for `peer` in a `friends` array, if there is one. -/
def statusIn (l : List Friend) (peer : UserId) : Option String :=
  (l.find? fun g => g.user = peer).map Friend.status

/-- The status `user` holds for `peer`. -/
def statusFor (users : UserId → Option User) (user peer : UserId) : Option String :=
  statusIn (friendsOf users user) peer

/-- The pairs of statuses two users may hold for each other: none on both sides, a request
on its way, or an accepted friendship. -/
def PairOk (s s' : Option String) : Prop :=
  (s = none ∧ s' = none) ∨ (s = some "sent" ∧ s' = some "pending") ∨
  (s = some "pending" ∧ s' = some "sent") ∨ (s = some "accepted" ∧ s' = some "accepted")

/-- What the social operations keep true of the user collection: no `friends` array holds
two entries for the same peer, no counter is negative, and two different stored users hold
matching statuses for each other. -/
def SocialInv (users : UserId → Option User) : Prop :=
  (∀ a, ((friendsOf users a).map Friend.user).Nodup) ∧
  (∀ a, ∀ g ∈ friendsOf users a, 0 ≤ g.unreadCount) ∧
  (∀ a b, a ≠ b → (users a).isSome = true → (users b).isSome = true →
    PairOk (statusFor users a b) (statusFor users b a))

/-- The rewriting of the `friends` array of one stored user, the common form of the
updates of the friends routes and of the message relay. -/
def updateFriends (users : UserId → Option User) (id : UserId)
    (h : List Friend → List Friend) : UserId → Option User :=
  match users id with
  | some u => setKey users id { u with friends := h u.friends }
  | none => users

/-! ## The connection of a `sendMessage` event (`server.js`, lines 39-77) -/

/-- The `sendMessage` handler of the connection whose socket has the id `socket`. Each
connection registers the handler of line 53, a closure over its `socket`; the body of the
handler refers to `socket` at no point, neither to `socket.id` nor to `socket.userId`. -/
def onSendMessage (srv : Server) (_socket : SocketId) (db : Db) (f : RelayFaults)
    (data : SendData) : RelayResult :=
  sendMessage srv db f data

/-! ## The conversation room of the chat window (`components/ChatWindow.jsx`, lines 16,
36 and 52-65)

A JavaScript string is a sequence of UTF-16 code units, and `Array.prototype.sort` without
a comparator orders strings by their code units. The ids are strings here, so the code
units of a string are computed from its characters. -/

/-- The UTF-16 code units of a character: itself below `0x10000`, a surrogate pair above. -/
def utf16 (c : Char) : List Nat :=
  if c.toNat < 65536 then [c.toNat]
  else [55296 + (c.toNat - 65536) / 1024, 56320 + (c.toNat - 65536) % 1024]

/-- The code units of a list of characters. -/
def codeUnitsOf : List Char → List Nat
  | [] => []
  | c :: cs => utf16 c ++ codeUnitsOf cs

/-- The code units of a string. -/
def codeUnits (s : String) : List Nat := codeUnitsOf s.data

/-- The comparison `x < y` of two strings given by their code units: at the first
position where they differ the smaller code unit decides, and a proper start of a string is
smaller than the string. -/
def unitsLess : List Nat → List Nat → Bool
  | _, [] => false
  | [], _ :: _ => true
  | x :: xs, y :: ys => if x < y then true else if y < x then false else unitsLess xs ys

/-- The comparison `a < b` of two JavaScript strings. -/
def jsLess (a b : String) : Bool := unitsLess (codeUnits a) (codeUnits b)

/-- The array `[x, y].sort()`: the sort is stable and uses the default comparator, so the
two elements change places exactly when `y < x`. -/
def sortPair (x y : String) : String × String :=
  if jsLess y x then (y, x) else (x, y)

/-- Line 16: `roomName = [currentUser.id, friend._id].sort().join('-')`. -/
def roomName (currentUserId friendId : String) : String :=
  (sortPair currentUserId friendId).1 ++ "-" ++ (sortPair currentUserId friendId).2

/-- Line 36: the argument of the `joinRoom` event that the chat window of `currentUserId`
with `friendId` emits when it opens. -/
def joinedRoom (currentUserId friendId : String) : String :=
  roomName currentUserId friendId

/-- Lines 52-65: the argument of the `sendMessage` event that `handleSendMessage` emits for
the text `newMessage`; `none` when the text is blank and nothing is emitted. -/
def handleSendMessage (currentUserId friendId newMessage : String) : Option SendData :=
  if trim newMessage = "" then none
  else some { fromUser := currentUserId, toUser := friendId, content := trim newMessage
              roomName := roomName currentUserId friendId }

/-! ## Sample data -/

/-- A user who has 100 points, a streak of 5, and last completed a task on
1 March 2024 at 09:00 UTC. -/
def sampleUser : User :=
  { username := "asha", points := 100, streak := 5
    lastCompletionDate := some 1709283600000, friends := [] }

/-- A task in progress, due on 5 March 2024 at 00:00 UTC. -/
def sampleTask : Task :=
  { status := "In Progress", completed := false, dueDate := some 1709596800000
    completedAt := none }

/-- A store holding `sampleUser` and `sampleTask`. -/
def sampleDb : Db :=
  { users := setKey (fun _ => none) "64b7f0a1c2d3e4f5a6b7c8d9" sampleUser
    tasks := setKey (fun _ => none) "64b7f0a1c2d3e4f5a6b7c8aa" sampleTask
    messages := [] }

/-- A database that answers every call. -/
def noTaskFaults : TaskFaults :=
  { taskFind := false, userFind := false, userSave := false, taskWrite := false }

/-- The request body `{ status: 'Done' }`. -/
def bodyDone : UpdateBody :=
  { dueDate := none, status := some "Done", estimatedCompletionTime := none }

/-- The sample task once completed on 1 March 2024 at 10:00 UTC. -/
def sampleDoneTask : Task :=
  { status := "Done", completed := true, dueDate := some 1709596800000
    completedAt := some 1709287200000 }

/-- The sample store with the task completed. -/
def sampleDoneDb : Db :=
  { sampleDb with tasks := setKey (fun _ => none) "64b7f0a1c2d3e4f5a6b7c8aa" sampleDoneTask }

/-- The sample store with the task as `router.post("/")` creates it. -/
def sampleNewDb : Db :=
  { sampleDb with
    tasks := setKey (fun _ => none) "64b7f0a1c2d3e4f5a6b7c8aa" (Task.create none) }

/-- A request of the sample user on the sample task that sets the given status. -/
def sampleRequest (status : String) (now : Int) : PutRequest :=
  { faults := noTaskFaults, reqUser := "64b7f0a1c2d3e4f5a6b7c8d9"
    id := "64b7f0a1c2d3e4f5a6b7c8aa"
    body := { dueDate := none, status := some status, estimatedCompletionTime := some 30 }
    now := now, today := now + 2 }

/-- A database whose task write rejects while every other call is answered. -/
def taskWriteFails : TaskFaults :=
  { taskFind := false, userFind := false, userSave := false, taskWrite := true }

/-- The id of the sample user `asha`. -/
def ashaId : UserId := "64b7f0a1c2d3e4f5a6b7c8d9"

/-- The id of a second user, `bala`. -/
def balaId : UserId := "64b7f0a1c2d3e4f5a6b7c8e0"

/-- The id of a third user, `chitra`, who is in nobody's friends list. -/
def chitraId : UserId := "64b7f0a1c2d3e4f5a6b7c8f1"

/-- A store in which `asha` and `bala` are friends; `bala` has 3 unread messages from
`asha`. -/
def chatDb : Db :=
  { users :=
      setKey (setKey (setKey (fun _ => none)
        ashaId { username := "asha", points := 100, streak := 5, lastCompletionDate := none
                 friends := [{ user := balaId, status := "accepted", unreadCount := 0 }] })
        balaId { username := "bala", points := 40, streak := 1, lastCompletionDate := none
                 friends := [{ user := ashaId, status := "accepted", unreadCount := 3 }] })
        chitraId { username := "chitra", points := 0, streak := 0, lastCompletionDate := none
                   friends := [] }
    tasks := fun _ => none
    messages := [] }

/-- A database that answers every call of the `sendMessage` handler. -/
def noRelayFaults : RelayFaults :=
  { messageSave := false, senderFind := false, unreadUpdate := false }

/-- The message `hi` to `bala`, sent in the room the chat window computes for the pair. -/
def hiToBala (fromUser : UserId) : SendData :=
  { fromUser := fromUser, toUser := balaId, content := "hi"
    roomName := "64b7f0a1c2d3e4f5a6b7c8d9-64b7f0a1c2d3e4f5a6b7c8e0" }

/-- A message to `bala` whose content is blank. -/
def blankToBala : SendData :=
  { fromUser := ashaId, toUser := balaId, content := "   "
    roomName := "64b7f0a1c2d3e4f5a6b7c8d9-64b7f0a1c2d3e4f5a6b7c8e0" }

/-- The connection state in which `bala` is authenticated on socket `sockB`. -/
def balaOnline : Server := authenticate Server.init "sockB" balaId

/-- A database that answers every call of the friend-request route. -/
def noFriendFaults : FriendFaults :=
  { recipientFind := false, senderPush := false, recipientPush := false, senderFind := false }

/-- The clock reading of the sample runs: 2 March 2024, 10:00:00 UTC. -/
def clockNow : Nat := 1709373600000

/-- A task that is not started and was due one second before `clockNow`. -/
def invoiceTask : ClientTask :=
  { id := "64b7f0a1c2d3e4f5a6b7c8a3", title := "invoice", status := "To Do"
    dueDate := some 1709373599000, startedAt := none, estimatedCompletionTime := none }

/-- A task started at 09:00 with an estimate of 30 minutes, so its timer ended at 09:30;
it has no due date. -/
def reportTask : ClientTask :=
  { id := "64b7f0a1c2d3e4f5a6b7c8a1", title := "report", status := "In Progress"
    dueDate := none, startedAt := some 1709370000000, estimatedCompletionTime := some 30 }

/-- A task started at 09:00 with an estimate of 45 minutes, so its timer ended at 09:45;
it has no due date. -/
def slidesTask : ClientTask :=
  { id := "64b7f0a1c2d3e4f5a6b7c8a2", title := "slides", status := "In Progress"
    dueDate := none, startedAt := some 1709370000000, estimatedCompletionTime := some 45 }

/-- A page just loaded in a new browser session: empty `sessionStorage`, no confirmation
outstanding, empty alert panel. -/
def freshPage : Page :=
  { storage := fun _ => none, confirmationTask := none, taskAlerts := [] }

/-- A task started 26 hours before `clockNow` with an estimate of 60 minutes: its timer
ended 25 hours ago. -/
def staleTask : ClientTask :=
  { id := "64b7f0a1c2d3e4f5a6b7c8a4", title := "backup", status := "In Progress"
    dueDate := none, startedAt := some 1709280000000, estimatedCompletionTime := some 60 }

/-- A stored document that holds a start time (29 February 2024, 08:00 UTC) and an estimate
of 30 minutes under the two keys the schema does not declare, with the status `To Do`. -/
def timedTask : Task :=
  { status := "To Do", completed := false, dueDate := none, completedAt := none
    startedAt := some 1709193600000, estimatedCompletionTime := some 30 }

/-- The sample store with `timedTask` as the stored task. -/
def timedDb : Db :=
  { sampleDb with tasks := setKey (fun _ => none) "64b7f0a1c2d3e4f5a6b7c8aa" timedTask }

/-- A database that answers every call of the accept route. -/
def noAcceptFaults : AcceptFaults :=
  { recipientUpdate := false, senderUpdate := false }

/-- A store holding the users `asha`, `bala` and `chitra` as the registration route creates
them: no points, no streak, no friends. -/
def newUsersDb : Db :=
  { users :=
      setKey (setKey (setKey (fun _ => none)
        ashaId { username := "asha", points := 0, streak := 0, lastCompletionDate := none
                 friends := [] })
        balaId { username := "bala", points := 0, streak := 0, lastCompletionDate := none
                 friends := [] })
        chitraId { username := "chitra", points := 0, streak := 0, lastCompletionDate := none
                   friends := [] }
    tasks := fun _ => none
    messages := [] }

/-- The user `asha` sends a friend request to `bala`, who accepts it; `bala` is offline and
every database call is answered. -/
def requestThenAccept : List SocialOp :=
  [.request Server.init noFriendFaults ashaId balaId, .accept noAcceptFaults balaId ashaId]

/-- The connection state in which `bala` is authenticated on socket `sockB` and `chitra` on
socket `sockC`. -/
def chitraOnline : Server := authenticate balaOnline "sockC" chitraId

/-- The task `report` after it was set back and started again at 11:00, one hour after
`clockNow`, with an estimate of 30 minutes: its new timer ends at 11:30. -/
def restartedReport : ClientTask :=
  { reportTask with startedAt := some 1709377200000, estimatedCompletionTime := some 30 }

/-- The clock at 12:00, two hours after `clockNow`. -/
def clockLater : Nat := 1709380800000

/-! ## Theorems: presence registry -/

theorem setKey_same {α : Type} (m : String → Option α) (k : String) (v : α) :
    setKey m k v k = some v := by
  simp [setKey]

theorem setKey_other {α : Type} (m : String → Option α) (k k' : String) (v : α) (h : k' ≠ k) :
    setKey m k v k' = m k' := by
  simp [setKey, h]

theorem setKey_idem {α : Type} (m : String → Option α) (k : String) (v : α) :
    setKey (setKey m k v) k v = setKey m k v := by
  funext x
  by_cases hx : x = k <;> simp [setKey, hx]

theorem truthy_some (x : String) (h : x ≠ "") : truthy (some x) = true := by
  simp [truthy, h]

/-- C1 (the code's behaviour): when socket `A` authenticates as the user `U` (a non-empty
id), then socket `B` authenticates as `U`, and then `A` disconnects, the registry has no
entry for `U` any more: the disconnect of `A` deletes the entry that points at `B`. -/
theorem disconnect_evicts_newer_registration (s : Server) (U : UserId) (A B : SocketId)
    (hU : U ≠ "") :
    (authenticate (authenticate s A U) B U).userSockets U = some B ∧
    (disconnect (authenticate (authenticate s A U) B U) A).userSockets U = none := by
  have hA : (authenticate (authenticate s A U) B U).socketUserId A = some U := by
    by_cases hAB : A = B <;> simp [authenticate, setKey, hAB]
  refine ⟨by simp [authenticate, setKey], ?_⟩
  unfold disconnect
  rw [hA, truthy_some U hU]
  simp [deleteKey]

theorem disconnect_evicts_newer_registration_witness :
    ("64b7f0a1c2d3e4f5a6b7c8d9" : UserId) ≠ "" ∧ ("sockA" : SocketId) ≠ "sockB" ∧
    (authenticate (authenticate Server.init "sockA" "64b7f0a1c2d3e4f5a6b7c8d9") "sockB"
      "64b7f0a1c2d3e4f5a6b7c8d9").userSockets "64b7f0a1c2d3e4f5a6b7c8d9" = some "sockB" ∧
    (disconnect (authenticate (authenticate Server.init "sockA" "64b7f0a1c2d3e4f5a6b7c8d9") "sockB"
      "64b7f0a1c2d3e4f5a6b7c8d9") "sockA").userSockets "64b7f0a1c2d3e4f5a6b7c8d9" = none :=
  ⟨by decide, by decide,
    disconnect_evicts_newer_registration Server.init "64b7f0a1c2d3e4f5a6b7c8d9" "sockA" "sockB"
      (by decide)⟩

/-- C2: from every state, after `authenticate` of `U` on socket `A` and then on socket `B`,
the registry maps `U` to `B`, the entry of every other user is the one it was before, and
a second `authenticate` of `U` on `B` leaves the whole connection state unchanged. -/
theorem authenticate_last_write_wins (s : Server) (U : UserId) (A B : SocketId) :
    (authenticate (authenticate s A U) B U).userSockets U = some B ∧
    (∀ V : UserId, V ≠ U →
      (authenticate (authenticate s A U) B U).userSockets V = s.userSockets V) ∧
    authenticate (authenticate (authenticate s A U) B U) B U
      = authenticate (authenticate s A U) B U := by
  refine ⟨by simp [authenticate, setKey], ?_, ?_⟩
  · intro V hV
    simp [authenticate, setKey, hV]
  · simp only [authenticate, setKey_idem]

theorem authenticate_last_write_wins_witness :
    (authenticate (authenticate (authenticate Server.init "sock0" "64b7f0a1c2d3e4f5a6b7c8e0")
      "sockA" "64b7f0a1c2d3e4f5a6b7c8d9") "sockB" "64b7f0a1c2d3e4f5a6b7c8d9").userSockets
        "64b7f0a1c2d3e4f5a6b7c8e0" = some "sock0" :=
  ((authenticate_last_write_wins (authenticate Server.init "sock0" "64b7f0a1c2d3e4f5a6b7c8e0")
      "64b7f0a1c2d3e4f5a6b7c8d9" "sockA" "sockB").2.1 "64b7f0a1c2d3e4f5a6b7c8e0" (by decide)).trans
    (by decide)

/-! ## Theorems: completion and scoring -/

theorem setHoursZero_eq (tz t : Int) :
    setHoursZero tz t = oneDay * calendarDay tz t - tz := by
  have h := Int.emod_add_ediv (t + tz) oneDay
  unfold setHoursZero calendarDay
  omega

/-- The helper compares calendar days: it answers `true` exactly when the local calendar
days of the two instants are one apart. -/
theorem areConsecutiveDays_iff (tz a b : Int) :
    areConsecutiveDays tz (some a) (some b) = true ↔
      (calendarDay tz a - calendarDay tz b).natAbs = 1 := by
  simp only [areConsecutiveDays, setHoursZero_eq, beq_iff_eq]
  have h1 : oneDay * calendarDay tz a - tz - (oneDay * calendarDay tz b - tz)
      = oneDay * (calendarDay tz a - calendarDay tz b) := by ring
  rw [h1, Int.natAbs_mul]
  generalize (calendarDay tz a - calendarDay tz b).natAbs = n
  have h2 : oneDay.natAbs = 86400000 := by decide
  rw [h2]
  unfold oneDay
  push_cast
  omega

theorem buildUpdateFields_status (body : UpdateBody) (now : Int) :
    (buildUpdateFields body now).status = body.status := by
  unfold buildUpdateFields
  cases h : body.status with
  | none => rfl
  | some st => by_cases hs : st = "In Progress" <;> simp [hs]

theorem buildUpdateFields_completedAt (body : UpdateBody) (now : Int) :
    (buildUpdateFields body now).completedAt = none := by
  unfold buildUpdateFields
  cases h : body.status with
  | none => rfl
  | some st => by_cases hs : st = "In Progress" <;> simp [hs]

/-- Every way the update route can end, read off its control flow. -/
theorem putTask_cases (tz : Int) (db : Db) (f : TaskFaults) (reqUser : UserId) (id : TaskId)
    (body : UpdateBody) (now today : Int) (r : PutResult)
    (hr : r = putTask tz db f reqUser id body now today) :
    (r.db = db ∧ r.code ≠ 200) ∨
    ∃ t, db.tasks id = some t ∧ f.taskFind = false ∧
      ((marksDone body t ∧ f.userFind = false ∧ f.userSave = false ∧
          ∃ u, db.users reqUser = some u ∧
            ((f.taskWrite = true ∧ r.code = 500 ∧ r.db =
              Db.mk (setKey db.users reqUser (scoreCompletion tz u t now today)) db.tasks
                db.messages) ∨
             (f.taskWrite = false ∧ r.code = 200 ∧ r.db =
              Db.mk (setKey db.users reqUser (scoreCompletion tz u t now today))
                (setKey db.tasks id
                  (applySet t (setCompletedAt (buildUpdateFields body now) (some now))))
                db.messages))) ∨
       (¬ marksDone body t ∧ revertsDone body t ∧ f.taskWrite = false ∧ r.code = 200 ∧
          r.db = Db.mk db.users
            (setKey db.tasks id (applySet t (setCompletedAt (buildUpdateFields body now) none)))
            db.messages) ∨
       (¬ marksDone body t ∧ ¬ revertsDone body t ∧ f.taskWrite = false ∧ r.code = 200 ∧
          r.db = Db.mk db.users
            (setKey db.tasks id (applySet t (buildUpdateFields body now))) db.messages)) := by
  subst hr
  by_cases h1 : f.taskFind = true
  · left; simp [putTask, h1]
  cases ht : db.tasks id with
  | none => left; simp [putTask, h1, ht]
  | some t =>
    have h1' : f.taskFind = false := by simpa using h1
    by_cases hm : marksDone body t
    · have hm1 := hm.1
      have hm2 := hm.2
      by_cases h2 : f.userFind = true
      · left; simp [putTask, h1, ht, buildUpdateFields_status, hm1, hm2, h2]
      cases hu : db.users reqUser with
      | none => left; simp [putTask, h1, ht, buildUpdateFields_status, hm1, hm2, h2, hu]
      | some u =>
        by_cases h3 : f.userSave = true
        · left; simp [putTask, h1, ht, buildUpdateFields_status, hm1, hm2, h2, hu, h3]
        right
        refine ⟨t, rfl, h1', Or.inl ⟨hm, by simpa using h2, by simpa using h3, u, rfl, ?_⟩⟩
        by_cases hw : f.taskWrite = true
        · left
          simp [putTask, writeTask, h1, ht, buildUpdateFields_status, hm1, hm2, h2, hu, h3, hw]
        · right
          simp [putTask, writeTask, h1, ht, buildUpdateFields_status, hm1, hm2, h2, hu, h3, hw]
    · have hm' : ((buildUpdateFields body now).status == some "Done" && t.status != "Done") = false := by
        rw [buildUpdateFields_status]
        unfold marksDone at hm
        by_cases hb : body.status = some "Done"
        · have : t.status = "Done" := by
            by_contra hc
            exact hm ⟨hb, hc⟩
          simp [hb, this]
        · simp [hb]
      by_cases hw : f.taskWrite = true
      · left; simp [putTask, writeTask, h1, ht, hm', hw]
      by_cases hv : revertsDone body t
      · right
        refine ⟨t, rfl, h1', Or.inr (Or.inl ⟨hm, hv, by simpa using hw, ?_⟩)⟩
        have hv' : (truthy body.status && body.status != some "Done" && t.status == "Done") = true := by
          obtain ⟨a, b, c⟩ := hv
          simp [a, b, c]
        simp [putTask, writeTask, h1, ht, hm', hw, hv']
      · right
        refine ⟨t, rfl, h1', Or.inr (Or.inr ⟨hm, hv, by simpa using hw, ?_⟩)⟩
        have hv' : (truthy body.status && body.status != some "Done" && t.status == "Done") = false := by
          unfold revertsDone at hv
          by_contra hc
          simp at hc
          exact hv hc
        simp [putTask, writeTask, h1, ht, hm', hw, hv']

theorem applySet_status (t : Task) (u : UpdateFields) :
    (applySet t u).status = u.status.getD t.status := rfl

theorem applySet_completedAt (t : Task) (u : UpdateFields) :
    (applySet t u).completedAt = u.completedAt.getD t.completedAt := rfl

/-- An update that takes a stored task from a status other than `Done` to `Done` went
through the scoring block: the requesting user exists, is stored with the award, and the
task got `completedAt = now`. -/
theorem putTask_into_done (tz : Int) (db : Db) (f : TaskFaults) (reqUser : UserId) (id : TaskId)
    (body : UpdateBody) (now today : Int) (t t' : Task)
    (hbefore : db.tasks id = some t) (hnd : t.status ≠ "Done")
    (hafter : (putTask tz db f reqUser id body now today).db.tasks id = some t')
    (hd : t'.status = "Done") :
    ∃ u, db.users reqUser = some u ∧
      (putTask tz db f reqUser id body now today).db.users
        = setKey db.users reqUser (scoreCompletion tz u t now today) ∧
      t'.completedAt = some now := by
  rcases putTask_cases tz db f reqUser id body now today _ rfl with
    ⟨h, _⟩ | ⟨t0, ht0, _, h⟩
  · rw [h, hbefore] at hafter
    cases hafter
    exact absurd hd hnd
  · rw [hbefore] at ht0
    cases ht0
    rcases h with ⟨_, _, _, u, hu, h⟩ | ⟨_, hv, _⟩ | ⟨hm, _, _, _, h⟩
    · rcases h with ⟨_, _, h⟩ | ⟨_, _, h⟩
      · rw [h] at hafter
        simp only [hbefore] at hafter
        cases hafter
        exact absurd hd hnd
      · refine ⟨u, hu, by rw [h], ?_⟩
        rw [h] at hafter
        simp only [setKey_same] at hafter
        cases hafter
        simp [applySet_completedAt, setCompletedAt]
    · exact absurd hv.2.2 hnd
    · exfalso
      rw [h] at hafter
      simp only [setKey_same] at hafter
      cases hafter
      rw [applySet_status, buildUpdateFields_status] at hd
      cases hs : body.status with
      | none => rw [hs] at hd; exact hnd hd
      | some st =>
        rw [hs] at hd
        simp only [Option.getD_some] at hd
        exact hm ⟨by rw [hs, hd], hnd⟩

theorem scoreCompletion_points (tz : Int) (u : User) (t : Task) (now today : Int) :
    (scoreCompletion tz u t now today).points
      = u.points + (10 + onTimeBonus t now + 2 * (scoreCompletion tz u t now today).streak) := by
  unfold scoreCompletion onTimeBonus
  by_cases hc : areConsecutiveDays tz (some today) u.lastCompletionDate = true <;>
  by_cases h0 : u.streak = 0 <;>
  cases t.dueDate with
  | none => simp [hc, h0, mul_comm]
  | some due => by_cases h : now ≤ due <;> simp [hc, h0, h, mul_comm]

theorem scoreCompletion_streak (tz : Int) (u : User) (t : Task) (now today : Int) :
    (scoreCompletion tz u t now today).streak
      = if areConsecutiveDays tz (some today) u.lastCompletionDate = true then u.streak + 1
        else 1 := by
  unfold scoreCompletion
  by_cases h : u.streak = 0 <;> simp [h]

theorem scoreCompletion_lastCompletionDate (tz : Int) (u : User) (t : Task) (now today : Int) :
    (scoreCompletion tz u t now today).lastCompletionDate = some today := rfl

/-- C3: for every update that takes a stored task from a status other than `Done` to
`Done`, the requesting user is stored with `points` increased by exactly
`10 + (5 if the task has a due date and completedAt <= dueDate, else 0) + 2 * streak`,
`streak` being the user's streak after the update; `lastCompletionDate` becomes the time
read by the scoring block and the task's `completedAt` the time read just before. In
particular an on-time completion on the calendar day after the previous completion awards
`10 + 5 + 2 * (previous streak + 1)`. -/
theorem scoring_formula (tz : Int) (db : Db) (f : TaskFaults) (reqUser : UserId) (id : TaskId)
    (body : UpdateBody) (now today : Int) (t t' : Task)
    (hbefore : db.tasks id = some t) (hnd : t.status ≠ "Done")
    (hafter : (putTask tz db f reqUser id body now today).db.tasks id = some t')
    (hd : t'.status = "Done") :
    ∃ u u', db.users reqUser = some u ∧
      (putTask tz db f reqUser id body now today).db.users reqUser = some u' ∧
      u'.points = u.points + (10 + onTimeBonus t now + 2 * u'.streak) ∧
      u'.lastCompletionDate = some today ∧
      t'.completedAt = some now ∧
      (∀ due last, t.dueDate = some due → now ≤ due → u.lastCompletionDate = some last →
        calendarDay tz today = calendarDay tz last + 1 →
        u'.points = u.points + (10 + 5 + 2 * (u.streak + 1))) := by
  obtain ⟨u, hu, hus, hc⟩ :=
    putTask_into_done tz db f reqUser id body now today t t' hbefore hnd hafter hd
  refine ⟨u, scoreCompletion tz u t now today, hu, by rw [hus, setKey_same],
    scoreCompletion_points tz u t now today, rfl, hc, ?_⟩
  intro due last hdue hle hlast hday
  have hcons : areConsecutiveDays tz (some today) u.lastCompletionDate = true := by
    rw [hlast, areConsecutiveDays_iff, hday]
    simp
  rw [scoreCompletion_points, scoreCompletion_streak, if_pos hcons]
  simp [onTimeBonus, hdue, hle]

theorem scoring_formula_witness :
    ∃ u u', sampleDb.users "64b7f0a1c2d3e4f5a6b7c8d9" = some u ∧
      (putTask 0 sampleDb noTaskFaults "64b7f0a1c2d3e4f5a6b7c8d9" "64b7f0a1c2d3e4f5a6b7c8aa"
        bodyDone 1709373600000 1709373600004).db.users "64b7f0a1c2d3e4f5a6b7c8d9" = some u' ∧
      u'.points = u.points + (10 + onTimeBonus sampleTask 1709373600000 + 2 * u'.streak) ∧
      u'.lastCompletionDate = some 1709373600004 ∧
      (applySet sampleTask (setCompletedAt (buildUpdateFields bodyDone 1709373600000)
        (some 1709373600000))).completedAt = some 1709373600000 ∧
      (∀ due last, sampleTask.dueDate = some due → 1709373600000 ≤ due →
        u.lastCompletionDate = some last →
        calendarDay 0 1709373600004 = calendarDay 0 last + 1 →
        u'.points = u.points + (10 + 5 + 2 * (u.streak + 1))) :=
  scoring_formula 0 sampleDb noTaskFaults "64b7f0a1c2d3e4f5a6b7c8d9" "64b7f0a1c2d3e4f5a6b7c8aa"
    bodyDone 1709373600000 1709373600004 sampleTask
    (applySet sampleTask (setCompletedAt (buildUpdateFields bodyDone 1709373600000)
      (some 1709373600000)))
    (by decide) (by decide) (by decide) (by decide)

/-- The sample completion, one calendar day after the previous one and before the due date:
100 points become `100 + 10 + 5 + 2 * 6`, the streak goes from 5 to 6. -/
theorem putTask_sample_award :
    ((putTask 0 sampleDb noTaskFaults "64b7f0a1c2d3e4f5a6b7c8d9" "64b7f0a1c2d3e4f5a6b7c8aa"
      bodyDone 1709373600000 1709373600004).db.users "64b7f0a1c2d3e4f5a6b7c8d9").map
        (fun u => (u.points, u.streak)) = some (127, 6) := by
  decide

/-- C4: on an update that takes a task into `Done`, if the user's `lastCompletionDate` and
the current time fall on calendar days exactly one apart the new streak is the previous
streak plus one; if they are two or more calendar days apart, or the user has no
`lastCompletionDate`, the new streak is 1. -/
theorem streak_rule (tz : Int) (db : Db) (f : TaskFaults) (reqUser : UserId) (id : TaskId)
    (body : UpdateBody) (now today : Int) (t t' : Task)
    (hbefore : db.tasks id = some t) (hnd : t.status ≠ "Done")
    (hafter : (putTask tz db f reqUser id body now today).db.tasks id = some t')
    (hd : t'.status = "Done") :
    ∃ u u', db.users reqUser = some u ∧
      (putTask tz db f reqUser id body now today).db.users reqUser = some u' ∧
      (∀ last, u.lastCompletionDate = some last →
        (calendarDay tz today - calendarDay tz last).natAbs = 1 → u'.streak = u.streak + 1) ∧
      (∀ last, u.lastCompletionDate = some last →
        2 ≤ (calendarDay tz today - calendarDay tz last).natAbs → u'.streak = 1) ∧
      (u.lastCompletionDate = none → u'.streak = 1) := by
  obtain ⟨u, hu, hus, _⟩ :=
    putTask_into_done tz db f reqUser id body now today t t' hbefore hnd hafter hd
  refine ⟨u, scoreCompletion tz u t now today, hu, by rw [hus, setKey_same], ?_, ?_, ?_⟩
  · intro last hlast hday
    have hcons : areConsecutiveDays tz (some today) u.lastCompletionDate = true := by
      rw [hlast, areConsecutiveDays_iff, hday]
    rw [scoreCompletion_streak, if_pos hcons]
  · intro last hlast hday
    have hcons : ¬ areConsecutiveDays tz (some today) u.lastCompletionDate = true := by
      rw [hlast, areConsecutiveDays_iff]
      omega
    rw [scoreCompletion_streak, if_neg hcons]
  · intro hlast
    have hcons : ¬ areConsecutiveDays tz (some today) u.lastCompletionDate = true := by
      rw [hlast]
      simp [areConsecutiveDays]
    rw [scoreCompletion_streak, if_neg hcons]

theorem streak_rule_witness :
    ∃ u u', sampleDb.users "64b7f0a1c2d3e4f5a6b7c8d9" = some u ∧
      (putTask 0 sampleDb noTaskFaults "64b7f0a1c2d3e4f5a6b7c8d9" "64b7f0a1c2d3e4f5a6b7c8aa"
        bodyDone 1709373600000 1709373600004).db.users "64b7f0a1c2d3e4f5a6b7c8d9" = some u' ∧
      (∀ last, u.lastCompletionDate = some last →
        (calendarDay 0 1709373600004 - calendarDay 0 last).natAbs = 1 →
        u'.streak = u.streak + 1) ∧
      (∀ last, u.lastCompletionDate = some last →
        2 ≤ (calendarDay 0 1709373600004 - calendarDay 0 last).natAbs → u'.streak = 1) ∧
      (u.lastCompletionDate = none → u'.streak = 1) :=
  streak_rule 0 sampleDb noTaskFaults "64b7f0a1c2d3e4f5a6b7c8d9" "64b7f0a1c2d3e4f5a6b7c8aa"
    bodyDone 1709373600000 1709373600004 sampleTask
    (applySet sampleTask (setCompletedAt (buildUpdateFields bodyDone 1709373600000)
      (some 1709373600000)))
    (by decide) (by decide) (by decide) (by decide)

/-- C5 (the code's behaviour): on an update that takes a task into `Done` while the user's
`lastCompletionDate` lies on the same calendar day as the current time, the streak is set
to 1, whatever it was: `areConsecutiveDays` answers `false` and line 170 runs. -/
theorem same_day_completion_resets_streak (tz : Int) (db : Db) (f : TaskFaults)
    (reqUser : UserId) (id : TaskId) (body : UpdateBody) (now today : Int) (t t' : Task)
    (hbefore : db.tasks id = some t) (hnd : t.status ≠ "Done")
    (hafter : (putTask tz db f reqUser id body now today).db.tasks id = some t')
    (hd : t'.status = "Done") :
    ∃ u u', db.users reqUser = some u ∧
      (putTask tz db f reqUser id body now today).db.users reqUser = some u' ∧
      (∀ last, u.lastCompletionDate = some last →
        calendarDay tz today = calendarDay tz last → u'.streak = 1) := by
  obtain ⟨u, hu, hus, _⟩ :=
    putTask_into_done tz db f reqUser id body now today t t' hbefore hnd hafter hd
  refine ⟨u, scoreCompletion tz u t now today, hu, by rw [hus, setKey_same], ?_⟩
  intro last hlast hday
  have hcons : ¬ areConsecutiveDays tz (some today) u.lastCompletionDate = true := by
    rw [hlast, areConsecutiveDays_iff, hday]
    simp
  rw [scoreCompletion_streak, if_neg hcons]

/-- The sample user (streak 5, last completion on 1 March 2024 at 09:00 UTC) completes the
sample task on 1 March 2024 at 10:00 UTC: the stored streak is 1, not 5. -/
theorem same_day_completion_resets_streak_witness :
    (sampleDb.users "64b7f0a1c2d3e4f5a6b7c8d9").map User.streak = some 5 ∧
    ((putTask 0 sampleDb noTaskFaults "64b7f0a1c2d3e4f5a6b7c8d9" "64b7f0a1c2d3e4f5a6b7c8aa"
      bodyDone 1709287200000 1709287200004).db.users "64b7f0a1c2d3e4f5a6b7c8d9").map
        User.streak = some 1 := by
  obtain ⟨u, u', hu, hu', h⟩ :=
    same_day_completion_resets_streak 0 sampleDb noTaskFaults "64b7f0a1c2d3e4f5a6b7c8d9"
      "64b7f0a1c2d3e4f5a6b7c8aa" bodyDone 1709287200000 1709287200004 sampleTask
      (applySet sampleTask (setCompletedAt (buildUpdateFields bodyDone 1709287200000)
        (some 1709287200000)))
      (by decide) (by decide) (by decide) (by decide)
  have hu0 : sampleDb.users "64b7f0a1c2d3e4f5a6b7c8d9" = some sampleUser := by decide
  rw [hu0] at hu
  cases hu
  refine ⟨by decide, ?_⟩
  rw [hu']
  exact congrArg some (h 1709283600000 rfl (by decide))

/-- C6: for every stored task whose status is `Done`, an update request that sets status
`Done` or carries no status leaves every user document (points, streak,
`lastCompletionDate`) unchanged, and the task keeps its `completedAt` and stays `Done`,
whether or not the database calls succeed. -/
theorem no_double_award (tz : Int) (db : Db) (f : TaskFaults) (reqUser : UserId) (id : TaskId)
    (body : UpdateBody) (now today : Int) (t : Task)
    (hbefore : db.tasks id = some t) (hdone : t.status = "Done")
    (hbody : body.status = none ∨ body.status = some "Done") :
    (putTask tz db f reqUser id body now today).db.users = db.users ∧
    ∃ t', (putTask tz db f reqUser id body now today).db.tasks id = some t' ∧
      t'.completedAt = t.completedAt ∧ t'.status = "Done" := by
  rcases putTask_cases tz db f reqUser id body now today _ rfl with
    ⟨h, _⟩ | ⟨t0, ht0, _, h⟩
  · rw [h]
    exact ⟨rfl, t, hbefore, rfl, hdone⟩
  · rw [hbefore] at ht0
    cases ht0
    rcases h with ⟨hm, _⟩ | ⟨_, hv, _⟩ | ⟨_, _, _, _, h⟩
    · exact absurd hdone hm.2
    · exfalso
      rcases hbody with hb | hb
      · have := hv.1
        rw [hb] at this
        simp [truthy] at this
      · exact hv.2.1 hb
    · rw [h]
      refine ⟨rfl, _, setKey_same _ _ _, ?_, ?_⟩
      · rw [applySet_completedAt, buildUpdateFields_completedAt]
        rfl
      · rw [applySet_status, buildUpdateFields_status]
        rcases hbody with hb | hb <;> rw [hb] <;> simp [hdone]

theorem no_double_award_witness :
    (putTask 0 sampleDoneDb noTaskFaults "64b7f0a1c2d3e4f5a6b7c8d9" "64b7f0a1c2d3e4f5a6b7c8aa"
      bodyDone 1709373600000 1709373600004).db.users = sampleDoneDb.users ∧
    ∃ t', (putTask 0 sampleDoneDb noTaskFaults "64b7f0a1c2d3e4f5a6b7c8d9"
        "64b7f0a1c2d3e4f5a6b7c8aa" bodyDone 1709373600000 1709373600004).db.tasks
          "64b7f0a1c2d3e4f5a6b7c8aa" = some t' ∧
      t'.completedAt = sampleDoneTask.completedAt ∧ t'.status = "Done" :=
  no_double_award 0 sampleDoneDb noTaskFaults "64b7f0a1c2d3e4f5a6b7c8d9"
    "64b7f0a1c2d3e4f5a6b7c8aa" bodyDone 1709373600000 1709373600004 sampleDoneTask
    (by decide) (by decide) (Or.inr (by decide))

/-- One update keeps the invariant of every stored task, provided the request's status is
one the schema admits. -/
theorem putTask_preserves_completedAt (tz : Int) (db : Db) (f : TaskFaults) (reqUser : UserId)
    (id : TaskId) (body : UpdateBody) (now today : Int) (i : TaskId)
    (hbody : allowedStatus body.status)
    (hinv : ∃ t, db.tasks i = some t ∧ completedAtMatchesStatus t) :
    ∃ t, (putTask tz db f reqUser id body now today).db.tasks i = some t ∧
      completedAtMatchesStatus t := by
  rcases putTask_cases tz db f reqUser id body now today _ rfl with
    ⟨h, _⟩ | ⟨t0, ht0, _, h⟩
  · rw [h]
    exact hinv
  · by_cases hi : i = id
    swap
    · rcases h with ⟨_, _, _, u, _, ⟨_, _, h⟩ | ⟨_, _, h⟩⟩ | ⟨_, _, _, _, h⟩ | ⟨_, _, _, _, h⟩ <;>
        rw [h] <;> simp only [setKey_other _ _ _ _ hi] <;> exact hinv
    subst hi
    obtain ⟨t, ht, hinvt⟩ := hinv
    rw [ht0] at ht
    cases ht
    unfold completedAtMatchesStatus at hinvt
    rcases h with ⟨hm, _, _, u, _, ⟨_, _, h⟩ | ⟨_, _, h⟩⟩ | ⟨_, hv, _, _, h⟩ | ⟨hm, hv, _, _, h⟩
    · rw [h]
      exact ⟨t0, ht0, hinvt⟩
    · rw [h]
      refine ⟨_, setKey_same _ _ _, ?_⟩
      unfold completedAtMatchesStatus
      rw [applySet_status, applySet_completedAt]
      simp [setCompletedAt, buildUpdateFields_status, hm.1]
    · rw [h]
      refine ⟨_, setKey_same _ _ _, ?_⟩
      unfold completedAtMatchesStatus
      rw [applySet_status, applySet_completedAt]
      obtain ⟨hv1, hv2, _⟩ := hv
      cases hs : body.status with
      | none => rw [hs] at hv1; simp [truthy] at hv1
      | some st =>
        rw [hs] at hv2
        have : st ≠ "Done" := fun hc => hv2 (by rw [hc])
        simp [setCompletedAt, buildUpdateFields_status, hs, this]
    · rw [h]
      refine ⟨_, setKey_same _ _ _, ?_⟩
      unfold completedAtMatchesStatus
      rw [applySet_status, applySet_completedAt, buildUpdateFields_status,
        buildUpdateFields_completedAt]
      cases hs : body.status with
      | none => simpa using hinvt
      | some st =>
        simp only [Option.getD_none, Option.getD_some]
        by_cases hst : st = "Done"
        · have htd : t0.status = "Done" := by
            by_contra hc
            exact hm ⟨by rw [hs, hst], hc⟩
          rw [hst]
          simp only [iff_true]
          exact hinvt.mpr htd
        · have htr : truthy body.status = true := by
            rw [hs] at hbody ⊢
            rcases hbody with hb | hb | hb | hb
            · cases hb
            · cases hb; decide
            · cases hb; decide
            · cases hb; decide
          have htd : t0.status ≠ "Done" := fun hc => hv ⟨htr, by rw [hs]; simpa using hst, hc⟩
          constructor
          · intro hca
            exact absurd (hinvt.mp hca) htd
          · intro hc
            exact absurd hc hst

theorem putTasks_preserves_completedAt (tz : Int) (reqs : List PutRequest) (db : Db) (i : TaskId)
    (hreqs : ∀ r ∈ reqs, allowedStatus r.body.status)
    (hinv : ∃ t, db.tasks i = some t ∧ completedAtMatchesStatus t) :
    ∃ t, (putTasks tz db reqs).tasks i = some t ∧ completedAtMatchesStatus t := by
  induction reqs generalizing db with
  | nil => exact hinv
  | cons r rs ih =>
    unfold putTasks
    apply ih
    · intro r' hr'
      exact hreqs r' (List.mem_cons_of_mem _ hr')
    · exact putTask_preserves_completedAt tz db r.faults r.reqUser r.id r.body r.now r.today i
        (hreqs r (List.mem_cons_self _ _)) hinv

/-- C7: starting from a newly created task (status `To Do`, `completedAt` null), after every
sequence of update requests whose status is `To Do`, `In Progress`, `Done` or absent, on
any tasks, by any users, with any database failures, the task is still stored and its
`completedAt` is non-null if and only if its status is `Done`. -/
theorem completedAt_iff_done (tz : Int) (db : Db) (id : TaskId) (dueDate : Option Int)
    (reqs : List PutRequest)
    (hnew : db.tasks id = some (Task.create dueDate))
    (hreqs : ∀ r ∈ reqs, allowedStatus r.body.status) :
    ∃ t, (putTasks tz db reqs).tasks id = some t ∧
      (t.completedAt ≠ none ↔ t.status = "Done") :=
  putTasks_preserves_completedAt tz reqs db id hreqs
    ⟨Task.create dueDate, hnew, by simp [completedAtMatchesStatus, Task.create]⟩

/-- The sample task goes through start, completion, reopening and completion again. -/
theorem completedAt_iff_done_witness :
    ∃ t, (putTasks 0 sampleNewDb
        [sampleRequest "In Progress" 1709283600000, sampleRequest "Done" 1709287200000,
         sampleRequest "To Do" 1709290800000, sampleRequest "Done" 1709373600000]).tasks
          "64b7f0a1c2d3e4f5a6b7c8aa" = some t ∧
      (t.completedAt ≠ none ↔ t.status = "Done") :=
  completedAt_iff_done 0 sampleNewDb "64b7f0a1c2d3e4f5a6b7c8aa" none
    [sampleRequest "In Progress" 1709283600000, sampleRequest "Done" 1709287200000,
     sampleRequest "To Do" 1709290800000, sampleRequest "Done" 1709373600000]
    (by decide) (by decide)

/-- The sample task is started, completed and reopened: its status and `completedAt` after
each request. -/
theorem putTasks_sample_trace :
    ((putTasks 0 sampleNewDb [sampleRequest "In Progress" 1709283600000]).tasks
        "64b7f0a1c2d3e4f5a6b7c8aa").map (fun t => (t.status, t.completedAt))
      = some ("In Progress", none) ∧
    ((putTasks 0 sampleNewDb
        [sampleRequest "In Progress" 1709283600000, sampleRequest "Done" 1709287200000]).tasks
        "64b7f0a1c2d3e4f5a6b7c8aa").map (fun t => (t.status, t.completedAt))
      = some ("Done", some 1709287200000) ∧
    ((putTasks 0 sampleNewDb
        [sampleRequest "In Progress" 1709283600000, sampleRequest "Done" 1709287200000,
         sampleRequest "To Do" 1709290800000]).tasks
        "64b7f0a1c2d3e4f5a6b7c8aa").map (fun t => (t.status, t.completedAt))
      = some ("To Do", none) := by
  decide

/-- C8 as stated fails: in the sample store the task write of a completing update rejects;
the task stays `In Progress` with no `completedAt`, yet the user document is stored with
127 points instead of 100 and a streak of 6 instead of 5. -/
theorem award_survives_failed_task_write :
    marksDone bodyDone sampleTask ∧ taskWriteFails.taskWrite = true ∧
    sampleDb.tasks "64b7f0a1c2d3e4f5a6b7c8aa" = some sampleTask ∧
    (putTask 0 sampleDb taskWriteFails "64b7f0a1c2d3e4f5a6b7c8d9" "64b7f0a1c2d3e4f5a6b7c8aa"
      bodyDone 1709373600000 1709373600004).db.tasks "64b7f0a1c2d3e4f5a6b7c8aa"
        = some sampleTask ∧
    (putTask 0 sampleDb taskWriteFails "64b7f0a1c2d3e4f5a6b7c8d9" "64b7f0a1c2d3e4f5a6b7c8aa"
      bodyDone 1709373600000 1709373600004).code = 500 ∧
    (sampleDb.users "64b7f0a1c2d3e4f5a6b7c8d9").map (fun u => (u.points, u.streak))
      = some (100, 5) ∧
    ((putTask 0 sampleDb taskWriteFails "64b7f0a1c2d3e4f5a6b7c8d9" "64b7f0a1c2d3e4f5a6b7c8aa"
      bodyDone 1709373600000 1709373600004).db.users "64b7f0a1c2d3e4f5a6b7c8d9").map
        (fun u => (u.points, u.streak)) = some (127, 6) := by
  decide

/-- C8 (amended): for every update that would take a task into `Done`: if the user write
rejects, the store is left as it was (task and user); if the task write rejects, the task
collection is left as it was; and the task is never stored as `Done` without the requesting
user being stored with the award. -/
theorem award_before_task_write (tz : Int) (db : Db) (f : TaskFaults) (reqUser : UserId)
    (id : TaskId) (body : UpdateBody) (now today : Int) (t : Task)
    (hbefore : db.tasks id = some t) (hm : marksDone body t) :
    (f.userSave = true → (putTask tz db f reqUser id body now today).db = db) ∧
    (f.taskWrite = true → (putTask tz db f reqUser id body now today).db.tasks = db.tasks) ∧
    (∀ t', (putTask tz db f reqUser id body now today).db.tasks id = some t' →
      t'.status = "Done" →
      ∃ u, db.users reqUser = some u ∧
        (putTask tz db f reqUser id body now today).db.users reqUser
          = some (scoreCompletion tz u t now today)) := by
  refine ⟨?_, ?_, ?_⟩
  · intro hs
    rcases putTask_cases tz db f reqUser id body now today _ rfl with
      ⟨h, _⟩ | ⟨t0, ht0, _, h⟩
    · exact h
    · rw [hbefore] at ht0
      cases ht0
      rcases h with ⟨_, _, hs', _⟩ | ⟨hn, _⟩ | ⟨hn, _⟩
      · rw [hs] at hs'
        cases hs'
      · exact absurd hm hn
      · exact absurd hm hn
  · intro hw
    rcases putTask_cases tz db f reqUser id body now today _ rfl with
      ⟨h, _⟩ | ⟨t0, ht0, _, h⟩
    · rw [h]
    · rcases h with ⟨_, _, _, u, _, ⟨_, _, h⟩ | ⟨hw', _⟩⟩ | ⟨_, _, hw', _⟩ | ⟨_, _, hw', _⟩
      · rw [h]
      · rw [hw] at hw'
        cases hw'
      · rw [hw] at hw'
        cases hw'
      · rw [hw] at hw'
        cases hw'
  · intro t' hafter hd
    obtain ⟨u, hu, hus, _⟩ :=
      putTask_into_done tz db f reqUser id body now today t t' hbefore hm.2 hafter hd
    exact ⟨u, hu, by rw [hus, setKey_same]⟩

theorem award_before_task_write_witness :
    (putTask 0 sampleDb taskWriteFails "64b7f0a1c2d3e4f5a6b7c8d9" "64b7f0a1c2d3e4f5a6b7c8aa"
      bodyDone 1709373600000 1709373600004).db.tasks = sampleDb.tasks :=
  (award_before_task_write 0 sampleDb taskWriteFails "64b7f0a1c2d3e4f5a6b7c8d9"
    "64b7f0a1c2d3e4f5a6b7c8aa" bodyDone 1709373600000 1709373600004 sampleTask
    (by decide) (by decide)).2.1 rfl

/-! ## Theorems: message relay -/

theorem find_incFirstUnread_same (peer : UserId) (fs : List Friend) :
    ((incFirstUnread peer fs).find? fun f => f.user = peer)
      = (fs.find? fun f => f.user = peer).map
          fun f => { f with unreadCount := f.unreadCount + 1 } := by
  induction fs with
  | nil => rfl
  | cons g gs ih =>
    unfold incFirstUnread
    by_cases hg : g.user = peer
    · simp [hg, List.find?_cons]
    · simp [hg, List.find?_cons, ih]

theorem find_incFirstUnread_other (peer other : UserId) (fs : List Friend) (h : other ≠ peer) :
    ((incFirstUnread peer fs).find? fun f => f.user = other)
      = fs.find? fun f => f.user = other := by
  induction fs with
  | nil => rfl
  | cons g gs ih =>
    unfold incFirstUnread
    by_cases hg : g.user = peer
    · have hne : ¬ g.user = other := fun hc => h (hc.symm.trans hg)
      rw [if_pos hg]
      simp [List.find?_cons, hne]
    · rw [if_neg hg]
      by_cases ho : g.user = other
      · simp [List.find?_cons, ho]
      · simp [List.find?_cons, ho, ih]

theorem incFirstUnread_of_find_none (peer : UserId) (fs : List Friend)
    (h : (fs.find? fun f => f.user = peer) = none) : incFirstUnread peer fs = fs := by
  induction fs with
  | nil => rfl
  | cons g gs ih =>
    unfold incFirstUnread
    by_cases hg : g.user = peer
    · simp [List.find?_cons, hg] at h
    · simp only [List.find?_cons, hg, decide_False] at h
      simp [hg, ih h]

theorem unreadCountFor_some (users : UserId → Option User) (user peer : UserId) (u : User)
    (hu : users user = some u) :
    unreadCountFor users user peer
      = (u.friends.find? fun f => f.user = peer).map Friend.unreadCount := by
  simp only [unreadCountFor, hu]

theorem unreadCountFor_none (users : UserId → Option User) (user peer : UserId)
    (hu : users user = none) : unreadCountFor users user peer = none := by
  simp only [unreadCountFor, hu]

theorem incUnread_some (users : UserId → Option User) (toUser fromUser : UserId) (u : User)
    (hu : users toUser = some u) :
    incUnread users toUser fromUser
      = setKey users toUser { u with friends := incFirstUnread fromUser u.friends } := by
  simp only [incUnread, hu]

theorem incUnread_none (users : UserId → Option User) (toUser fromUser : UserId)
    (hu : users toUser = none) : incUnread users toUser fromUser = users := by
  simp only [incUnread, hu]

/-- The setter on sample contents: a no-break space `U+00A0`, an ideographic space
`U+3000`, a byte order mark and a line separator are removed at the ends like a space, a
content made of such characters only is blank, and white space inside is kept. -/
theorem trim_samples :
    trim "  hi \n" = "hi" ∧ trim "\u00a0hi\u3000" = "hi" ∧ trim "\u00a0" = "" ∧
    trim "\ufeff\u2028\t\x0b\x0c" = "" ∧ trim "a\u00a0b" = "a\u00a0b" := by
  decide

/-- A message whose content is a single no-break space is blank for the `required`
validator: with the recipient online or offline nothing is stored and nothing is emitted.
A content with a no-break space at its end is stored and notified without it. -/
theorem nbsp_message_samples :
    (sendMessage balaOnline chatDb noRelayFaults
      { hiToBala ashaId with content := "\u00a0" }).emitted = [] ∧
    (sendMessage balaOnline chatDb noRelayFaults
      { hiToBala ashaId with content := "\u00a0" }).db.messages = [] ∧
    (sendMessage Server.init chatDb noRelayFaults
      { hiToBala ashaId with content := "\u00a0" }).emitted = [] ∧
    unreadCountFor (sendMessage Server.init chatDb noRelayFaults
      { hiToBala ashaId with content := "\u00a0" }).db.users balaId ashaId = some 3 ∧
    (sendMessage balaOnline chatDb noRelayFaults
      { hiToBala ashaId with content := "hi\u00a0" }).db.messages
      = [{ fromUser := ashaId, toUser := balaId, content := "hi" }] ∧
    (sendMessage balaOnline chatDb noRelayFaults
      { hiToBala ashaId with content := "hi\u00a0" }).emitted
      = [{ target := some "64b7f0a1c2d3e4f5a6b7c8d9-64b7f0a1c2d3e4f5a6b7c8e0"
           name := "receiveMessage"
           payload := .message { fromUser := ashaId, toUser := balaId, content := "hi" } },
         { target := some "sockB", name := "chatNotification"
           payload := .chat (some { id := ashaId, username := "asha" }) "hi" }] := by
  decide

/-- C9 as stated fails: `bala` has no presence entry, yet the handler emits a
`receiveMessage` event to the room (the message is persisted and the counter for `asha`
goes from 3 to 4); and for the sender `chitra`, for whom `bala` holds no `friends` entry,
the message is persisted while no counter exists before or after. -/
theorem offline_send_still_emits :
    Server.init.userSockets balaId = none ∧
    (sendMessage Server.init chatDb noRelayFaults (hiToBala ashaId)).emitted
      = [{ target := some "64b7f0a1c2d3e4f5a6b7c8d9-64b7f0a1c2d3e4f5a6b7c8e0"
           name := "receiveMessage"
           payload := .message { fromUser := ashaId, toUser := balaId, content := "hi" } }] ∧
    (sendMessage Server.init chatDb noRelayFaults (hiToBala ashaId)).db.messages
      = [{ fromUser := ashaId, toUser := balaId, content := "hi" }] ∧
    unreadCountFor chatDb.users balaId ashaId = some 3 ∧
    unreadCountFor (sendMessage Server.init chatDb noRelayFaults (hiToBala ashaId)).db.users
      balaId ashaId = some 4 ∧
    (sendMessage Server.init chatDb noRelayFaults (hiToBala chitraId)).db.messages
      = [{ fromUser := chitraId, toUser := balaId, content := "hi" }] ∧
    unreadCountFor chatDb.users balaId chitraId = none ∧
    unreadCountFor (sendMessage Server.init chatDb noRelayFaults (hiToBala chitraId)).db.users
      balaId chitraId = none := by
  decide

/-- C9 (amended): when the recipient has no presence entry and the message is saved
(content not blank, no rejection of the save or of the counter update), `sendMessage`
appends the message to the stored messages, emits exactly one event, the `receiveMessage`
to the room, and no `chatNotification`; if the recipient holds a `friends` entry for the
sender its `unreadCount` for the sender grows by exactly 1, otherwise no user document
changes; the counters the recipient holds for other peers and all other users are
unchanged. -/
theorem offline_message (srv : Server) (db : Db) (f : RelayFaults) (data : SendData)
    (hoff : srv.userSockets data.toUser = none)
    (hsave : f.messageSave = false) (hcontent : trim data.content ≠ "")
    (hupd : f.unreadUpdate = false) :
    (sendMessage srv db f data).db.messages
      = db.messages ++ [Message.new data.fromUser data.toUser data.content] ∧
    (sendMessage srv db f data).emitted
      = [{ target := some data.roomName, name := "receiveMessage"
           payload := .message (Message.new data.fromUser data.toUser data.content) }] ∧
    (∀ n, unreadCountFor db.users data.toUser data.fromUser = some n →
      unreadCountFor (sendMessage srv db f data).db.users data.toUser data.fromUser
        = some (n + 1)) ∧
    (unreadCountFor db.users data.toUser data.fromUser = none →
      (sendMessage srv db f data).db.users = db.users) ∧
    (∀ peer, peer ≠ data.fromUser →
      unreadCountFor (sendMessage srv db f data).db.users data.toUser peer
        = unreadCountFor db.users data.toUser peer) ∧
    (∀ other, other ≠ data.toUser →
      (sendMessage srv db f data).db.users other = db.users other) := by
  have hc : (Message.new data.fromUser data.toUser data.content).content ≠ "" := hcontent
  have hr : sendMessage srv db f data =
      { db := { db with
                messages := db.messages ++ [Message.new data.fromUser data.toUser data.content]
                users := incUnread db.users data.toUser data.fromUser }
        emitted := [{ target := some data.roomName, name := "receiveMessage"
                      payload := .message
                        (Message.new data.fromUser data.toUser data.content) }] } := by
    simp [sendMessage, hoff, hsave, hc, hupd, truthy]
  rw [hr]
  refine ⟨rfl, rfl, ?_, ?_, ?_, ?_⟩
  · intro n hn
    cases hu : db.users data.toUser with
    | none => rw [unreadCountFor_none _ _ _ hu] at hn; cases hn
    | some u =>
      rw [unreadCountFor_some _ _ _ u hu] at hn
      show unreadCountFor (incUnread db.users data.toUser data.fromUser) _ _ = _
      rw [incUnread_some _ _ _ u hu, unreadCountFor_some _ _ _ _ (setKey_same _ _ _)]
      simp only [find_incFirstUnread_same]
      cases hfr : (u.friends.find? fun f => f.user = data.fromUser) with
      | none => rw [hfr] at hn; cases hn
      | some fr =>
        rw [hfr] at hn
        simp only [Option.map_some', Option.some.injEq] at hn ⊢
        rw [hn]
  · intro hn
    show incUnread db.users data.toUser data.fromUser = db.users
    cases hu : db.users data.toUser with
    | none => exact incUnread_none _ _ _ hu
    | some u =>
      rw [unreadCountFor_some _ _ _ u hu] at hn
      have hnone : (u.friends.find? fun f => f.user = data.fromUser) = none := by
        simpa using hn
      rw [incUnread_some _ _ _ u hu, incFirstUnread_of_find_none _ _ hnone]
      funext k
      by_cases hk : k = data.toUser
      · rw [hk, setKey_same, hu]
      · rw [setKey_other _ _ _ _ hk]
  · intro peer hpeer
    show unreadCountFor (incUnread db.users data.toUser data.fromUser) _ _ = _
    cases hu : db.users data.toUser with
    | none => rw [incUnread_none _ _ _ hu]
    | some u =>
      rw [incUnread_some _ _ _ u hu, unreadCountFor_some _ _ _ _ (setKey_same _ _ _),
        unreadCountFor_some _ _ _ u hu]
      simp only [find_incFirstUnread_other _ _ _ hpeer]
  · intro other hother
    show incUnread db.users data.toUser data.fromUser other = db.users other
    cases hu : db.users data.toUser with
    | none => rw [incUnread_none _ _ _ hu]
    | some u => rw [incUnread_some _ _ _ u hu, setKey_other _ _ _ _ hother]

theorem offline_message_witness :
    unreadCountFor (sendMessage Server.init chatDb noRelayFaults (hiToBala ashaId)).db.users
      balaId ashaId = some (3 + 1) :=
  (offline_message Server.init chatDb noRelayFaults (hiToBala ashaId)
    (by decide) (by decide) (by decide) (by decide)).2.2.1 3 (by decide)

/-- C10 as stated fails: `bala` has a presence entry, but a `sendMessage` whose content is
blank is rejected by the `required` validator of `content`; the handler ends in its
`catch` with nothing stored and no event emitted, so no `chatNotification` reaches `bala`. -/
theorem blank_message_not_notified :
    balaOnline.userSockets balaId = some "sockB" ∧
    (sendMessage balaOnline chatDb noRelayFaults blankToBala).emitted = [] ∧
    (sendMessage balaOnline chatDb noRelayFaults blankToBala).db.messages = [] := by
  decide

/-- C10 (amended): when the recipient has a presence entry (a socket id, which is never
empty), no user document changes, whatever the database does, and every `chatNotification`
emitted goes to the recipient's registered handle and carries the content of the message
as saved; when moreover the message is saved (content not blank, save not rejected) and the
sender lookup is answered, the events emitted are the `receiveMessage` to the room followed
by exactly one `chatNotification`. -/
theorem online_message (srv : Server) (db : Db) (f : RelayFaults) (data : SendData)
    (sid : SocketId) (hon : srv.userSockets data.toUser = some sid) (hsid : sid ≠ "") :
    (sendMessage srv db f data).db.users = db.users ∧
    (∀ e ∈ (sendMessage srv db f data).emitted, e.name = "chatNotification" →
      e.target = some sid ∧
      e.payload = .chat (findSender db.users data.fromUser)
        (Message.new data.fromUser data.toUser data.content).content) ∧
    (f.messageSave = false → trim data.content ≠ "" → f.senderFind = false →
      (sendMessage srv db f data).db.messages
        = db.messages ++ [Message.new data.fromUser data.toUser data.content] ∧
      (sendMessage srv db f data).emitted
        = [{ target := some data.roomName, name := "receiveMessage"
             payload := .message (Message.new data.fromUser data.toUser data.content) },
           { target := some sid, name := "chatNotification"
             payload := .chat (findSender db.users data.fromUser)
               (Message.new data.fromUser data.toUser data.content).content }]) := by
  have ht : truthy (some sid) = true := truthy_some sid hsid
  refine ⟨?_, ?_, ?_⟩
  · unfold sendMessage
    simp only [hon, ht]
    split_ifs <;> rfl
  · intro e he hname
    unfold sendMessage at he
    simp only [hon, ht] at he
    split_ifs at he
    · simp at he
    · simp only [if_true, List.mem_singleton] at he
      rw [he] at hname
      simp at hname
    · simp only [if_true, List.mem_cons, List.mem_singleton, List.mem_nil_iff, or_false] at he
      rcases he with he | he
      · rw [he] at hname
        simp at hname
      · rw [he]
        exact ⟨rfl, rfl⟩
  · intro hsave hcontent hfind
    have hc : (Message.new data.fromUser data.toUser data.content).content ≠ "" := hcontent
    simp [sendMessage, hon, ht, hsave, hc, hfind]

theorem online_message_witness :
    (sendMessage balaOnline chatDb noRelayFaults (hiToBala ashaId)).db.messages
      = chatDb.messages ++ [Message.new ashaId balaId "hi"] ∧
    (sendMessage balaOnline chatDb noRelayFaults (hiToBala ashaId)).emitted
      = [{ target := some "64b7f0a1c2d3e4f5a6b7c8d9-64b7f0a1c2d3e4f5a6b7c8e0"
           name := "receiveMessage", payload := .message (Message.new ashaId balaId "hi") },
         { target := some "sockB", name := "chatNotification"
           payload := .chat (findSender chatDb.users ashaId)
             (Message.new ashaId balaId "hi").content }] :=
  (online_message balaOnline chatDb noRelayFaults (hiToBala ashaId) "sockB"
    (by decide) (by decide)).2.2 rfl (by decide) rfl

/-- The sample online delivery, evaluated: the notification names `asha` and carries `hi`. -/
theorem sendMessage_sample_online :
    (sendMessage balaOnline chatDb noRelayFaults (hiToBala ashaId)).emitted
      = [{ target := some "64b7f0a1c2d3e4f5a6b7c8d9-64b7f0a1c2d3e4f5a6b7c8e0"
           name := "receiveMessage"
           payload := .message { fromUser := ashaId, toUser := balaId, content := "hi" } },
         { target := some "sockB", name := "chatNotification"
           payload := .chat (some { id := ashaId, username := "asha" }) "hi" }] := by
  decide

/-- C11: for every `sendMessage` whose message save fails (the save is rejected, or the
content is blank and fails the `required` validator), no event at all is emitted, so no
`receiveMessage` and no `chatNotification`, and the store is left as it was: no message is
added and no `unreadCount` is changed. -/
theorem send_aborts_on_failed_save (srv : Server) (db : Db) (f : RelayFaults) (data : SendData)
    (hfail : f.messageSave = true ∨ trim data.content = "") :
    (sendMessage srv db f data).emitted = [] ∧ (sendMessage srv db f data).db = db := by
  have hc : (f.messageSave || (Message.new data.fromUser data.toUser data.content).content == "")
      = true := by
    rcases hfail with h | h
    · simp [h]
    · have : (Message.new data.fromUser data.toUser data.content).content = "" := h
      simp [this]
  unfold sendMessage
  simp only [hc, if_true, and_self]

theorem send_aborts_on_failed_save_witness :
    (sendMessage balaOnline chatDb
      { messageSave := true, senderFind := false, unreadUpdate := false }
      (hiToBala ashaId)).emitted = [] ∧
    (sendMessage balaOnline chatDb
      { messageSave := true, senderFind := false, unreadUpdate := false }
      (hiToBala ashaId)).db = chatDb :=
  send_aborts_on_failed_save balaOnline chatDb
    { messageSave := true, senderFind := false, unreadUpdate := false } (hiToBala ashaId)
    (Or.inl rfl)

/-! ## Theorems: friends routes -/

theorem resetFirstUnread_map (peer : UserId) (fs : List Friend) :
    (resetFirstUnread peer fs).map (fun f => (f.user, f.status))
      = fs.map fun f => (f.user, f.status) := by
  induction fs with
  | nil => rfl
  | cons g gs ih =>
    unfold resetFirstUnread
    by_cases hg : g.user = peer
    · rw [if_pos hg]
      simp
    · rw [if_neg hg]
      simp [ih]

theorem resetFirstUnread_filter (peer : UserId) (fs : List Friend) :
    (resetFirstUnread peer fs).filter (fun f => f.user != peer)
      = fs.filter fun f => f.user != peer := by
  induction fs with
  | nil => rfl
  | cons g gs ih =>
    unfold resetFirstUnread
    by_cases hg : g.user = peer
    · rw [if_pos hg]
      simp [List.filter_cons, hg]
    · rw [if_neg hg]
      simp [List.filter_cons, hg, ih]

theorem find_resetFirstUnread (peer : UserId) (fs : List Friend) :
    ((resetFirstUnread peer fs).find? fun f => f.user = peer)
      = (fs.find? fun f => f.user = peer).map fun f => { f with unreadCount := 0 } := by
  induction fs with
  | nil => rfl
  | cons g gs ih =>
    unfold resetFirstUnread
    by_cases hg : g.user = peer
    · rw [if_pos hg]
      simp [List.find?_cons, hg]
    · rw [if_neg hg]
      simp [List.find?_cons, hg, ih]

theorem resetFirstUnread_of_absent (peer : UserId) (fs : List Friend)
    (h : ∀ f ∈ fs, f.user ≠ peer) : resetFirstUnread peer fs = fs := by
  induction fs with
  | nil => rfl
  | cons g gs ih =>
    unfold resetFirstUnread
    rw [if_neg (h g (List.mem_cons_self _ _)), ih fun f hf => h f (List.mem_cons_of_mem _ hf)]

theorem friendsOf_resetUnread_same (users : UserId → Option User) (user friendId : UserId) :
    friendsOf (resetUnread users user friendId) user
      = resetFirstUnread friendId (friendsOf users user) := by
  unfold friendsOf resetUnread
  cases hu : users user with
  | none => simp [hu, resetFirstUnread]
  | some u => simp [setKey_same]

theorem resetUnread_other (users : UserId → Option User) (user friendId other : UserId)
    (h : other ≠ user) : resetUnread users user friendId other = users other := by
  unfold resetUnread
  cases hu : users user with
  | none => rfl
  | some u => exact setKey_other _ _ _ _ h

theorem profileOf_resetUnread (users : UserId → Option User) (user friendId id : UserId) :
    profileOf (resetUnread users user friendId) id = profileOf users id := by
  unfold profileOf
  by_cases h : id = user
  · subst h
    unfold resetUnread
    cases hu : users id with
    | none => simp [hu]
    | some u => simp [setKey_same, hu]
  · rw [resetUnread_other _ _ _ _ h]

theorem resetUnread_of_absent (users : UserId → Option User) (user friendId : UserId)
    (h : ∀ f ∈ friendsOf users user, f.user ≠ friendId) :
    resetUnread users user friendId = users := by
  unfold resetUnread
  cases hu : users user with
  | none => rfl
  | some u =>
    have hf : friendsOf users user = u.friends := by simp [friendsOf, hu]
    rw [hf] at h
    simp only [resetFirstUnread_of_absent _ _ h]
    funext k
    by_cases hk : k = user
    · rw [hk, setKey_same, hu]
    · rw [setKey_other _ _ _ _ hk]

/-- C12: a `read-messages` request of a user for a peer keeps, in the user's `friends`
array, every entry's peer and status and every entry of another peer as they were, keeps
the rest of the user's document and every other user unchanged, and changes nothing at all
when the peer is not in the array; when the request is answered (status 200) and the peer
is in the array, the `unreadCount` the user holds for that peer is 0 afterwards. -/
theorem read_messages_resets_peer (db : Db) (updateFails : Bool) (reqUser friendId : UserId) :
    ((friendsOf (readMessages db updateFails reqUser friendId).db.users reqUser).map
        (fun f => (f.user, f.status))
      = (friendsOf db.users reqUser).map fun f => (f.user, f.status)) ∧
    ((friendsOf (readMessages db updateFails reqUser friendId).db.users reqUser).filter
        (fun f => f.user != friendId)
      = (friendsOf db.users reqUser).filter fun f => f.user != friendId) ∧
    (∀ id, profileOf (readMessages db updateFails reqUser friendId).db.users id
      = profileOf db.users id) ∧
    (∀ other, other ≠ reqUser →
      (readMessages db updateFails reqUser friendId).db.users other = db.users other) ∧
    ((∀ f ∈ friendsOf db.users reqUser, f.user ≠ friendId) →
      (readMessages db updateFails reqUser friendId).db = db) ∧
    ((readMessages db updateFails reqUser friendId).code = 200 →
      (∃ f ∈ friendsOf db.users reqUser, f.user = friendId) →
      unreadCountFor (readMessages db updateFails reqUser friendId).db.users reqUser friendId
        = some 0) := by
  cases updateFails with
  | true =>
    refine ⟨rfl, rfl, fun _ => rfl, fun _ _ => rfl, fun _ => rfl, ?_⟩
    intro hcode
    simp [readMessages] at hcode
  | false =>
    have hdb : (readMessages db false reqUser friendId).db.users
        = resetUnread db.users reqUser friendId := rfl
    refine ⟨?_, ?_, ?_, ?_, ?_, ?_⟩
    · rw [hdb, friendsOf_resetUnread_same, resetFirstUnread_map]
    · rw [hdb, friendsOf_resetUnread_same, resetFirstUnread_filter]
    · intro id
      rw [hdb, profileOf_resetUnread]
    · intro other hother
      rw [hdb, resetUnread_other _ _ _ _ hother]
    · intro habs
      show ({ db with users := resetUnread db.users reqUser friendId } : Db) = db
      rw [resetUnread_of_absent _ _ _ habs]
    · intro _ hmem
      rw [hdb]
      cases hu : db.users reqUser with
      | none =>
        obtain ⟨f, hf, _⟩ := hmem
        simp [friendsOf, hu] at hf
      | some u =>
        have hf : friendsOf db.users reqUser = u.friends := by simp [friendsOf, hu]
        rw [hf] at hmem
        have hset : resetUnread db.users reqUser friendId reqUser
            = some { u with friends := resetFirstUnread friendId u.friends } := by
          simp [resetUnread, hu, setKey_same]
        rw [unreadCountFor_some _ _ _ _ hset]
        simp only [find_resetFirstUnread]
        cases hfind : (u.friends.find? fun f => f.user = friendId) with
        | none =>
          obtain ⟨f, hfm, hfu⟩ := hmem
          have := List.find?_eq_none.mp hfind f hfm
          simp [hfu] at this
        | some g => rfl

theorem read_messages_resets_peer_witness :
    unreadCountFor chatDb.users balaId ashaId = some 3 ∧
    unreadCountFor (readMessages chatDb false balaId ashaId).db.users balaId ashaId = some 0 :=
  ⟨by decide,
    (read_messages_resets_peer chatDb false balaId ashaId).2.2.2.2.2 (by decide)
      ⟨{ user := ashaId, status := "accepted", unreadCount := 3 }, by decide, rfl⟩⟩

theorem friendsOf_pushFriend_same (users : UserId → Option User) (id : UserId) (entry : Friend)
    (u : User) (hu : users id = some u) :
    friendsOf (pushFriend users id entry) id = friendsOf users id ++ [entry] := by
  simp [friendsOf, pushFriend, hu, setKey_same]

theorem pushFriend_other (users : UserId → Option User) (id other : UserId) (entry : Friend)
    (h : other ≠ id) : pushFriend users id entry other = users other := by
  unfold pushFriend
  cases hu : users id with
  | none => rfl
  | some u => exact setKey_other _ _ _ _ h

theorem pushFriend_isSome (users : UserId → Option User) (id k : UserId) (entry : Friend) :
    (pushFriend users id entry k).isSome = (users k).isSome := by
  by_cases hk : k = id
  · subst hk
    unfold pushFriend
    cases hu : users k with
    | none => simp [hu]
    | some u => simp [setKey_same]
  · rw [pushFriend_other _ _ _ _ hk]

theorem pushFriend_mem (users : UserId → Option User) (id k : UserId) (entry g : Friend)
    (hg : g ∈ friendsOf users k) : g ∈ friendsOf (pushFriend users id entry) k := by
  by_cases hk : k = id
  · subst hk
    cases hu : users k with
    | none => simp [friendsOf, hu] at hg
    | some u =>
      rw [friendsOf_pushFriend_same _ _ _ u hu]
      exact List.mem_append_left _ hg
  · unfold friendsOf at hg ⊢
    rw [pushFriend_other _ _ _ _ hk]
    exact hg

theorem findSender_pushFriend (users : UserId → Option User) (id k : UserId) (entry : Friend) :
    findSender (pushFriend users id entry) k = findSender users k := by
  by_cases hk : k = id
  · subst hk
    unfold findSender pushFriend
    cases hu : users k with
    | none => simp [hu]
    | some u => simp [setKey_same]
  · unfold findSender
    rw [pushFriend_other _ _ _ _ hk]

/-- What a friend request that is answered with 200 has done. -/
theorem requestFriend_ok (srv : Server) (db : Db) (f : FriendFaults) (A B : UserId)
    (hok : (requestFriend srv db f A B).code = 200) :
    (∃ recipient, db.users B = some recipient) ∧
    (requestFriend srv db f A B).db.users
      = pushFriend (pushFriend db.users A { user := B, status := "sent", unreadCount := 0 }) B
          { user := A, status := "pending", unreadCount := 0 } ∧
    (∀ sid, srv.userSockets B = some sid → sid ≠ "" →
      (requestFriend srv db f A B).emitted
        = [{ target := some sid, name := "friendRequest"
             payload := .friendRequest (findSender db.users A) }]) ∧
    (srv.userSockets B = none → (requestFriend srv db f A B).emitted = []) := by
  unfold requestFriend at hok ⊢
  by_cases h1 : f.recipientFind = true
  · simp [h1] at hok
  cases hB : db.users B with
  | none => simp [h1, hB] at hok
  | some recipient =>
    by_cases h2 : recipient.friends.any (fun fr => fr.user == A) = true
    · simp [h1, hB, h2] at hok
    by_cases h3 : f.senderPush = true
    · simp [h1, hB, h2, h3] at hok
    by_cases h4 : f.recipientPush = true
    · simp [h1, hB, h2, h3, h4] at hok
    simp only [h1, hB, h2, h3, h4, if_false, Bool.false_eq_true] at hok ⊢
    cases hs : srv.userSockets B with
    | none =>
      simp [truthy, hs]
    | some sid =>
      by_cases hsid : sid = ""
      · simp [truthy, hs, hsid]
      · have ht : truthy (some sid) = true := truthy_some sid hsid
        by_cases h5 : f.senderFind = true
        · simp [hs, ht, h5] at hok
        · simp [hs, ht, h5, findSender_pushFriend]

/-- C13: for every friend request from a stored user `A` to `B` that the route accepts
(status 200), with `B` registered, if at all, under a socket id: a `friendRequest` event is
emitted exactly when `B` has a presence entry, and then it is the only event, addressed to
`B`'s handle and naming `A`; in both cases `B`'s `friends` array afterwards holds an entry
for `A` with status `pending` and `A`'s an entry for `B` with status `sent`, and the
`GET /` of `B` returns the request among `pendingRequests`. -/
theorem friend_request_event (srv : Server) (db : Db) (f : FriendFaults) (A B : UserId)
    (a : User)
    (hok : (requestFriend srv db f A B).code = 200)
    (hA : db.users A = some a)
    (hreg : ∀ sid, srv.userSockets B = some sid → sid ≠ "") :
    (∀ sid, srv.userSockets B = some sid →
      (requestFriend srv db f A B).emitted
        = [{ target := some sid, name := "friendRequest"
             payload := .friendRequest (some { id := A, username := a.username }) }]) ∧
    (srv.userSockets B = none → (requestFriend srv db f A B).emitted = []) ∧
    (∃ g ∈ friendsOf (requestFriend srv db f A B).db.users B,
      g.user = A ∧ g.status = "pending") ∧
    (∃ g ∈ friendsOf (requestFriend srv db f A B).db.users A,
      g.user = B ∧ g.status = "sent") ∧
    (∃ resp, getFriends (requestFriend srv db f A B).db false B = some resp ∧
      ∃ p ∈ resp.pendingRequests,
        p.user = some { id := A, username := a.username } ∧ p.status = "pending") := by
  obtain ⟨⟨recipient, hB⟩, hdb, hem, hnone⟩ := requestFriend_ok srv db f A B hok
  have hsender : findSender db.users A = some { id := A, username := a.username } := by
    simp [findSender, hA]
  have hB1 : ∃ b1, pushFriend db.users A { user := B, status := "sent", unreadCount := 0 } B
      = some b1 := by
    have := pushFriend_isSome db.users A B { user := B, status := "sent", unreadCount := 0 }
    rw [hB] at this
    exact Option.isSome_iff_exists.mp this
  obtain ⟨b1, hb1⟩ := hB1
  have hpend : ({ user := A, status := "pending", unreadCount := 0 } : Friend)
      ∈ friendsOf (requestFriend srv db f A B).db.users B := by
    rw [hdb, friendsOf_pushFriend_same _ _ _ b1 hb1]
    exact List.mem_append_right _ (List.mem_singleton_self _)
  have hsent : ({ user := B, status := "sent", unreadCount := 0 } : Friend)
      ∈ friendsOf (requestFriend srv db f A B).db.users A := by
    rw [hdb]
    apply pushFriend_mem
    rw [friendsOf_pushFriend_same _ _ _ a hA]
    exact List.mem_append_right _ (List.mem_singleton_self _)
  refine ⟨?_, hnone, ⟨_, hpend, rfl, rfl⟩, ⟨_, hsent, rfl, rfl⟩, ?_⟩
  · intro sid hs
    rw [hem sid hs (hreg sid hs), hsender]
  · have hBafter : ∃ b2, (requestFriend srv db f A B).db.users B = some b2 := by
      have h := pushFriend_isSome
        (pushFriend db.users A { user := B, status := "sent", unreadCount := 0 }) B B
        { user := A, status := "pending", unreadCount := 0 }
      rw [hb1, ← hdb] at h
      exact Option.isSome_iff_exists.mp h
    obtain ⟨b2, hb2⟩ := hBafter
    have hfr : friendsOf (requestFriend srv db f A B).db.users B = b2.friends := by
      simp [friendsOf, hb2]
    rw [hfr] at hpend
    have hsender2 : findSender (requestFriend srv db f A B).db.users A
        = some { id := A, username := a.username } := by
      rw [hdb, findSender_pushFriend, findSender_pushFriend, hsender]
    refine ⟨_, by simp only [getFriends, hb2, if_false, Bool.false_eq_true]; rfl, ?_⟩
    refine ⟨populateFriend (requestFriend srv db f A B).db.users
      { user := A, status := "pending", unreadCount := 0 }, ?_, ?_, rfl⟩
    · rw [List.mem_filter]
      exact ⟨List.mem_map_of_mem _ hpend, by simp [populateFriend]⟩
    · simp only [populateFriend, hsender2]

theorem friend_request_event_witness :
    (requestFriend balaOnline chatDb noFriendFaults chitraId balaId).emitted
      = [{ target := some "sockB", name := "friendRequest"
           payload := .friendRequest (some { id := chitraId, username := "chitra" }) }] :=
  (friend_request_event balaOnline chatDb noFriendFaults chitraId balaId
    { username := "chitra", points := 0, streak := 0, lastCompletionDate := none, friends := [] }
    (by decide) (by decide)
    (by
      intro sid hs
      have h : balaOnline.userSockets balaId = some "sockB" := by decide
      rw [h] at hs
      cases hs
      decide)).1 "sockB" (by decide)

/-- The sample friend request, evaluated with `bala` offline: no event, and the two `friends`
arrays afterwards. -/
theorem requestFriend_sample_offline :
    (requestFriend Server.init chatDb noFriendFaults chitraId balaId).emitted = [] ∧
    friendsOf (requestFriend Server.init chatDb noFriendFaults chitraId balaId).db.users balaId
      = [{ user := ashaId, status := "accepted", unreadCount := 3 },
         { user := chitraId, status := "pending", unreadCount := 0 }] ∧
    friendsOf (requestFriend Server.init chatDb noFriendFaults chitraId balaId).db.users chitraId
      = [{ user := balaId, status := "sent", unreadCount := 0 }] ∧
    (getFriends (requestFriend Server.init chatDb noFriendFaults chitraId balaId).db false
        balaId).map FriendsResponse.pendingRequests
      = some [{ user := some { id := chitraId, username := "chitra" }, status := "pending"
                unreadCount := 0 }] := by
  decide

/-! ## Theorems: strings and numbers in keys -/

theorem digitChar_val (k : Nat) (h : k < 10) : (Nat.digitChar k).toNat - 48 = k := by
  interval_cases k <;> rfl

theorem toDigitsCore_append (f : Nat) : ∀ (n : Nat) (ds : List Char),
    Nat.toDigitsCore 10 f n ds = Nat.toDigitsCore 10 f n [] ++ ds := by
  induction f with
  | zero => intro n ds; simp [Nat.toDigitsCore]
  | succ f ih =>
    intro n ds
    simp only [Nat.toDigitsCore]
    by_cases h : n / 10 = 0
    · simp [h]
    · simp only [h, if_false]
      rw [ih (n / 10) (Nat.digitChar (n % 10) :: ds), ih (n / 10) [Nat.digitChar (n % 10)]]
      simp

theorem ofDigitChars_toDigitsCore (f : Nat) : ∀ n, n < f →
    ofDigitChars (Nat.toDigitsCore 10 f n []) = n := by
  induction f with
  | zero => intro n h; omega
  | succ f ih =>
    intro n hn
    simp only [Nat.toDigitsCore]
    by_cases h : n / 10 = 0
    · simp only [h, if_true]
      have hlt : n < 10 := by omega
      simp [ofDigitChars, digitChar_val n hlt, Nat.mod_eq_of_lt hlt]
    · simp only [h, if_false]
      rw [toDigitsCore_append]
      have h1 : n / 10 < f := by omega
      have h2 := ih (n / 10) h1
      unfold ofDigitChars at h2 ⊢
      rw [List.foldl_append, h2]
      simp only [List.foldl_cons, List.foldl_nil]
      rw [digitChar_val (n % 10) (Nat.mod_lt _ (by decide))]
      omega

/-- Reading back the decimal digits of a number gives the number. -/
theorem ofDigitChars_toString (n : Nat) : ofDigitChars (toString n).data = n := by
  show ofDigitChars (Nat.repr n).data = n
  simp only [Nat.repr, Nat.toDigits, List.asString]
  exact ofDigitChars_toDigitsCore (n + 1) n (Nat.lt_succ_self n)

theorem toString_nat_injective (a b : Nat) (h : toString a = toString b) : a = b := by
  have h1 := congrArg (fun s => ofDigitChars s.data) h
  simpa [ofDigitChars_toString] using h1

theorem toString_nat_ne_empty (n : Nat) : toString n ≠ "" := by
  intro h
  have h1 := ofDigitChars_toString n
  rw [h] at h1
  have h0 : n = 0 := by simpa [ofDigitChars] using h1.symm
  subst h0
  exact absurd h (by decide)

theorem string_append_right_cancel (a b s : String) (h : a ++ s = b ++ s) : a = b := by
  have h1 := congrArg String.data h
  simp only [String.data_append] at h1
  exact String.ext (List.append_cancel_right h1)

theorem string_append_left_cancel (s a b : String) (h : s ++ a = s ++ b) : a = b := by
  have h1 := congrArg String.data h
  simp only [String.data_append] at h1
  exact String.ext (List.append_cancel_left h1)

theorem bucketStamp_injective (a b : Nat) (h : bucketStamp a = bucketStamp b) :
    a / 30000 = b / 30000 :=
  toString_nat_injective _ _ (string_append_left_cancel "s" _ _ h)

theorem bucketStamp_next (now : Nat) : bucketStamp now ≠ bucketStamp (now + 30000) := by
  intro h
  have h1 := bucketStamp_injective _ _ h
  omega

/-- A key that starts with an `ObjectId` is no `confirm-shown` key: its second character
is a hexadecimal digit, not the letter `o`. -/
theorem objectId_prefix_ne_confirm_key (id suffix taskId : String) (h : isObjectId id = true) :
    id ++ suffix ≠ "confirm-shown-" ++ taskId := by
  unfold isObjectId at h
  simp only [Bool.and_eq_true, beq_iff_eq] at h
  obtain ⟨hlen, hall⟩ := h
  intro heq
  have h1 := congrArg String.data heq
  simp only [String.data_append] at h1
  match hd : id.data, hlen, hall with
  | [], hlen, _ => simp [hd] at hlen
  | [_], hlen, _ => simp [hd] at hlen
  | c1 :: c2 :: rest, _, hall =>
    rw [hd] at h1
    simp only [List.cons_append, List.cons.injEq] at h1
    have hc2 : isHexChar c2 = true := by
      simp only [List.all_cons, Bool.and_eq_true] at hall
      exact hall.2.1
    rw [h1.2.1] at hc2
    exact absurd hc2 (by decide)

/-! ## Theorems: Dashboard reconciler -/

theorem dueAlert_key_shape (task : ClientTask) (due : Int) (now : Nat) (c : AlertCall)
    (h : dueAlert task due now = some c) : ∃ suffix, c.alertId = task.id ++ suffix := by
  unfold dueAlert at h
  simp only at h
  split_ifs at h <;> cases h <;> first
    | exact ⟨_, rfl⟩
    | (simp only [String.append_assoc]; exact ⟨_, rfl⟩)

theorem estimateAlerts_eq (now : Nat) (ct : Option ClientTask) (st : RunState)
    (task : ClientTask) (started est : Int) :
    estimateAlerts now ct st task started est =
      if 0 < started + est * MS_IN_MIN - now ∧ started + est * MS_IN_MIN - now ≤ 5 * MS_IN_MIN then
        makeAlertIfNew now st
          { alertId := task.id ++ "-est-urgent", taskTitle := task.title
            message := "⏱️ Timer: \"" ++ task.title ++ "\" completes in ~"
              ++ toString (ceilMinutes (started + est * MS_IN_MIN - now)).toNat ++ " minute(s)."
            opts := { type := "info", duration := 6000 } }
      else if started + est * MS_IN_MIN - now ≤ 0 ∧
          ((started + est * MS_IN_MIN - now).natAbs : Int) ≤ MS_24H then
        makeAlertIfNew now (raiseConfirmation ct st task)
          { alertId := task.id ++ "-est-overdue", taskTitle := task.title
            message := "⚠️ Timer ended for \"" ++ task.title ++ "\". Please confirm."
            opts := { type := "warning", duration := 7000 } }
      else st := rfl

theorem dueStep_preserves (now : Nat) (P : RunState → Prop) (task : ClientTask)
    (hmake : ∀ st c, (∃ suffix, c.alertId = task.id ++ suffix) → P st →
      P (makeAlertIfNew now st c))
    (st : RunState) (h : P st) : P (dueStep now st task) := by
  unfold dueStep
  split
  next due _ =>
    split
    next c hc => exact hmake st c (dueAlert_key_shape task due now c hc) h
    next => exact h
  next => exact h

theorem estimateStep_preserves (now : Nat) (ct : Option ClientTask) (P : RunState → Prop)
    (task : ClientTask)
    (hmake : ∀ st c, (∃ suffix, c.alertId = task.id ++ suffix) → P st →
      P (makeAlertIfNew now st c))
    (hraise : ∀ st, P st → P (raiseConfirmation ct st task))
    (st : RunState) (h : P st) : P (estimateStep now ct st task) := by
  unfold estimateStep
  split
  next started est _ _ =>
    split_ifs
    · rw [estimateAlerts_eq]
      split_ifs
      · exact hmake _ _ ⟨_, rfl⟩ h
      · exact hmake _ _ ⟨_, rfl⟩ (hraise _ h)
      · exact h
    · exact h
  next => exact h

/-- A property of the run state that every `makeAlertIfNew` call for a task and every
confirmation prompt keeps is kept by the processing of the task. -/
theorem checkTask_preserves (now : Nat) (ct : Option ClientTask) (P : RunState → Prop)
    (task : ClientTask)
    (hmake : ∀ st c, (∃ suffix, c.alertId = task.id ++ suffix) → P st →
      P (makeAlertIfNew now st c))
    (hraise : ∀ st, P st → P (raiseConfirmation ct st task))
    (st : RunState) (h : P st) : P (checkTask now ct st task) := by
  unfold checkTask
  split_ifs
  · exact h
  · exact estimateStep_preserves now ct P task hmake hraise _
      (dueStep_preserves now P task hmake st h)

theorem foldl_checkTask_preserves (now : Nat) (ct : Option ClientTask) (P : RunState → Prop)
    (tasks : List ClientTask)
    (hstep : ∀ task ∈ tasks, ∀ st, P st → P (checkTask now ct st task))
    (st : RunState) (h : P st) : P (tasks.foldl (checkTask now ct) st) := by
  induction tasks generalizing st with
  | nil => exact h
  | cons t ts ih =>
    rw [List.foldl_cons]
    exact ih (fun task ht => hstep task (List.mem_cons_of_mem _ ht)) _
      (hstep t (List.mem_cons_self _ _) st h)

theorem makeAlertIfNew_eq (now : Nat) (st : RunState) (c : AlertCall) :
    makeAlertIfNew now st c =
      if c.alertId ∈ st.alertsThisRun then st
      else if st.storage (c.alertId ++ "-bucket") = some (bucketStamp now) then st
      else
        { storage := setKey st.storage (c.alertId ++ "-bucket") (bucketStamp now)
          alertsThisRun := st.alertsThisRun ++ [c.alertId]
          upcomingAlerts := st.upcomingAlerts ++
            [{ id := c.alertId, taskTitle := c.taskTitle, message := c.message }]
          toasts := st.toasts ++ [{ message := c.message, opts := c.opts }]
          confirmCalls := st.confirmCalls } := rfl

theorem makeAlertIfNew_storage_other (now : Nat) (st : RunState) (c : AlertCall) (k : String)
    (hk : k ≠ c.alertId ++ "-bucket") : (makeAlertIfNew now st c).storage k = st.storage k := by
  rw [makeAlertIfNew_eq]
  split_ifs
  · rfl
  · rfl
  · exact setKey_other _ _ _ _ hk

theorem makeAlertIfNew_confirmCalls (now : Nat) (st : RunState) (c : AlertCall) :
    (makeAlertIfNew now st c).confirmCalls = st.confirmCalls := by
  rw [makeAlertIfNew_eq]
  split_ifs <;> rfl

theorem raiseConfirmation_storage (ct : Option ClientTask) (st : RunState) (task : ClientTask) :
    (raiseConfirmation ct st task).storage = st.storage := by
  unfold raiseConfirmation
  simp only
  split_ifs <;> rfl

theorem raiseConfirmation_upcomingAlerts (ct : Option ClientTask) (st : RunState)
    (task : ClientTask) :
    (raiseConfirmation ct st task).upcomingAlerts = st.upcomingAlerts := by
  unfold raiseConfirmation
  simp only
  split_ifs <;> rfl

theorem raiseConfirmation_alertsThisRun (ct : Option ClientTask) (st : RunState)
    (task : ClientTask) :
    (raiseConfirmation ct st task).alertsThisRun = st.alertsThisRun := by
  unfold raiseConfirmation
  simp only
  split_ifs <;> rfl

theorem raiseConfirmation_toasts_mono (ct : Option ClientTask) (st : RunState)
    (task : ClientTask) (t : Toast) (h : t ∈ st.toasts) :
    t ∈ (raiseConfirmation ct st task).toasts := by
  unfold raiseConfirmation
  simp only
  split_ifs
  · exact List.mem_append_left _ h
  · exact h

theorem makeAlertIfNew_inv (now : Nat) (st : RunState) (c : AlertCall) (h : RunInv now st) :
    RunInv now (makeAlertIfNew now st c) := by
  rw [makeAlertIfNew_eq]
  split_ifs with h1 h2
  · exact h
  · exact h
  · obtain ⟨hids, hst⟩ := h
    refine ⟨by simp [hids], ?_⟩
    intro y hy
    simp only [List.mem_append, List.mem_singleton] at hy
    by_cases hyc : y = c.alertId
    · rw [hyc]
      exact setKey_same _ _ _
    · have hy' : y ∈ st.alertsThisRun := by
        rcases hy with hy | hy
        · exact hy
        · exact absurd hy hyc
      have hne : y ++ "-bucket" ≠ c.alertId ++ "-bucket" :=
        fun hc => hyc (string_append_right_cancel _ _ _ hc)
      show setKey st.storage _ _ _ = _
      rw [setKey_other _ _ _ _ hne]
      exact hst y hy'

theorem raiseConfirmation_inv (now : Nat) (ct : Option ClientTask) (st : RunState)
    (task : ClientTask) (h : RunInv now st) : RunInv now (raiseConfirmation ct st task) := by
  unfold RunInv at h ⊢
  rw [raiseConfirmation_storage, raiseConfirmation_upcomingAlerts,
    raiseConfirmation_alertsThisRun]
  exact h

/-- After a call the key of the alert holds the stamp of the current bucket. -/
theorem makeAlertIfNew_stamped (now : Nat) (st : RunState) (c : AlertCall)
    (h : RunInv now st) :
    (makeAlertIfNew now st c).storage (c.alertId ++ "-bucket") = some (bucketStamp now) := by
  rw [makeAlertIfNew_eq]
  split_ifs with h1 h2
  · exact h.2 _ h1
  · exact h2
  · exact setKey_same _ _ _

theorem makeAlertIfNew_keeps_stamp (now : Nat) (st : RunState) (c : AlertCall) (k : String)
    (h : st.storage k = some (bucketStamp now)) :
    (makeAlertIfNew now st c).storage k = some (bucketStamp now) := by
  rw [makeAlertIfNew_eq]
  split_ifs
  · exact h
  · exact h
  · by_cases hk : k = c.alertId ++ "-bucket"
    · rw [hk]
      exact setKey_same _ _ _
    · show setKey st.storage _ _ _ = _
      rw [setKey_other _ _ _ _ hk]
      exact h

theorem makeAlertIfNew_mono (now : Nat) (st : RunState) (c : AlertCall) (x : String)
    (h : EmittedId st x) : EmittedId (makeAlertIfNew now st c) x := by
  rw [makeAlertIfNew_eq]
  split_ifs
  · exact h
  · exact h
  · obtain ⟨a, ha, hax, t, ht, hta⟩ := h
    exact ⟨a, List.mem_append_left _ ha, hax, t, List.mem_append_left _ ht, hta⟩

theorem raiseConfirmation_mono (ct : Option ClientTask) (st : RunState) (task : ClientTask)
    (x : String) (h : EmittedId st x) : EmittedId (raiseConfirmation ct st task) x := by
  obtain ⟨a, ha, hax, t, ht, hta⟩ := h
  refine ⟨a, ?_, hax, t, raiseConfirmation_toasts_mono ct st task t ht, hta⟩
  rw [raiseConfirmation_upcomingAlerts]
  exact ha

/-- A call whose key does not hold the stamp of the current bucket emits its alert. -/
theorem makeAlertIfNew_emits (now : Nat) (st : RunState) (c : AlertCall) (h : RunInv now st)
    (hs : st.storage (c.alertId ++ "-bucket") ≠ some (bucketStamp now)) :
    EmittedId (makeAlertIfNew now st c) c.alertId := by
  rw [makeAlertIfNew_eq]
  split_ifs with h1
  · exact absurd (h.2 _ h1) hs
  · exact ⟨_, List.mem_append_right _ (List.mem_singleton_self _), rfl,
      _, List.mem_append_right _ (List.mem_singleton_self _), rfl⟩

/-- Either the alert `x` has been emitted, or its key still lacks the current stamp: kept
by every call. -/
theorem makeAlertIfNew_pending (now : Nat) (st : RunState) (c : AlertCall) (x : String)
    (h : RunInv now st)
    (hg : EmittedId st x ∨ st.storage (x ++ "-bucket") ≠ some (bucketStamp now)) :
    EmittedId (makeAlertIfNew now st c) x ∨
      (makeAlertIfNew now st c).storage (x ++ "-bucket") ≠ some (bucketStamp now) := by
  rcases hg with hg | hg
  · exact Or.inl (makeAlertIfNew_mono now st c x hg)
  · by_cases hx : c.alertId = x
    · subst hx
      exact Or.inl (makeAlertIfNew_emits now st c h hg)
    · right
      have hne : x ++ "-bucket" ≠ c.alertId ++ "-bucket" :=
        fun hc => hx (string_append_right_cancel _ _ _ hc).symm
      rw [makeAlertIfNew_storage_other now st c _ hne]
      exact hg

theorem checkTask_inv (now : Nat) (ct : Option ClientTask) (st : RunState) (task : ClientTask)
    (h : RunInv now st) : RunInv now (checkTask now ct st task) :=
  checkTask_preserves now ct (RunInv now) task
    (fun st c _ hst => makeAlertIfNew_inv now st c hst)
    (fun st hst => raiseConfirmation_inv now ct st task hst) st h

theorem checkTask_mono (now : Nat) (ct : Option ClientTask) (st : RunState) (task : ClientTask)
    (x : String) (h : EmittedId st x) : EmittedId (checkTask now ct st task) x :=
  checkTask_preserves now ct (fun s => EmittedId s x) task
    (fun st c _ hst => makeAlertIfNew_mono now st c x hst)
    (fun st hst => raiseConfirmation_mono ct st task x hst) st h

theorem checkTask_pending (now : Nat) (ct : Option ClientTask) (st : RunState)
    (task : ClientTask) (x : String)
    (h : RunInv now st ∧
      (EmittedId st x ∨ st.storage (x ++ "-bucket") ≠ some (bucketStamp now))) :
    RunInv now (checkTask now ct st task) ∧
      (EmittedId (checkTask now ct st task) x ∨
        (checkTask now ct st task).storage (x ++ "-bucket") ≠ some (bucketStamp now)) :=
  checkTask_preserves now ct
    (fun s => RunInv now s ∧
      (EmittedId s x ∨ s.storage (x ++ "-bucket") ≠ some (bucketStamp now))) task
    (fun st c _ hst =>
      ⟨makeAlertIfNew_inv now st c hst.1, makeAlertIfNew_pending now st c x hst.1 hst.2⟩)
    (fun st hst => ⟨raiseConfirmation_inv now ct st task hst.1, by
      rcases hst.2 with hg | hg
      · exact Or.inl (raiseConfirmation_mono ct st task x hg)
      · right
        rw [raiseConfirmation_storage]
        exact hg⟩) st h

theorem dueStep_eq (now : Nat) (st : RunState) (task : ClientTask) (due : Int) (c : AlertCall)
    (hdue : task.dueDate = some due) (hc : dueAlert task due now = some c) :
    dueStep now st task = makeAlertIfNew now st c := by
  simp only [dueStep, hdue, hc]

/-- Processing a task with a due date emits the alert of its branch unless the key of the
alert holds the stamp of the current bucket. -/
theorem checkTask_emits_due (now : Nat) (ct : Option ClientTask) (st : RunState)
    (task : ClientTask) (due : Int) (c : AlertCall)
    (hnd : task.status ≠ "Done") (hdue : task.dueDate = some due)
    (hc : dueAlert task due now = some c) (hinv : RunInv now st)
    (hg : EmittedId st c.alertId ∨
      st.storage (c.alertId ++ "-bucket") ≠ some (bucketStamp now)) :
    EmittedId (checkTask now ct st task) c.alertId := by
  unfold checkTask
  rw [if_neg hnd, dueStep_eq now st task due c hdue hc]
  have h1 : EmittedId (makeAlertIfNew now st c) c.alertId := by
    rcases makeAlertIfNew_pending now st c c.alertId hinv hg with h | h
    · exact h
    · exact absurd (makeAlertIfNew_stamped now st c hinv) h
  exact estimateStep_preserves now ct (fun s => EmittedId s c.alertId) task
    (fun st c' _ hst => makeAlertIfNew_mono now st c' _ hst)
    (fun st hst => raiseConfirmation_mono ct st task _ hst) _ h1

theorem foldl_emits_due (now : Nat) (ct : Option ClientTask) (tasks : List ClientTask)
    (task : ClientTask) (due : Int) (c : AlertCall)
    (hmem : task ∈ tasks) (hnd : task.status ≠ "Done") (hdue : task.dueDate = some due)
    (hc : dueAlert task due now = some c) (st : RunState) (hinv : RunInv now st)
    (hg : EmittedId st c.alertId ∨
      st.storage (c.alertId ++ "-bucket") ≠ some (bucketStamp now)) :
    EmittedId (tasks.foldl (checkTask now ct) st) c.alertId := by
  induction tasks generalizing st with
  | nil => cases hmem
  | cons t ts ih =>
    rw [List.foldl_cons]
    rcases List.mem_cons.mp hmem with hmem | hmem
    · subst hmem
      exact foldl_checkTask_preserves now ct (fun s => EmittedId s c.alertId) ts
        (fun t' _ s hs => checkTask_mono now ct s t' _ hs) _
        (checkTask_emits_due now ct st task due c hnd hdue hc hinv hg)
    · have h1 := checkTask_pending now ct st t c.alertId ⟨hinv, hg⟩
      exact ih hmem _ h1.1 h1.2

theorem runInv_init (now : Nat) (storage : Storage) :
    RunInv now { storage := storage, alertsThisRun := [], upcomingAlerts := [], toasts := []
                 confirmCalls := [] } :=
  ⟨rfl, fun _ hy => absurd hy (List.not_mem_nil _)⟩

/-- A run emits the due-date alert of every task that is not done, unless the key of the
alert holds the stamp of the current 30-second bucket when the run starts. -/
theorem checkDeadlines_emits_due (now : Nat) (ct : Option ClientTask) (storage : Storage)
    (tasks : List ClientTask) (task : ClientTask) (due : Int) (c : AlertCall)
    (hmem : task ∈ tasks) (hnd : task.status ≠ "Done") (hdue : task.dueDate = some due)
    (hc : dueAlert task due now = some c)
    (hs : storage (c.alertId ++ "-bucket") ≠ some (bucketStamp now)) :
    EmittedId (checkDeadlines now ct storage tasks) c.alertId :=
  foldl_emits_due now ct tasks task due c hmem hnd hdue hc _ (runInv_init now storage)
    (Or.inr hs)

/-- The branch the due-date chain takes is the one of the band of `msLeft`. -/
theorem dueAlert_of_band (task : ClientTask) (due : Int) (now : Nat) (b : DueBand)
    (hb : b.contains (due - now)) :
    ∃ c, dueAlert task due now = some c ∧ c.alertId = b.alertId task.id (due - now) := by
  unfold dueAlert
  simp only
  cases b <;> simp only [DueBand.contains, MS_IN_MIN] at hb
  · rw [if_neg (by simp only [MS_IN_MIN]; omega), if_neg (by simp only [MS_IN_MIN]; omega),
      if_neg (by simp only [MS_IN_MIN]; omega), if_neg (by simp only [MS_IN_MIN]; omega),
      if_pos hb]
    exact ⟨_, rfl, rfl⟩
  · rw [if_pos (by simp only [MS_IN_MIN]; omega)]
    exact ⟨_, rfl, rfl⟩
  · rw [if_neg (by simp only [MS_IN_MIN]; omega), if_pos (by simp only [MS_IN_MIN]; omega)]
    exact ⟨_, rfl, rfl⟩
  · rw [if_neg (by simp only [MS_IN_MIN]; omega), if_neg (by simp only [MS_IN_MIN]; omega),
      if_pos (by simp only [MS_IN_MIN]; omega)]
    exact ⟨_, rfl, rfl⟩
  · rw [if_neg (by simp only [MS_IN_MIN]; omega), if_neg (by simp only [MS_IN_MIN]; omega),
      if_neg (by simp only [MS_IN_MIN]; omega), if_pos (by simp only [MS_IN_MIN]; omega)]
    exact ⟨_, rfl, rfl⟩

theorem dueBand_exists (msLeft : Int) : ∃ b : DueBand, b.contains msLeft := by
  by_cases h1 : msLeft ≤ 0
  · exact ⟨.overdue, h1⟩
  by_cases h2 : msLeft ≤ 5 * MS_IN_MIN
  · exact ⟨.urgent, by simp only [DueBand.contains]; omega⟩
  by_cases h3 : msLeft ≤ 10 * MS_IN_MIN
  · exact ⟨.tenMinutes, by simp only [DueBand.contains]; omega⟩
  by_cases h4 : msLeft ≤ 60 * MS_IN_MIN
  · exact ⟨.withinHour, by simp only [DueBand.contains]; omega⟩
  · exact ⟨.beyondHour, by simp only [DueBand.contains]; omega⟩

theorem dueBand_unique (msLeft : Int) (b b' : DueBand) (hb : b.contains msLeft)
    (hb' : b'.contains msLeft) : b' = b := by
  cases b <;> cases b' <;> simp only [DueBand.contains, MS_IN_MIN] at hb hb' <;>
    first
      | rfl
      | omega

/-- C14 as stated fails: the task `invoice` is not done and was due one second ago; the
first run on a fresh page emits its overdue alert, but a second run one second later, in
the same 30-second bucket, classifies it as overdue again and emits no alert and no toast. -/
theorem overdue_alert_suppressed_in_bucket :
    invoiceTask.status ≠ "Done" ∧
    invoiceTask.dueDate = some ((clockNow : Int) - 1000) ∧
    (freshPage.run clockNow [invoiceTask]).upcomingAlerts.map Alert.id
      = ["64b7f0a1c2d3e4f5a6b7c8a3-due-overdue"] ∧
    (dueAlert invoiceTask 1709373599000 (clockNow + 1000)).map AlertCall.alertId
      = some "64b7f0a1c2d3e4f5a6b7c8a3-due-overdue" ∧
    ((freshPage.afterRun (freshPage.run clockNow [invoiceTask])).run (clockNow + 1000)
      [invoiceTask]).upcomingAlerts = [] ∧
    ((freshPage.afterRun (freshPage.run clockNow [invoiceTask])).run (clockNow + 1000)
      [invoiceTask]).toasts = [] := by
  decide

/-- C14 (amended): for every task of the list that is not done and has a due date, and
every time `now`, `msLeft = dueDate - now` lies in exactly one of the bands `<= 0`, `(0,5]`,
`(5,10]`, `(10,60]` and `> 60` minutes, the Dashboard reconciler takes the branch of that
band, and the run emits the alert of that band (panel entry and toast) unless
`sessionStorage` already holds, under the key of that alert, the stamp of the current
30-second bucket; a task with `dueDate = now - 1 s` is in the overdue band. -/
theorem due_band_classification (now : Nat) (ct : Option ClientTask) (storage : Storage)
    (tasks : List ClientTask) (task : ClientTask) (due : Int)
    (hmem : task ∈ tasks) (hnd : task.status ≠ "Done") (hdue : task.dueDate = some due) :
    ∃ b : DueBand, b.contains (due - now) ∧
      (∀ b' : DueBand, b'.contains (due - now) → b' = b) ∧
      (∃ c, dueAlert task due now = some c ∧ c.alertId = b.alertId task.id (due - now)) ∧
      (storage (b.alertId task.id (due - now) ++ "-bucket") ≠ some (bucketStamp now) →
        EmittedId (checkDeadlines now ct storage tasks) (b.alertId task.id (due - now))) ∧
      (due - now = -1000 → b = DueBand.overdue) := by
  obtain ⟨b, hb⟩ := dueBand_exists (due - now)
  obtain ⟨c, hc, hid⟩ := dueAlert_of_band task due now b hb
  refine ⟨b, hb, fun b' hb' => dueBand_unique _ b b' hb hb', ⟨c, hc, hid⟩, ?_, ?_⟩
  · intro hs
    rw [← hid] at hs ⊢
    exact checkDeadlines_emits_due now ct storage tasks task due c hmem hnd hdue hc hs
  · intro h1
    have ho : DueBand.overdue.contains (due - now) := by
      simp only [DueBand.contains]
      omega
    exact (dueBand_unique _ b DueBand.overdue hb ho).symm

theorem due_band_classification_witness :
    EmittedId (checkDeadlines clockNow none (fun _ => none) [invoiceTask])
      "64b7f0a1c2d3e4f5a6b7c8a3-due-overdue" := by
  obtain ⟨b, _, _, _, hemit, hover⟩ :=
    due_band_classification clockNow none (fun _ => none) [invoiceTask] invoiceTask
      1709373599000 (List.mem_singleton_self _) (by decide) rfl
  have hb : b = DueBand.overdue := hover (by decide)
  subst hb
  exact hemit (by simp)

theorem string_last_char_ne (s1 s2 t1 t2 : String)
    (h : t1.data.getLast? ≠ t2.data.getLast?) (h1 : t1.data ≠ []) (h2 : t2.data ≠ []) :
    s1 ++ t1 ≠ s2 ++ t2 := by
  intro heq
  have h3 := congrArg (fun s => s.data.getLast?) heq
  simp only [String.data_append, List.getLast?_append] at h3
  obtain ⟨a, ha⟩ := Option.ne_none_iff_exists'.mp
    (fun hc => h1 (List.getLast?_eq_none_iff.mp hc))
  obtain ⟨b, hb⟩ := Option.ne_none_iff_exists'.mp
    (fun hc => h2 (List.getLast?_eq_none_iff.mp hc))
  rw [ha, hb] at h3 h
  exact h h3

/-- The key of the `(5,10]` branch and the key of a 10-minute bucket of the `(10,60]`
branch are the same string exactly when the bucket is the one labelled 10. -/
theorem ten_minute_key_eq_iff (taskId : String) (n : Nat) :
    taskId ++ "-due-10min" = taskId ++ "-due-" ++ toString n ++ "min" ↔ n = 10 := by
  have hlit : taskId ++ "-due-10min" = taskId ++ "-due-" ++ toString 10 ++ "min" := by
    have h10 : toString 10 = "10" := by decide
    rw [h10, String.append_assoc, String.append_assoc]
    congr 1
  rw [hlit]
  constructor
  · intro h
    exact (toString_nat_injective _ _
      (string_append_left_cancel _ _ _ (string_append_right_cancel _ _ _ h))).symm
  · intro h
    rw [h]

theorem withinHour_bucket_eq_ten (m : Int) (h : DueBand.withinHour.contains m) :
    (m / (10 * MS_IN_MIN) * 10).toNat = 10 ↔ m < 20 * MS_IN_MIN := by
  simp only [DueBand.contains, MS_IN_MIN] at h ⊢
  omega

/-- C15 as stated fails: with 8 minutes left the task is in the band `(5,10]`, with 15
minutes left in the band `(10,60]`, and both branches build the alert id
`<taskId>-due-10min`. -/
theorem ten_minute_keys_collide :
    DueBand.tenMinutes.contains (8 * MS_IN_MIN) ∧ DueBand.withinHour.contains (15 * MS_IN_MIN) ∧
    (dueAlert invoiceTask ((clockNow : Int) + 8 * MS_IN_MIN) clockNow).map AlertCall.alertId
      = some "64b7f0a1c2d3e4f5a6b7c8a3-due-10min" ∧
    (dueAlert invoiceTask ((clockNow : Int) + 15 * MS_IN_MIN) clockNow).map AlertCall.alertId
      = some "64b7f0a1c2d3e4f5a6b7c8a3-due-10min" := by
  decide

/-- C15 (amended): for every task and two values of `msLeft` in different due-date bands,
the Dashboard reconciler builds different alert ids, with one exception: a value in
`(5,10]` minutes and a value in `(10,20)` minutes both give `<taskId>-due-10min`. -/
theorem alert_keys_by_band (task : ClientTask) (due1 due2 : Int) (now1 now2 : Nat)
    (b1 b2 : DueBand) (h1 : b1.contains (due1 - now1)) (h2 : b2.contains (due2 - now2))
    (hne : b1 ≠ b2) :
    ∃ c1 c2, dueAlert task due1 now1 = some c1 ∧ dueAlert task due2 now2 = some c2 ∧
      (c1.alertId = c2.alertId ↔
        (b1 = DueBand.tenMinutes ∧ b2 = DueBand.withinHour ∧ due2 - now2 < 20 * MS_IN_MIN) ∨
        (b1 = DueBand.withinHour ∧ b2 = DueBand.tenMinutes ∧ due1 - now1 < 20 * MS_IN_MIN)) := by
  obtain ⟨c1, hc1, hid1⟩ := dueAlert_of_band task due1 now1 b1 h1
  obtain ⟨c2, hc2, hid2⟩ := dueAlert_of_band task due2 now2 b2 h2
  refine ⟨c1, c2, hc1, hc2, ?_⟩
  rw [hid1, hid2]
  cases b1 <;> cases b2 <;> simp only [DueBand.alertId] <;>
    first
      | exact absurd rfl hne
      | (rw [ten_minute_key_eq_iff, withinHour_bucket_eq_ten _ h2]; simp)
      | (rw [eq_comm, ten_minute_key_eq_iff, withinHour_bucket_eq_ten _ h1]; simp)
      | exact ⟨fun h => absurd h
            (string_last_char_ne _ _ _ _ (by decide) (by decide) (by decide)),
          fun h => by simp at h⟩

theorem alert_keys_by_band_witness :
    ∃ c1 c2, dueAlert invoiceTask ((clockNow : Int) + 3 * MS_IN_MIN) clockNow = some c1 ∧
      dueAlert invoiceTask ((clockNow : Int) + 8 * MS_IN_MIN) clockNow = some c2 ∧
      (c1.alertId = c2.alertId ↔
        (DueBand.urgent = DueBand.tenMinutes ∧ DueBand.tenMinutes = DueBand.withinHour ∧
          (clockNow : Int) + 8 * MS_IN_MIN - clockNow < 20 * MS_IN_MIN) ∨
        (DueBand.urgent = DueBand.withinHour ∧ DueBand.tenMinutes = DueBand.tenMinutes ∧
          (clockNow : Int) + 3 * MS_IN_MIN - clockNow < 20 * MS_IN_MIN)) :=
  alert_keys_by_band invoiceTask ((clockNow : Int) + 3 * MS_IN_MIN)
    ((clockNow : Int) + 8 * MS_IN_MIN) clockNow clockNow DueBand.urgent DueBand.tenMinutes
    (by decide) (by decide) (by decide)

/-- C16 (the code's behaviour): two tasks in progress have expired estimates and the page is
fresh. The first run prompts for both and leaves `slides` in `confirmationTask`. The second
run, at the same time and on the same tasks, starting from the state the first run left,
emits no alert but shows the toast `Timer ended for "report". Confirm completion.` again
and calls `setConfirmationTask` for `report`: the guard of line 364 only knows the one task
held in `confirmationTask`. -/
theorem second_run_repeats_confirmation_toast :
    (freshPage.run clockNow [reportTask, slidesTask]).confirmCalls = [reportTask, slidesTask] ∧
    (freshPage.afterRun (freshPage.run clockNow [reportTask, slidesTask])).confirmationTask
      = some slidesTask ∧
    ((freshPage.afterRun (freshPage.run clockNow [reportTask, slidesTask])).run clockNow
      [reportTask, slidesTask]).upcomingAlerts = [] ∧
    ((freshPage.afterRun (freshPage.run clockNow [reportTask, slidesTask])).run clockNow
      [reportTask, slidesTask]).toasts = [confirmToast reportTask] ∧
    ((freshPage.afterRun (freshPage.run clockNow [reportTask, slidesTask])).run clockNow
      [reportTask, slidesTask]).confirmCalls = [reportTask] := by
  decide

theorem checkTask_stamps_due (now : Nat) (ct : Option ClientTask) (st : RunState)
    (task : ClientTask) (due : Int) (c : AlertCall)
    (hnd : task.status ≠ "Done") (hdue : task.dueDate = some due)
    (hc : dueAlert task due now = some c) (hinv : RunInv now st) :
    (checkTask now ct st task).storage (c.alertId ++ "-bucket") = some (bucketStamp now) := by
  unfold checkTask
  rw [if_neg hnd, dueStep_eq now st task due c hdue hc]
  exact estimateStep_preserves now ct
    (fun s => s.storage (c.alertId ++ "-bucket") = some (bucketStamp now)) task
    (fun st c' _ hst => makeAlertIfNew_keeps_stamp now st c' _ hst)
    (fun st hst => by show (raiseConfirmation ct st task).storage _ = _; rw [raiseConfirmation_storage]; exact hst) _
    (makeAlertIfNew_stamped now st c hinv)

theorem checkTask_keeps_stamp (now : Nat) (ct : Option ClientTask) (st : RunState)
    (task : ClientTask) (k : String) (h : st.storage k = some (bucketStamp now)) :
    (checkTask now ct st task).storage k = some (bucketStamp now) :=
  checkTask_preserves now ct (fun s => s.storage k = some (bucketStamp now)) task
    (fun st c _ hst => makeAlertIfNew_keeps_stamp now st c k hst)
    (fun st hst => by show (raiseConfirmation ct st task).storage _ = _; rw [raiseConfirmation_storage]; exact hst) st h

theorem foldl_stamps_due (now : Nat) (ct : Option ClientTask) (tasks : List ClientTask)
    (task : ClientTask) (due : Int) (c : AlertCall)
    (hmem : task ∈ tasks) (hnd : task.status ≠ "Done") (hdue : task.dueDate = some due)
    (hc : dueAlert task due now = some c) (st : RunState) (hinv : RunInv now st) :
    (tasks.foldl (checkTask now ct) st).storage (c.alertId ++ "-bucket")
      = some (bucketStamp now) := by
  induction tasks generalizing st with
  | nil => cases hmem
  | cons t ts ih =>
    rw [List.foldl_cons]
    rcases List.mem_cons.mp hmem with hmem | hmem
    · subst hmem
      exact foldl_checkTask_preserves now ct
        (fun s => s.storage (c.alertId ++ "-bucket") = some (bucketStamp now)) ts
        (fun t' _ s hs => checkTask_keeps_stamp now ct s t' _ hs) _
        (checkTask_stamps_due now ct st task due c hnd hdue hc hinv)
    · exact ih hmem _ (checkTask_inv now ct st t hinv)

/-- C17 as stated fails: the task `invoice` is overdue at both polls, 30 seconds apart, and
each of the two runs emits its overdue alert. -/
theorem overdue_alert_repeats_after_30s :
    DueBand.overdue.contains (1709373599000 - (clockNow : Int)) ∧
    DueBand.overdue.contains (1709373599000 - ((clockNow + 30000 : Nat) : Int)) ∧
    (freshPage.run clockNow [invoiceTask]).upcomingAlerts.map Alert.id
      = ["64b7f0a1c2d3e4f5a6b7c8a3-due-overdue"] ∧
    ((freshPage.afterRun (freshPage.run clockNow [invoiceTask])).run (clockNow + 30000)
      [invoiceTask]).upcomingAlerts.map Alert.id
      = ["64b7f0a1c2d3e4f5a6b7c8a3-due-overdue"] ∧
    ((freshPage.afterRun (freshPage.run clockNow [invoiceTask])).run (clockNow + 30000)
      [invoiceTask]).toasts.map Toast.message = ["⚠️ \"invoice\" is overdue!"] := by
  decide

/-- C17 (amended): for every task that is not done and has a due date, and two successive
Dashboard polls 30 seconds apart at which the reconciler builds the same alert id for the
task (as it does whenever the task stays in the band `<= 0`, `(0,5]` or `(5,10]`), the
second poll emits that alert again: an alert is held back only inside the 30-second bucket
of wall-clock time in which it was last emitted, and two polls 30 seconds apart are never
in the same bucket. -/
theorem alert_repeats_every_poll (now : Nat) (ct ct' : Option ClientTask) (storage : Storage)
    (tasks tasks' : List ClientTask) (task : ClientTask) (due : Int) (c c' : AlertCall)
    (hmem : task ∈ tasks) (hmem' : task ∈ tasks')
    (hnd : task.status ≠ "Done") (hdue : task.dueDate = some due)
    (hc : dueAlert task due now = some c) (hc' : dueAlert task due (now + 30000) = some c')
    (hsame : c'.alertId = c.alertId) :
    EmittedId (checkDeadlines (now + 30000) ct' (checkDeadlines now ct storage tasks).storage
      tasks') c.alertId := by
  have h1 : (checkDeadlines now ct storage tasks).storage (c.alertId ++ "-bucket")
      = some (bucketStamp now) :=
    foldl_stamps_due now ct tasks task due c hmem hnd hdue hc _ (runInv_init now storage)
  rw [← hsame]
  apply checkDeadlines_emits_due (now + 30000) ct' _ tasks' task due c' hmem' hnd hdue hc'
  rw [hsame, h1]
  intro h
  exact bucketStamp_next now (Option.some.inj h)

theorem alert_repeats_every_poll_witness :
    EmittedId (checkDeadlines (clockNow + 30000) none
      (checkDeadlines clockNow none (fun _ => none) [invoiceTask]).storage [invoiceTask])
      "64b7f0a1c2d3e4f5a6b7c8a3-due-overdue" :=
  alert_repeats_every_poll clockNow none none (fun _ => none) [invoiceTask] [invoiceTask]
    invoiceTask 1709373599000
    { alertId := "64b7f0a1c2d3e4f5a6b7c8a3-due-overdue", taskTitle := "invoice"
      message := "⚠️ \"invoice\" is overdue!", opts := { type := "error", duration := 9000 } }
    { alertId := "64b7f0a1c2d3e4f5a6b7c8a3-due-overdue", taskTitle := "invoice"
      message := "⚠️ \"invoice\" is overdue!", opts := { type := "error", duration := 9000 } }
    (List.mem_singleton_self _) (List.mem_singleton_self _) (by decide) rfl
    (by decide) (by decide) rfl

theorem makeAlertIfNew_toasts_mono (now : Nat) (st : RunState) (c : AlertCall) (t : Toast)
    (h : t ∈ st.toasts) : t ∈ (makeAlertIfNew now st c).toasts := by
  rw [makeAlertIfNew_eq]
  split_ifs
  · exact h
  · exact h
  · exact List.mem_append_left _ h

theorem raiseConfirmation_confirmCalls_mono (ct : Option ClientTask) (st : RunState)
    (task t : ClientTask) (h : t ∈ st.confirmCalls) :
    t ∈ (raiseConfirmation ct st task).confirmCalls := by
  unfold raiseConfirmation
  simp only
  split_ifs
  · exact List.mem_append_left _ h
  · exact h

/-- The key written by a call for a task whose id is an `ObjectId` is no `confirm-shown`
key. -/
theorem bucketKey_ne_confirmKey (task : ClientTask) (c : AlertCall) (taskId : String)
    (hid : isObjectId task.id = true) (hc : ∃ suffix, c.alertId = task.id ++ suffix) :
    confirmKey taskId ≠ c.alertId ++ "-bucket" := by
  obtain ⟨suffix, hs⟩ := hc
  rw [hs, String.append_assoc]
  exact fun h => objectId_prefix_ne_confirm_key task.id _ taskId hid h.symm

/-- Processing a task whose id is an `ObjectId` leaves every `confirm-shown` entry of
`sessionStorage` as it was. -/
theorem checkTask_confirm_storage (now : Nat) (ct : Option ClientTask) (st : RunState)
    (task : ClientTask) (taskId : String) (hid : isObjectId task.id = true)
    (v : Option String) (h : st.storage (confirmKey taskId) = v) :
    (checkTask now ct st task).storage (confirmKey taskId) = v :=
  checkTask_preserves now ct (fun s => s.storage (confirmKey taskId) = v) task
    (fun st c hc hst => by
      show (makeAlertIfNew now st c).storage _ = _
      rw [makeAlertIfNew_storage_other now st c _ (bucketKey_ne_confirmKey task c taskId hid hc)]
      exact hst)
    (fun st hst => by
      show (raiseConfirmation ct st task).storage _ = _
      rw [raiseConfirmation_storage]
      exact hst) st h

theorem checkTask_raised_mono (now : Nat) (ct : Option ClientTask) (st : RunState)
    (task t : ClientTask)
    (h : t ∈ st.confirmCalls ∧ confirmToast t ∈ st.toasts) :
    t ∈ (checkTask now ct st task).confirmCalls ∧
      confirmToast t ∈ (checkTask now ct st task).toasts :=
  checkTask_preserves now ct (fun s => t ∈ s.confirmCalls ∧ confirmToast t ∈ s.toasts) task
    (fun st c _ hst => by
      show t ∈ (makeAlertIfNew now st c).confirmCalls ∧ _ ∈ (makeAlertIfNew now st c).toasts
      rw [makeAlertIfNew_confirmCalls]
      exact ⟨hst.1, makeAlertIfNew_toasts_mono now st c _ hst.2⟩)
    (fun st hst =>
      ⟨raiseConfirmation_confirmCalls_mono ct st task t hst.1,
        raiseConfirmation_toasts_mono ct st task _ hst.2⟩) st h

/-- Processing a running task whose timer ended at most 24 hours ago, with no marker and
not held in `confirmationTask`, raises its confirmation. -/
theorem checkTask_raises (now : Nat) (ct : Option ClientTask) (st : RunState)
    (task : ClientTask) (started est : Int)
    (hid : isObjectId task.id = true) (hstatus : task.status = "In Progress")
    (hs : task.startedAt = some started) (he : task.estimatedCompletionTime = some est)
    (hest : est ≠ 0) (hpast : started + est * MS_IN_MIN ≤ now)
    (hday : now - (started + est * MS_IN_MIN) ≤ MS_24H)
    (hmark : truthy (st.storage (confirmKey task.id)) = false)
    (hout : ∀ c, ct = some c → c.id ≠ task.id) :
    task ∈ (checkTask now ct st task).confirmCalls ∧
      confirmToast task ∈ (checkTask now ct st task).toasts := by
  have hnd : task.status ≠ "Done" := by
    rw [hstatus]
    decide
  have hmark1 : truthy ((dueStep now st task).storage (confirmKey task.id)) = false := by
    have h1 := dueStep_preserves now
      (fun s => s.storage (confirmKey task.id) = st.storage (confirmKey task.id)) task
      (fun s c hc hst => by
        show (makeAlertIfNew now s c).storage _ = _
        rw [makeAlertIfNew_storage_other now s c _
          (bucketKey_ne_confirmKey task c task.id hid hc)]
        exact hst) st rfl
    have h2 : (dueStep now st task).storage (confirmKey task.id)
        = st.storage (confirmKey task.id) := h1
    rw [h2]
    exact hmark
  unfold checkTask
  rw [if_neg hnd]
  generalize dueStep now st task = st1 at hmark1 ⊢
  have hstep : estimateStep now ct st1 task
      = makeAlertIfNew now (raiseConfirmation ct st1 task)
          { alertId := task.id ++ "-est-overdue", taskTitle := task.title
            message := "⚠️ Timer ended for \"" ++ task.title ++ "\". Please confirm."
            opts := { type := "warning", duration := 7000 } } := by
    simp only [estimateStep, hs, he]
    rw [if_pos ⟨hest, hstatus⟩, estimateAlerts_eq, if_neg (by omega), if_pos]
    simp only [MS_24H, MS_IN_MIN] at hday hpast ⊢
    omega
  have hraise : raiseConfirmation ct st1 task
      = { st1 with confirmCalls := st1.confirmCalls ++ [task]
                   toasts := st1.toasts ++ [confirmToast task] } := by
    have hm : truthy (st1.storage ("confirm-shown-" ++ task.id)) = false := hmark1
    have hc : ∀ ct' : Option ClientTask, (∀ c, ct' = some c → c.id ≠ task.id) →
        (match ct' with
          | none => true
          | some c => c.id != task.id) = true := by
      intro ct' h
      cases ct' with
      | none => rfl
      | some c => simpa using h c rfl
    unfold raiseConfirmation
    simp only
    rw [if_pos]
    · rfl
    · rw [hm, hc ct hout]
      rfl
  rw [hstep, makeAlertIfNew_confirmCalls, hraise]
  refine ⟨List.mem_append_right _ (List.mem_singleton_self _), ?_⟩
  apply makeAlertIfNew_toasts_mono
  exact List.mem_append_right _ (List.mem_singleton_self _)

theorem foldl_raises (now : Nat) (ct : Option ClientTask) (tasks : List ClientTask)
    (task : ClientTask) (started est : Int)
    (hmem : task ∈ tasks) (hids : ∀ t ∈ tasks, isObjectId t.id = true)
    (hstatus : task.status = "In Progress")
    (hs : task.startedAt = some started) (he : task.estimatedCompletionTime = some est)
    (hest : est ≠ 0) (hpast : started + est * MS_IN_MIN ≤ now)
    (hday : now - (started + est * MS_IN_MIN) ≤ MS_24H)
    (hout : ∀ c, ct = some c → c.id ≠ task.id)
    (st : RunState) (hmark : truthy (st.storage (confirmKey task.id)) = false) :
    task ∈ (tasks.foldl (checkTask now ct) st).confirmCalls ∧
      confirmToast task ∈ (tasks.foldl (checkTask now ct) st).toasts := by
  induction tasks generalizing st with
  | nil => cases hmem
  | cons t ts ih =>
    rw [List.foldl_cons]
    rcases List.mem_cons.mp hmem with hmem | hmem
    · subst hmem
      exact foldl_checkTask_preserves now ct
        (fun s => task ∈ s.confirmCalls ∧ confirmToast task ∈ s.toasts) ts
        (fun t' _ s hs' => checkTask_raised_mono now ct s t' task hs') _
        (checkTask_raises now ct st task started est (hids task (List.mem_cons_self _ _))
          hstatus hs he hest hpast hday hmark hout)
    · apply ih hmem (fun t' ht' => hids t' (List.mem_cons_of_mem _ ht'))
      rw [checkTask_confirm_storage now ct st t task.id (hids t (List.mem_cons_self _ _)) _ rfl]
      exact hmark

/-- C18 as stated fails: the timer of the task `backup` ended 25 hours before the run; the
page is fresh, so there is no marker and no confirmation outstanding, and the run raises
no confirmation, shows no toast and emits no alert. -/
theorem stale_timer_not_confirmed :
    staleTask.status = "In Progress" ∧
    (staleTask.startedAt, staleTask.estimatedCompletionTime)
      = (some ((clockNow : Int) - 26 * 60 * MS_IN_MIN), some 60) ∧
    freshPage.storage (confirmKey staleTask.id) = none ∧
    freshPage.confirmationTask = none ∧
    (freshPage.run clockNow [staleTask]).confirmCalls = [] ∧
    (freshPage.run clockNow [staleTask]).toasts = [] ∧
    (freshPage.run clockNow [staleTask]).upcomingAlerts = [] := by
  decide

/-- C18 (amended): for every task of the list (whose ids are `ObjectId`s) that is in
progress with `startedAt` and a non-zero estimate, whose estimated deadline
`startedAt + estimatedMinutes` has passed by at most 24 hours, with no resolution marker
for the task and with `confirmationTask` not holding this task, a Dashboard reconciler run
(also the first one after a reload) calls `setConfirmationTask` for that task and shows the
`Timer ended` toast. -/
theorem confirmation_raised_within_day (now : Nat) (ct : Option ClientTask) (storage : Storage)
    (tasks : List ClientTask) (task : ClientTask) (started est : Int)
    (hmem : task ∈ tasks) (hids : ∀ t ∈ tasks, isObjectId t.id = true)
    (hstatus : task.status = "In Progress")
    (hs : task.startedAt = some started) (he : task.estimatedCompletionTime = some est)
    (hest : est ≠ 0) (hpast : started + est * MS_IN_MIN ≤ now)
    (hday : now - (started + est * MS_IN_MIN) ≤ MS_24H)
    (hmark : truthy (storage (confirmKey task.id)) = false)
    (hout : ∀ c, ct = some c → c.id ≠ task.id) :
    task ∈ (checkDeadlines now ct storage tasks).confirmCalls ∧
      confirmToast task ∈ (checkDeadlines now ct storage tasks).toasts :=
  foldl_raises now ct tasks task started est hmem hids hstatus hs he hest hpast hday hout _
    hmark

theorem confirmation_raised_within_day_witness :
    reportTask ∈ (checkDeadlines clockNow none (fun _ => none)
      [invoiceTask, reportTask]).confirmCalls ∧
    confirmToast reportTask ∈ (checkDeadlines clockNow none (fun _ => none)
      [invoiceTask, reportTask]).toasts :=
  confirmation_raised_within_day clockNow none (fun _ => none) [invoiceTask, reportTask]
    reportTask 1709370000000 30 (by decide) (by decide) rfl rfl rfl (by decide) (by decide)
    (by decide) rfl (fun c hc => by cases hc)

/-! ## Theorems: category page and sessions -/

theorem make_storage (st : CatRunState) (task : ClientTask) (idSuffix message : String)
    (opts : ToastOpts) : (make st task idSuffix message opts).storage = st.storage := by
  unfold make
  split_ifs <;> rfl

theorem make_confirmCalls (st : CatRunState) (task : ClientTask) (idSuffix message : String)
    (opts : ToastOpts) : (make st task idSuffix message opts).confirmCalls = st.confirmCalls := by
  unfold make
  split_ifs <;> rfl

/-- A property that `make`, the write of a ten-minute stamp and a prompt for a task without
marker keep is kept by the category page's processing of the task. -/
theorem categoryCheckTask_preserves (now : Nat) (P : CatRunState → Prop) (task : ClientTask)
    (hmake : ∀ st idSuffix message opts, P st → P (make st task idSuffix message opts))
    (hstore : ∀ (st : CatRunState) (n : Nat), P st →
      P { st with storage := setKey st.storage ("due-" ++ task.id ++ "-" ++ toString n)
                    (toString n) })
    (hconfirm : ∀ st : CatRunState, truthy (st.storage (confirmKey task.id)) = false → P st →
      P { st with confirmCalls := st.confirmCalls ++ [task] })
    (st : CatRunState) (h : P st) : P (categoryCheckTask now st task) := by
  unfold categoryCheckTask
  split
  next => exact h
  next due _ =>
    split_ifs
    · exact h
    · have h1 : P (categoryDueStep now st task due) := by
        unfold categoryDueStep
        split_ifs
        · exact hmake _ _ _ _ h
        · exact hmake _ _ _ _ (hstore _ _ h)
        · exact h
        · exact hmake _ _ _ _ h
        · exact h
      revert h1
      generalize categoryDueStep now st task due = st1
      intro h1
      unfold categoryEstimateStep
      split
      next started est _ _ =>
        split_ifs
        · exact hmake _ _ _ _ h1
        · unfold categoryRaise
          split_ifs with hm
          · exact hmake _ _ _ _ (hconfirm _ (by simpa using hm) h1)
          · exact h1
        · exact h1
        · exact h1
      next => exact h1

theorem foldl_categoryCheckTask_preserves (now : Nat) (P : CatRunState → Prop)
    (tasks : List ClientTask)
    (hstep : ∀ task ∈ tasks, ∀ st, P st → P (categoryCheckTask now st task))
    (st : CatRunState) (h : P st) : P (tasks.foldl (categoryCheckTask now) st) := by
  induction tasks generalizing st with
  | nil => exact h
  | cons t ts ih =>
    rw [List.foldl_cons]
    exact ih (fun task ht => hstep task (List.mem_cons_of_mem _ ht)) _
      (hstep t (List.mem_cons_self _ _) st h)

/-- A property that a prompt for a task without marker keeps is kept by `timerRaise`. -/
theorem timerRaise_preserves (P : CatRunState → Prop) (task : ClientTask) (message : String)
    (hconfirm : ∀ (st : CatRunState) (ts : List Toast) (as : List Alert),
      truthy (st.storage (confirmKey task.id)) = false → P st →
      P { st with confirmCalls := st.confirmCalls ++ [task], toasts := ts, upcoming := as })
    (st : CatRunState) (h : P st) : P (timerRaise st task message) := by
  unfold timerRaise
  split_ifs with hm
  · exact hconfirm st _ _ (by simpa using hm) h
  · exact h

theorem resumeTimer_preserves (now : Nat) (P : CatRunState → Prop) (task : ClientTask)
    (hconfirm : ∀ (st : CatRunState) (ts : List Toast) (as : List Alert),
      truthy (st.storage (confirmKey task.id)) = false → P st →
      P { st with confirmCalls := st.confirmCalls ++ [task], toasts := ts, upcoming := as })
    (st : CatRunState) (h : P st) : P (resumeTimer now st task) := by
  unfold resumeTimer
  split
  next started est _ _ =>
    split_ifs
    · exact h
    · exact timerRaise_preserves P task _ hconfirm st h
    · exact h
  next => exact h

theorem foldl_resumeTimer_preserves (now : Nat) (P : CatRunState → Prop)
    (tasks : List ClientTask)
    (hstep : ∀ task ∈ tasks, ∀ st, P st → P (resumeTimer now st task))
    (st : CatRunState) (h : P st) : P (tasks.foldl (resumeTimer now) st) := by
  induction tasks generalizing st with
  | nil => exact h
  | cons t ts ih =>
    rw [List.foldl_cons]
    exact ih (fun task ht => hstep task (List.mem_cons_of_mem _ ht)) _
      (hstep t (List.mem_cons_self _ _) st h)

theorem timerTick_preserves (tick : Nat) (P : CatRunState → Prop) (task : ClientTask)
    (endTime : Int)
    (hnear : ∀ (st : CatRunState) (ts : List Toast) (as : List Alert), P st →
      P { st with storage := setKey st.storage ("near-end-" ++ task.id) "1", toasts := ts
                  upcoming := as })
    (hconfirm : ∀ (st : CatRunState) (ts : List Toast) (as : List Alert),
      truthy (st.storage (confirmKey task.id)) = false → P st →
      P { st with confirmCalls := st.confirmCalls ++ [task], toasts := ts, upcoming := as })
    (st : CatRunState) (h : P st) : P (timerTick tick st task endTime) := by
  have h1 : P (nearEndStep tick st task endTime) := by
    unfold nearEndStep
    split_ifs
    · exact hnear st _ _ h
    · exact h
    · exact h
  unfold timerTick
  split_ifs
  · exact timerRaise_preserves P task _ hconfirm _ h1
  · exact h1

theorem first_char_ne (a b : String) (x y : Char) (ha : ∃ s, a.data = x :: s)
    (hb : ∃ s, b.data = y :: s) (hxy : x ≠ y) : a ≠ b := by
  intro h
  obtain ⟨s, hs⟩ := ha
  obtain ⟨s', hs'⟩ := hb
  rw [h, hs'] at hs
  exact hxy (List.cons.inj hs).1.symm

theorem due_key_ne_confirmKey (x taskId : String) : confirmKey taskId ≠ "due-" ++ x :=
  first_char_ne _ _ 'c' 'd' ⟨_, by simp [confirmKey, String.data_append]; rfl⟩
    ⟨_, by simp [String.data_append]; rfl⟩ (by decide)

theorem near_key_ne_confirmKey (x taskId : String) : confirmKey taskId ≠ "near-end-" ++ x :=
  first_char_ne _ _ 'c' 'n' ⟨_, by simp [confirmKey, String.data_append]; rfl⟩
    ⟨_, by simp [String.data_append]; rfl⟩ (by decide)

theorem confirmKey_injective (a b : String) (h : confirmKey a = confirmKey b) : a = b :=
  string_append_left_cancel _ _ _ h

/-- A Dashboard run on tasks whose ids are `ObjectId`s leaves every `confirm-shown` entry
of `sessionStorage` as it was. -/
theorem checkDeadlines_confirm_storage (now : Nat) (ct : Option ClientTask) (storage : Storage)
    (tasks : List ClientTask) (hids : ∀ t ∈ tasks, isObjectId t.id = true) (taskId : String) :
    (checkDeadlines now ct storage tasks).storage (confirmKey taskId)
      = storage (confirmKey taskId) :=
  foldl_checkTask_preserves now ct
    (fun s => s.storage (confirmKey taskId) = storage (confirmKey taskId)) tasks
    (fun t ht s hs => checkTask_confirm_storage now ct s t taskId (hids t ht) _ hs) _ rfl

/-- A run of the category page's `checkDeadlines` leaves every `confirm-shown` entry of
`sessionStorage` as it was. -/
theorem categoryCheckDeadlines_confirm_storage (now : Nat) (storage : Storage)
    (tasks : List ClientTask) (taskId : String) :
    (categoryCheckDeadlines now storage tasks).storage (confirmKey taskId)
      = storage (confirmKey taskId) :=
  foldl_categoryCheckTask_preserves now
    (fun s => s.storage (confirmKey taskId) = storage (confirmKey taskId)) tasks
    (fun t _ s hs => categoryCheckTask_preserves now
      (fun s => s.storage (confirmKey taskId) = storage (confirmKey taskId)) t
      (fun st _ _ _ hst => by
        show (make st t _ _ _).storage _ = _
        rw [make_storage]
        exact hst)
      (fun st n hst => by
        dsimp only
        rw [setKey_other _ _ _ _ (by
          rw [String.append_assoc, String.append_assoc]
          exact due_key_ne_confirmKey _ taskId)]
        exact hst)
      (fun st _ hst => hst) s hs) _ rfl

theorem resumeTimers_confirm_storage (now : Nat) (storage : Storage)
    (tasks : List ClientTask) (taskId : String) :
    (tasks.foldl (resumeTimer now)
      { storage := storage, upcoming := [], toasts := [], confirmCalls := [] }).storage
        (confirmKey taskId) = storage (confirmKey taskId) :=
  foldl_resumeTimer_preserves now
    (fun s => s.storage (confirmKey taskId) = storage (confirmKey taskId)) tasks
    (fun t _ s hs => resumeTimer_preserves now
      (fun s => s.storage (confirmKey taskId) = storage (confirmKey taskId)) t
      (fun _ _ _ _ hst => hst) s hs) _ rfl

theorem timerTick_confirm_storage (tick : Nat) (storage : Storage) (task : ClientTask)
    (endTime : Int) (taskId : String) :
    (timerTick tick { storage := storage, upcoming := [], toasts := [], confirmCalls := [] }
      task endTime).storage (confirmKey taskId) = storage (confirmKey taskId) :=
  timerTick_preserves tick
    (fun s => s.storage (confirmKey taskId) = storage (confirmKey taskId)) task endTime
    (fun st _ _ hst => by
      dsimp only
      rw [setKey_other _ _ _ _ (near_key_ne_confirmKey _ taskId)]
      exact hst)
    (fun st _ _ _ hst => hst) _ rfl

/-- C19: for every task list with `ObjectId` task ids, `sessionStorage` and time, a run of
the Dashboard reconciler, a run of the category page's reconciler, the category page's
timer code on load and each of its ticks leave the `confirm-shown` marker of every task as
it was; and a user action (confirm-done, revert-to-todo or dismiss) on the prompt of a task
leaves the marker of every other task as it was. -/
theorem markers_written_only_by_user (now : Nat) (ct : Option ClientTask) (storage : Storage)
    (tasks : List ClientTask) (taskId : String)
    (hids : ∀ t ∈ tasks, isObjectId t.id = true) :
    (checkDeadlines now ct storage tasks).storage (confirmKey taskId)
      = storage (confirmKey taskId) ∧
    (categoryCheckDeadlines now storage tasks).storage (confirmKey taskId)
      = storage (confirmKey taskId) ∧
    (tasks.foldl (resumeTimer now)
      { storage := storage, upcoming := [], toasts := [], confirmCalls := [] }).storage
        (confirmKey taskId) = storage (confirmKey taskId) ∧
    (∀ (task : ClientTask) (endTime : Int),
      (timerTick now { storage := storage, upcoming := [], toasts := [], confirmCalls := [] }
        task endTime).storage (confirmKey taskId) = storage (confirmKey taskId)) ∧
    (∀ (action : Resolution) (acted : String) (putOk : Bool) (clock : Nat), acted ≠ taskId →
      resolveConfirmation storage action acted putOk clock (confirmKey taskId)
        = storage (confirmKey taskId)) := by
  refine ⟨checkDeadlines_confirm_storage now ct storage tasks hids taskId,
    categoryCheckDeadlines_confirm_storage now storage tasks taskId,
    resumeTimers_confirm_storage now storage tasks taskId,
    fun task endTime => timerTick_confirm_storage now storage task endTime taskId, ?_⟩
  intro action acted putOk clock hne
  have hk : confirmKey taskId ≠ confirmKey acted :=
    fun h => hne (confirmKey_injective _ _ h).symm
  cases action <;> cases putOk <;>
    first
      | rfl
      | exact setKey_other _ _ _ _ hk

theorem markers_written_only_by_user_witness :
    (checkDeadlines clockNow none
      (resolveConfirmation (fun _ => none) Resolution.dismiss reportTask.id false 1709373000000)
      [invoiceTask, reportTask, slidesTask]).storage (confirmKey reportTask.id)
      = some "1709373000000" :=
  ((markers_written_only_by_user clockNow none
    (resolveConfirmation (fun _ => none) Resolution.dismiss reportTask.id false 1709373000000)
    [invoiceTask, reportTask, slidesTask] reportTask.id (by decide)).1).trans (by decide)

theorem setKey_truthy (m : Storage) (k k' v : String) (hv : v ≠ "")
    (h : truthy (m k') = true) : truthy (setKey m k v k') = true := by
  by_cases hk : k' = k
  · rw [hk, setKey_same]
    exact truthy_some v hv
  · rw [setKey_other _ _ _ _ hk]
    exact h

theorem bucketStamp_ne_empty (now : Nat) : bucketStamp now ≠ "" := by
  intro h
  have h1 := congrArg String.data h
  simp [bucketStamp, String.data_append] at h1

theorem makeAlertIfNew_truthy (now : Nat) (st : RunState) (c : AlertCall) (k : String)
    (h : truthy (st.storage k) = true) : truthy ((makeAlertIfNew now st c).storage k) = true := by
  rw [makeAlertIfNew_eq]
  split_ifs
  · exact h
  · exact h
  · exact setKey_truthy _ _ _ _ (bucketStamp_ne_empty now) h

theorem raiseConfirmation_calls (ct : Option ClientTask) (st : RunState) (task t : ClientTask)
    (h : t ∈ (raiseConfirmation ct st task).confirmCalls) :
    t ∈ st.confirmCalls ∨ (t = task ∧ truthy (st.storage (confirmKey task.id)) = false) := by
  unfold raiseConfirmation at h
  simp only at h
  split_ifs at h with hc
  · rcases List.mem_append.mp h with h | h
    · exact Or.inl h
    · right
      refine ⟨List.mem_singleton.mp h, ?_⟩
      simp only [Bool.and_eq_true, Bool.not_eq_true'] at hc
      exact hc.1
  · exact Or.inl h

/-- While the marker of the task `taskId` is set, a Dashboard run keeps it set and prompts
for no task with that id. -/
theorem checkDeadlines_resolved (now : Nat) (ct : Option ClientTask) (storage : Storage)
    (tasks : List ClientTask) (taskId : String)
    (h : truthy (storage (confirmKey taskId)) = true) :
    truthy ((checkDeadlines now ct storage tasks).storage (confirmKey taskId)) = true ∧
    ∀ t ∈ (checkDeadlines now ct storage tasks).confirmCalls, t.id ≠ taskId :=
  foldl_checkTask_preserves now ct
    (fun s => truthy (s.storage (confirmKey taskId)) = true ∧
      ∀ t ∈ s.confirmCalls, t.id ≠ taskId) tasks
    (fun task _ s hs => checkTask_preserves now ct
      (fun s => truthy (s.storage (confirmKey taskId)) = true ∧
        ∀ t ∈ s.confirmCalls, t.id ≠ taskId) task
      (fun st c _ hst => by
        refine ⟨makeAlertIfNew_truthy now st c _ hst.1, ?_⟩
        rw [makeAlertIfNew_confirmCalls]
        exact hst.2)
      (fun st hst => by
        refine ⟨by rw [raiseConfirmation_storage]; exact hst.1, ?_⟩
        intro t ht
        rcases raiseConfirmation_calls ct st task t ht with h1 | ⟨h1, h2⟩
        · exact hst.2 t h1
        · intro hid
          rw [h1] at hid
          rw [hid, hst.1] at h2
          cases h2) s hs) _
    ⟨h, fun _ ht => absurd ht (List.not_mem_nil _)⟩

theorem categoryCheckDeadlines_resolved (now : Nat) (storage : Storage)
    (tasks : List ClientTask) (taskId : String)
    (h : truthy (storage (confirmKey taskId)) = true) :
    truthy ((categoryCheckDeadlines now storage tasks).storage (confirmKey taskId)) = true ∧
    ∀ t ∈ (categoryCheckDeadlines now storage tasks).confirmCalls, t.id ≠ taskId :=
  foldl_categoryCheckTask_preserves now
    (fun s => truthy (s.storage (confirmKey taskId)) = true ∧
      ∀ t ∈ s.confirmCalls, t.id ≠ taskId) tasks
    (fun task _ s hs => categoryCheckTask_preserves now
      (fun s => truthy (s.storage (confirmKey taskId)) = true ∧
        ∀ t ∈ s.confirmCalls, t.id ≠ taskId) task
      (fun st _ _ _ hst => by
        dsimp only
        rw [make_storage, make_confirmCalls]
        exact hst)
      (fun st n hst => by
        refine ⟨?_, hst.2⟩
        dsimp only
        exact setKey_truthy _ _ _ _ (toString_nat_ne_empty n) hst.1)
      (fun st hm hst => by
        refine ⟨hst.1, ?_⟩
        intro t ht
        rcases List.mem_append.mp ht with h1 | h1
        · exact hst.2 t h1
        · intro hid
          rw [List.mem_singleton.mp h1] at hid
          rw [hid, hst.1] at hm
          cases hm) s hs) _
    ⟨h, fun _ ht => absurd ht (List.not_mem_nil _)⟩

theorem timer_prompt_resolved (taskId : String) (task : ClientTask) (st : CatRunState)
    (hm : truthy (st.storage (confirmKey task.id)) = false)
    (hst : truthy (st.storage (confirmKey taskId)) = true ∧
      ∀ t ∈ st.confirmCalls, t.id ≠ taskId) :
    truthy (st.storage (confirmKey taskId)) = true ∧
      ∀ t ∈ st.confirmCalls ++ [task], t.id ≠ taskId := by
  refine ⟨hst.1, ?_⟩
  intro t ht
  rcases List.mem_append.mp ht with h1 | h1
  · exact hst.2 t h1
  · intro hid
    rw [List.mem_singleton.mp h1] at hid
    rw [hid, hst.1] at hm
    cases hm

/-- While the marker of the task `taskId` is set, every event of a session keeps it set
and prompts for no task with that id. -/
theorem sessionStep_resolved (storage : Storage) (e : SessionEvent) (taskId : String)
    (h : truthy (storage (confirmKey taskId)) = true) :
    truthy ((sessionStep storage e).1 (confirmKey taskId)) = true ∧
    ∀ t ∈ (sessionStep storage e).2, t.id ≠ taskId := by
  cases e with
  | dashboardRun now ct tasks => exact checkDeadlines_resolved now ct storage tasks taskId h
  | categoryRun now tasks => exact categoryCheckDeadlines_resolved now storage tasks taskId h
  | categoryResume now tasks =>
    exact foldl_resumeTimer_preserves now
      (fun s => truthy (s.storage (confirmKey taskId)) = true ∧
        ∀ t ∈ s.confirmCalls, t.id ≠ taskId) tasks
      (fun task _ s hs => resumeTimer_preserves now
        (fun s => truthy (s.storage (confirmKey taskId)) = true ∧
          ∀ t ∈ s.confirmCalls, t.id ≠ taskId) task
        (fun st _ _ hm hst => timer_prompt_resolved taskId task st hm hst) s hs) _
      ⟨h, fun _ ht => absurd ht (List.not_mem_nil _)⟩
  | categoryTick tick task endTime =>
    exact timerTick_preserves tick
      (fun s => truthy (s.storage (confirmKey taskId)) = true ∧
        ∀ t ∈ s.confirmCalls, t.id ≠ taskId) task endTime
      (fun st _ _ hst => by
        refine ⟨?_, hst.2⟩
        dsimp only
        exact setKey_truthy _ _ _ _ (show ("1" : String) ≠ "" by decide) hst.1)
      (fun st _ _ hm hst => timer_prompt_resolved taskId task st hm hst) _
      ⟨h, fun _ ht => absurd ht (List.not_mem_nil _)⟩
  | resolve action acted putOk clock =>
    refine ⟨?_, fun _ ht => absurd ht (List.not_mem_nil _)⟩
    show truthy (resolveConfirmation storage action acted putOk clock (confirmKey taskId)) = true
    cases action <;> cases putOk <;>
      first
        | exact h
        | exact setKey_truthy _ _ _ _ (toString_nat_ne_empty clock) h

theorem sessionConfirmCalls_resolved (events : List SessionEvent) (storage : Storage)
    (taskId : String) (h : truthy (storage (confirmKey taskId)) = true) :
    ∀ t ∈ sessionConfirmCalls storage events, t.id ≠ taskId := by
  induction events generalizing storage with
  | nil => exact fun _ ht => absurd ht (List.not_mem_nil _)
  | cons e es ih =>
    intro t ht
    unfold sessionConfirmCalls at ht
    rcases List.mem_append.mp ht with h1 | h1
    · exact (sessionStep_resolved storage e taskId h).2 t h1
    · exact ih _ (sessionStep_resolved storage e taskId h).1 t h1

/-- C20: once the user has resolved the confirmation of a task (the dialog was closed, or
the button `Done` or `To Do` was pressed and the update succeeded), no later event of the
session, whether a Dashboard run, a category page run, the category page's timer code or a
further user action, calls `setConfirmationTask` for a task with that id, whatever the
task's state is at that time. -/
theorem resolved_confirmation_not_raised_again (storage : Storage) (action : Resolution)
    (taskId : String) (putOk : Bool) (clock : Nat) (events : List SessionEvent)
    (hres : action = Resolution.dismiss ∨ putOk = true) :
    ∀ t ∈ sessionConfirmCalls (resolveConfirmation storage action taskId putOk clock) events,
      t.id ≠ taskId := by
  apply sessionConfirmCalls_resolved
  have hset : resolveConfirmation storage action taskId putOk clock
      = setKey storage (confirmKey taskId) (toString clock) := by
    rcases hres with h | h
    · rw [h]
      rfl
    · rw [h]
      cases action <;> rfl
  rw [hset, setKey_same]
  exact truthy_some _ (toString_nat_ne_empty clock)

theorem resolved_confirmation_not_raised_again_witness :
    (Resolution.dismiss = Resolution.dismiss ∨ false = true) ∧
    (sessionConfirmCalls
      (resolveConfirmation (fun _ => none) Resolution.dismiss reportTask.id false 1709373000000)
      [SessionEvent.dashboardRun clockNow none [reportTask, slidesTask],
       SessionEvent.categoryRun (clockNow + 30000) [reportTask, slidesTask]]).all
      (fun t => decide (t.id ≠ reportTask.id)) = true :=
  ⟨Or.inl rfl, List.all_eq_true.mpr (fun t ht => decide_eq_true
    (resolved_confirmation_not_raised_again (fun _ => none) Resolution.dismiss reportTask.id
      false 1709373000000
      [SessionEvent.dashboardRun clockNow none [reportTask, slidesTask],
       SessionEvent.categoryRun (clockNow + 30000) [reportTask, slidesTask]]
      (Or.inl rfl) t ht))⟩

/-- A sample session, evaluated: after the prompt of `report` was dismissed the Dashboard
run prompts for `slides` only; without the dismissal it prompts for both. -/
theorem sessionConfirmCalls_sample :
    sessionConfirmCalls
      (resolveConfirmation (fun _ => none) Resolution.dismiss reportTask.id false 1709373000000)
      [SessionEvent.dashboardRun clockNow none [reportTask, slidesTask]]
      = [slidesTask] ∧
    sessionConfirmCalls (fun _ => none)
      [SessionEvent.dashboardRun clockNow none [reportTask, slidesTask]]
      = [reportTask, slidesTask] := by
  decide

/-! ## Theorems: timing keys of a task -/

/-- What the update object holds under `startedAt` and `estimatedCompletionTime` has no
effect on the stored document: the outcome of the test of line 149 and the assignments of
lines 150-153 do not reach the store. -/
theorem applySet_ignores_timing (t : Task) (u : UpdateFields) (s e : Option Int) :
    applySet t { u with startedAt := s, estimatedCompletionTime := e } = applySet t u := rfl

/-- The update route creates no task and leaves what each stored document holds under
`startedAt` and `estimatedCompletionTime` as it was, whatever the request and its outcome. -/
theorem putTask_timingKeys (tz : Int) (db : Db) (f : TaskFaults) (reqUser : UserId) (id : TaskId)
    (body : UpdateBody) (now today : Int) (i : TaskId) :
    ((putTask tz db f reqUser id body now today).db.tasks i).map timingKeys
      = (db.tasks i).map timingKeys := by
  rcases putTask_cases tz db f reqUser id body now today _ rfl with ⟨h, _⟩ | ⟨t0, ht0, _, h⟩
  · rw [h]
  · have key : ∀ u : UpdateFields,
        ((setKey db.tasks id (applySet t0 u)) i).map timingKeys = (db.tasks i).map timingKeys := by
      intro u
      by_cases hi : i = id
      · subst hi
        rw [setKey_same, ht0]
        rfl
      · rw [setKey_other _ _ _ _ hi]
    rcases h with ⟨_, _, _, u, _, ⟨_, _, h⟩ | ⟨_, _, h⟩⟩ | ⟨_, _, _, _, h⟩ | ⟨_, _, _, _, h⟩ <;>
      rw [h] <;> first
      | rfl
      | exact key _

theorem putTasks_timingKeys (tz : Int) (reqs : List PutRequest) (db : Db) (i : TaskId) :
    ((putTasks tz db reqs).tasks i).map timingKeys = (db.tasks i).map timingKeys := by
  induction reqs generalizing db with
  | nil => rfl
  | cons r rs ih =>
    unfold putTasks
    rw [ih, putTask_timingKeys]

/-- C21: starting from a task as the creation route stores it, after every sequence of
update requests (any bodies, estimates, users, clock readings and database failures) the
task is still stored, and its `startedAt` and its estimate are both unset; so they are
either both set or both unset, and set only while the status is `In Progress`. The update
route stores neither key at any time. -/
theorem timing_fields_invariant (tz : Int) (db : Db) (id : TaskId) (dueDate : Option Int)
    (reqs : List PutRequest) (hnew : db.tasks id = some (Task.create dueDate)) :
    ∃ t, (putTasks tz db reqs).tasks id = some t ∧ timingMatchesStatus t ∧
      t.startedAt = none ∧ t.estimatedCompletionTime = none := by
  have h := putTasks_timingKeys tz reqs db id
  rw [hnew] at h
  cases ht : (putTasks tz db reqs).tasks id with
  | none => rw [ht] at h; cases h
  | some t =>
    rw [ht] at h
    simp only [Option.map_some', Option.some.injEq, timingKeys, Task.create,
      Prod.mk.injEq] at h
    refine ⟨t, rfl, ?_, h.1, h.2⟩
    unfold timingMatchesStatus
    rw [h.1, h.2]
    simp

/-- The sample task is started with an estimate of 30 minutes, completed, reopened and
started again. -/
theorem timing_fields_invariant_witness :
    ∃ t, (putTasks 0 sampleNewDb
        [sampleRequest "In Progress" 1709283600000, sampleRequest "Done" 1709287200000,
         sampleRequest "To Do" 1709290800000, sampleRequest "In Progress" 1709373600000]).tasks
          "64b7f0a1c2d3e4f5a6b7c8aa" = some t ∧ timingMatchesStatus t ∧
      t.startedAt = none ∧ t.estimatedCompletionTime = none :=
  timing_fields_invariant 0 sampleNewDb "64b7f0a1c2d3e4f5a6b7c8aa" none
    [sampleRequest "In Progress" 1709283600000, sampleRequest "Done" 1709287200000,
     sampleRequest "To Do" 1709290800000, sampleRequest "In Progress" 1709373600000]
    (by decide)

/-- The invariant on the timing keys is not kept by the route's own logic: a stored
document that holds a start time and an estimate while `In Progress` keeps both when the
confirmation dialog moves it to `Done` or back to `To Do`. -/
theorem timing_keys_survive_completion :
    timingMatchesStatus { timedTask with status := "In Progress" } ∧
    ((putTask 0
        { sampleDb with tasks := setKey (fun _ => none) "64b7f0a1c2d3e4f5a6b7c8aa"
                          { timedTask with status := "In Progress" } }
        noTaskFaults ashaId "64b7f0a1c2d3e4f5a6b7c8aa" bodyDone 1709373600000
        1709373600004).db.tasks "64b7f0a1c2d3e4f5a6b7c8aa").map
          (fun t => (t.status, t.startedAt, t.estimatedCompletionTime))
      = some ("Done", some 1709193600000, some 30) := by
  decide

theorem buildUpdateFields_start (body : UpdateBody) (now : Int)
    (h : body.status = some "In Progress") :
    (buildUpdateFields body now).startedAt = some now ∧
    (buildUpdateFields body now).estimatedCompletionTime = body.estimatedCompletionTime := by
  unfold buildUpdateFields
  rw [h]
  simp

/-- C24: an update that sets the status `In Progress` on a stored task, with any estimate,
and is answered with 200 puts `startedAt = now` and the supplied estimate into the object
`updateFields`, and stores the task with the status `In Progress`; but the stored document
holds under `startedAt` and `estimatedCompletionTime` exactly what it held before the
update: neither key is a path of the task schema, so the update does not write them. A
task written through the schema has no start time and no estimate afterwards, and a
document that held a start time keeps that one. -/
theorem started_timer_not_stored (tz : Int) (db : Db) (f : TaskFaults) (reqUser : UserId)
    (id : TaskId) (body : UpdateBody) (now today : Int) (t : Task)
    (hstored : db.tasks id = some t) (hstatus : body.status = some "In Progress")
    (hok : (putTask tz db f reqUser id body now today).code = 200) :
    (buildUpdateFields body now).startedAt = some now ∧
    (buildUpdateFields body now).estimatedCompletionTime = body.estimatedCompletionTime ∧
    ∃ t', (putTask tz db f reqUser id body now today).db.tasks id = some t' ∧
      t'.status = "In Progress" ∧ t'.startedAt = t.startedAt ∧
      t'.estimatedCompletionTime = t.estimatedCompletionTime := by
  refine ⟨(buildUpdateFields_start body now hstatus).1,
    (buildUpdateFields_start body now hstatus).2, ?_⟩
  have hnm : ∀ t0, ¬ marksDone body t0 := by
    intro t0 hm
    have := hm.1
    rw [hstatus] at this
    simp at this
  rcases putTask_cases tz db f reqUser id body now today _ rfl with ⟨_, h⟩ | ⟨t0, ht0, _, h⟩
  · exact absurd hok h
  · rw [hstored] at ht0
    cases ht0
    rcases h with ⟨hm, _⟩ | ⟨_, _, _, _, h⟩ | ⟨_, _, _, _, h⟩
    · exact absurd hm (hnm t)
    · rw [h]
      refine ⟨_, setKey_same _ _ _, ?_, rfl, rfl⟩
      rw [applySet_status]
      simp [setCompletedAt, buildUpdateFields_status, hstatus]
    · rw [h]
      refine ⟨_, setKey_same _ _ _, ?_, rfl, rfl⟩
      rw [applySet_status]
      simp [buildUpdateFields_status, hstatus]

/-- A newly created task is started with an estimate of 30 minutes on 1 March 2024 at
09:00 UTC: the stored task has no start time and no estimate. -/
theorem started_timer_not_stored_witness :
    (buildUpdateFields (bodyStart 30) 1709283600000).startedAt = some 1709283600000 ∧
    (buildUpdateFields (bodyStart 30) 1709283600000).estimatedCompletionTime = some 30 ∧
    ∃ t', (putTask 0 sampleNewDb noTaskFaults ashaId "64b7f0a1c2d3e4f5a6b7c8aa" (bodyStart 30)
        1709283600000 1709283600002).db.tasks "64b7f0a1c2d3e4f5a6b7c8aa" = some t' ∧
      t'.status = "In Progress" ∧ t'.startedAt = (Task.create none).startedAt ∧
      t'.estimatedCompletionTime = (Task.create none).estimatedCompletionTime :=
  started_timer_not_stored 0 sampleNewDb noTaskFaults ashaId "64b7f0a1c2d3e4f5a6b7c8aa"
    (bodyStart 30) 1709283600000 1709283600002 (Task.create none) (by decide) (by decide)
    (by decide)

/-- The two sample updates, evaluated. A newly created task started with an estimate of 30
minutes is stored `In Progress` without start time and estimate; a `To Do` document that
held the start time of 29 February and the estimate 30 is stored `In Progress` with that
start time and that estimate when started on 2 March with an estimate of 45 minutes. -/
theorem started_timer_samples :
    (putTask 0 sampleNewDb noTaskFaults ashaId "64b7f0a1c2d3e4f5a6b7c8aa" (bodyStart 30)
        1709283600000 1709283600002).code = 200 ∧
    (putTask 0 sampleNewDb noTaskFaults ashaId "64b7f0a1c2d3e4f5a6b7c8aa" (bodyStart 30)
        1709283600000 1709283600002).db.tasks "64b7f0a1c2d3e4f5a6b7c8aa"
      = some { status := "In Progress", completed := false, dueDate := none
               completedAt := none, startedAt := none, estimatedCompletionTime := none } ∧
    (putTask 0 timedDb noTaskFaults ashaId "64b7f0a1c2d3e4f5a6b7c8aa" (bodyStart 45)
        1709373600000 1709373600002).db.tasks "64b7f0a1c2d3e4f5a6b7c8aa"
      = some { status := "In Progress", completed := false, dueDate := none
               completedAt := none, startedAt := some 1709193600000
               estimatedCompletionTime := some 30 } := by
  decide

/-! ## Theorems: points -/

theorem onTimeBonus_nonneg (t : Task) (now : Int) : 0 ≤ onTimeBonus t now := by
  unfold onTimeBonus
  split
  · split_ifs <;> omega
  · omega

/-- The scoring block on a user whose streak is not negative: the new streak is at least 1
and at least 12 points are added. -/
theorem scoreCompletion_award (tz : Int) (u : User) (t : Task) (now today : Int)
    (h : 0 ≤ u.streak) :
    1 ≤ (scoreCompletion tz u t now today).streak ∧
    u.points + 12 ≤ (scoreCompletion tz u t now today).points := by
  have hb := onTimeBonus_nonneg t now
  have hs : 1 ≤ (scoreCompletion tz u t now today).streak := by
    rw [scoreCompletion_streak]
    split_ifs <;> omega
  refine ⟨hs, ?_⟩
  rw [scoreCompletion_points]
  omega

/-- What an update does to the user collection: nothing, or it stores the requesting user
as scored for a task that the update marks done. -/
theorem putTask_users (tz : Int) (db : Db) (f : TaskFaults) (reqUser : UserId) (id : TaskId)
    (body : UpdateBody) (now today : Int) :
    (putTask tz db f reqUser id body now today).db.users = db.users ∨
    ∃ t u, db.tasks id = some t ∧ marksDone body t ∧ db.users reqUser = some u ∧
      (putTask tz db f reqUser id body now today).db.users
        = setKey db.users reqUser (scoreCompletion tz u t now today) := by
  rcases putTask_cases tz db f reqUser id body now today _ rfl with ⟨h, _⟩ | ⟨t0, ht0, _, h⟩
  · left
    rw [h]
  · rcases h with ⟨hm, _, _, u, hu, ⟨_, _, h⟩ | ⟨_, _, h⟩⟩ | ⟨_, _, _, _, h⟩ | ⟨_, _, _, _, h⟩
    · right
      exact ⟨t0, u, ht0, hm, hu, by rw [h]⟩
    · right
      exact ⟨t0, u, ht0, hm, hu, by rw [h]⟩
    · left
      rw [h]
    · left
      rw [h]

/-- A completing update that meets no database failure, on a task that is not `Done`. -/
theorem putTask_done_ok (tz : Int) (db : Db) (reqUser : UserId) (id : TaskId)
    (body : UpdateBody) (now today : Int) (t : Task) (u : User)
    (ht : db.tasks id = some t) (hnd : t.status ≠ "Done") (hu : db.users reqUser = some u)
    (hb : body.status = some "Done") :
    (putTask tz db noTaskFaults reqUser id body now today).db
      = Db.mk (setKey db.users reqUser (scoreCompletion tz u t now today))
          (setKey db.tasks id
            (applySet t (setCompletedAt (buildUpdateFields body now) (some now))))
          db.messages := by
  simp [putTask, writeTask, noTaskFaults, ht, hu, hb, hnd, buildUpdateFields_status]

/-- An update to a status other than `Done` that meets no database failure: the users are
left as they are and the task is stored with the new status. -/
theorem putTask_other_ok (tz : Int) (db : Db) (reqUser : UserId) (id : TaskId)
    (body : UpdateBody) (now today : Int) (t : Task) (s : String)
    (ht : db.tasks id = some t) (hb : body.status = some s) (hs : s ≠ "Done") :
    (putTask tz db noTaskFaults reqUser id body now today).db.users = db.users ∧
    (putTask tz db noTaskFaults reqUser id body now today).db.messages = db.messages ∧
    ∃ t', (putTask tz db noTaskFaults reqUser id body now today).db.tasks id = some t' ∧
      t'.status = s := by
  have hnm : ¬ marksDone body t := by
    intro hm
    have := hm.1
    rw [hb] at this
    exact hs (Option.some.inj this)
  rcases putTask_cases tz db noTaskFaults reqUser id body now today _ rfl with
    ⟨_, h⟩ | ⟨t0, ht0, _, h⟩
  · exfalso
    apply h
    have e1 : ((buildUpdateFields body now).status == some "Done" && t.status != "Done")
        = false := by
      rw [buildUpdateFields_status, hb]
      simp [hs]
    simp only [putTask, writeTask, noTaskFaults, ht, e1, Bool.false_eq_true, if_false]
    split_ifs <;> rfl
  · rw [ht] at ht0
    cases ht0
    rcases h with ⟨hm, _⟩ | ⟨_, _, _, _, h⟩ | ⟨_, _, _, _, h⟩
    · exact absurd hm hnm
    · rw [h]
      refine ⟨rfl, rfl, _, setKey_same _ _ _, ?_⟩
      rw [applySet_status]
      simp [setCompletedAt, buildUpdateFields_status, hb]
    · rw [h]
      refine ⟨rfl, rfl, _, setKey_same _ _ _, ?_⟩
      rw [applySet_status]
      simp [buildUpdateFields_status, hb]

/-- Completing a task, setting it back and completing it again, with no database failure:
each completion goes through the scoring block. -/
theorem complete_revert_complete (tz : Int) (db : Db) (reqUser : UserId) (id : TaskId)
    (t : Task) (u : User) (s : String) (now1 today1 now2 today2 now3 today3 : Int)
    (ht : db.tasks id = some t) (hnd : t.status ≠ "Done") (hu : db.users reqUser = some u)
    (hstreak : 0 ≤ u.streak) (hs : s ≠ "Done") :
    ∃ u3, (putTasks tz db
        [{ faults := noTaskFaults, reqUser := reqUser, id := id, body := bodyDone
           now := now1, today := today1 },
         { faults := noTaskFaults, reqUser := reqUser, id := id
           body := { dueDate := none, status := some s, estimatedCompletionTime := none }
           now := now2, today := today2 },
         { faults := noTaskFaults, reqUser := reqUser, id := id, body := bodyDone
           now := now3, today := today3 }]).users reqUser = some u3 ∧
      u.points + 24 ≤ u3.points := by
  simp only [putTasks]
  have h1 := putTask_done_ok tz db reqUser id bodyDone now1 today1 t u ht hnd hu rfl
  rw [h1]
  obtain ⟨a1, a2⟩ := scoreCompletion_award tz u t now1 today1 hstreak
  generalize scoreCompletion tz u t now1 today1 = u1 at a1 a2 ⊢
  generalize applySet t (setCompletedAt (buildUpdateFields bodyDone now1) (some now1)) = t1
  obtain ⟨b1, _, t2, b2, b3⟩ := putTask_other_ok tz
    (Db.mk (setKey db.users reqUser u1) (setKey db.tasks id t1) db.messages) reqUser id
    { dueDate := none, status := some s, estimatedCompletionTime := none } now2 today2 t1 s
    (setKey_same _ _ _) rfl hs
  generalize (putTask tz (Db.mk (setKey db.users reqUser u1) (setKey db.tasks id t1) db.messages)
    noTaskFaults reqUser id { dueDate := none, status := some s, estimatedCompletionTime := none }
    now2 today2).db = db2 at b1 b2 ⊢
  have hu2 : db2.users reqUser = some u1 := by
    rw [b1]
    exact setKey_same _ _ _
  have h3 := putTask_done_ok tz db2 reqUser id bodyDone now3 today3 t2 u1 b2
    (by rw [b3]; exact hs) hu2 rfl
  rw [h3]
  refine ⟨_, setKey_same _ _ _, ?_⟩
  have c := (scoreCompletion_award tz u1 t2 now3 today3 (by omega)).2
  omega

/-- C29: for every update request, whatever its outcome, with the requesting user stored
with a streak that is not negative: the user's points afterwards are at least the points
before and the streak is still not negative; no other user is changed; an update that takes
the task from a status other than `Done` to `Done` adds at least 12 points; an update of a
task that is `Done` (in particular setting it back to `To Do` or `In Progress`) leaves the
user document, with points, streak and `lastCompletionDate`, as it was; and completing a
task, setting it back and completing it again adds at least 24 points. -/
theorem points_never_decrease (tz : Int) (db : Db) (f : TaskFaults) (reqUser : UserId)
    (id : TaskId) (body : UpdateBody) (now today : Int) (u : User)
    (hu : db.users reqUser = some u) (hstreak : 0 ≤ u.streak) :
    ∃ u', (putTask tz db f reqUser id body now today).db.users reqUser = some u' ∧
      u.points ≤ u'.points ∧ 0 ≤ u'.streak ∧
      (∀ other, other ≠ reqUser →
        (putTask tz db f reqUser id body now today).db.users other = db.users other) ∧
      (∀ t t', db.tasks id = some t → t.status ≠ "Done" →
        (putTask tz db f reqUser id body now today).db.tasks id = some t' →
        t'.status = "Done" → u.points + 12 ≤ u'.points) ∧
      (∀ t, db.tasks id = some t → t.status = "Done" → u' = u) ∧
      (∀ (t : Task) (s : String) (now1 today1 now2 today2 now3 today3 : Int),
        db.tasks id = some t → t.status ≠ "Done" → s = "To Do" ∨ s = "In Progress" →
        ∃ u3, (putTasks tz db
            [{ faults := noTaskFaults, reqUser := reqUser, id := id, body := bodyDone
               now := now1, today := today1 },
             { faults := noTaskFaults, reqUser := reqUser, id := id
               body := { dueDate := none, status := some s, estimatedCompletionTime := none }
               now := now2, today := today2 },
             { faults := noTaskFaults, reqUser := reqUser, id := id, body := bodyDone
               now := now3, today := today3 }]).users reqUser = some u3 ∧
          u.points + 24 ≤ u3.points) := by
  have h3 : ∀ (t : Task) (s : String) (now1 today1 now2 today2 now3 today3 : Int),
      db.tasks id = some t → t.status ≠ "Done" → s = "To Do" ∨ s = "In Progress" →
      ∃ u3, (putTasks tz db
          [{ faults := noTaskFaults, reqUser := reqUser, id := id, body := bodyDone
             now := now1, today := today1 },
           { faults := noTaskFaults, reqUser := reqUser, id := id
             body := { dueDate := none, status := some s, estimatedCompletionTime := none }
             now := now2, today := today2 },
           { faults := noTaskFaults, reqUser := reqUser, id := id, body := bodyDone
             now := now3, today := today3 }]).users reqUser = some u3 ∧
        u.points + 24 ≤ u3.points := by
    intro t s now1 today1 now2 today2 now3 today3 ht hnd hs
    exact complete_revert_complete tz db reqUser id t u s now1 today1 now2 today2 now3 today3
      ht hnd hu hstreak (by rcases hs with h | h <;> rw [h] <;> decide)
  rcases putTask_users tz db f reqUser id body now today with h | ⟨t0, u0, ht0, hm, hu0, h⟩
  · refine ⟨u, by rw [h, hu], le_refl _, hstreak, fun other _ => by rw [h], ?_, fun _ _ _ => rfl,
      h3⟩
    intro t t' ht hnd hafter hd
    obtain ⟨u1, hu1, husers, _⟩ :=
      putTask_into_done tz db f reqUser id body now today t t' ht hnd hafter hd
    have e : db.users reqUser = some (scoreCompletion tz u1 t now today) := by
      rw [← h, husers]
      exact setKey_same _ _ _
    rw [hu] at hu1 e
    cases hu1
    have a := (scoreCompletion_award tz u t now today hstreak).2
    have e' := congrArg User.points (Option.some.inj e)
    omega
  · rw [hu] at hu0
    cases hu0
    obtain ⟨a1, a2⟩ := scoreCompletion_award tz u t0 now today hstreak
    refine ⟨scoreCompletion tz u t0 now today, by rw [h]; exact setKey_same _ _ _, by omega,
      by omega, ?_, fun _ _ _ _ _ _ => a2, ?_, h3⟩
    · intro other ho
      rw [h]
      exact setKey_other _ _ _ _ ho
    · intro t ht hd
      rw [ht0] at ht
      cases ht
      exact absurd hd hm.2

/-- The sample user (100 points, streak 5) completes the sample task on time on the day
after the last completion. -/
theorem points_never_decrease_witness :
    ∃ u', (putTask 0 sampleDb noTaskFaults ashaId "64b7f0a1c2d3e4f5a6b7c8aa" bodyDone
        1709373600000 1709373600004).db.users ashaId = some u' ∧
      sampleUser.points ≤ u'.points ∧ 0 ≤ u'.streak :=
  (points_never_decrease 0 sampleDb noTaskFaults ashaId "64b7f0a1c2d3e4f5a6b7c8aa" bodyDone
    1709373600000 1709373600004 sampleUser (by decide) (by decide)).imp
    (fun _ h => ⟨h.1, h.2.1, h.2.2.1⟩)

/-- The sample user completes the newly created sample task, sets it back to `To Do` and
completes it again two days later: 100 points become 112 and then 124, the task being
scored at each completion. -/
theorem complete_revert_complete_sample :
    ((putTasks 0 sampleNewDb [sampleRequest "Done" 1709287200000]).users ashaId).map
        User.points = some 112 ∧
    ((putTasks 0 sampleNewDb [sampleRequest "Done" 1709287200000,
        sampleRequest "To Do" 1709290800000]).users ashaId).map User.points = some 112 ∧
    ((putTasks 0 sampleNewDb [sampleRequest "Done" 1709287200000,
        sampleRequest "To Do" 1709290800000, sampleRequest "Done" 1709460000000]).users
          ashaId).map User.points = some 124 := by
  decide

/-! ## Theorems: runs of the presence registry -/

/-- C22 (the code's behaviour): in every registry state, when a socket `h` authenticates as
the user `U1`, then authenticates again as another user `U2`, and then disconnects, the
registry still maps `U1` to `h`: the socket remembers only the last id in `socket.userId`,
and the disconnect handler deletes only the entry of that id. -/
theorem disconnect_leaves_earlier_registration (s : Server) (h : SocketId) (U1 U2 : UserId)
    (hne : U1 ≠ U2) :
    (runRegistry s [.authenticate h U1, .authenticate h U2, .disconnect h]).userSockets U1
      = some h := by
  have hreg : (authenticate (authenticate s h U1) h U2).userSockets U1 = some h := by
    simp [authenticate, setKey, hne]
  have hid : (authenticate (authenticate s h U1) h U2).socketUserId h = some U2 := by
    simp [authenticate, setKey]
  show (disconnect (authenticate (authenticate s h U1) h U2) h).userSockets U1 = some h
  unfold disconnect
  rw [hid]
  split_ifs
  · show deleteKey _ U2 U1 = some h
    simp only [deleteKey, hne, if_false]
    exact hreg
  · exact hreg

/-- From the state at process start, the socket `sockA` authenticates as `asha`, then as
`bala`, then disconnects: `asha` is still mapped to the closed socket. -/
theorem disconnect_leaves_earlier_registration_witness :
    ashaId ≠ balaId ∧
    (runRegistry Server.init [.authenticate "sockA" ashaId, .authenticate "sockA" balaId,
      .disconnect "sockA"]).userSockets ashaId = some "sockA" :=
  ⟨by decide, disconnect_leaves_earlier_registration Server.init "sockA" ashaId balaId
    (by decide)⟩

theorem registryStep_inv (s : Server) (e : RegistryEvent) (rest : List RegistryEvent)
    (hsingle : ∀ h u u', RegistryEvent.authenticate h u ∈ e :: rest →
      RegistryEvent.authenticate h u' ∈ e :: rest → u = u')
    (hids : ∀ h u, RegistryEvent.authenticate h u ∈ e :: rest → u ≠ "")
    (hinv : RegistryInv s (e :: rest)) : RegistryInv (registryStep s e) rest := by
  obtain ⟨h1, h2⟩ := hinv
  cases e with
  | authenticate h0 u0 =>
    have hmem : RegistryEvent.authenticate h0 u0 ∈ RegistryEvent.authenticate h0 u0 :: rest :=
      List.mem_cons_self _ _
    constructor
    · intro u h hu
      show setKey s.socketUserId h0 u0 h = some u
      have hu' : setKey s.userSockets u0 h0 u = some h := hu
      by_cases huu : u = u0
      · subst huu
        rw [setKey_same] at hu'
        cases hu'
        exact setKey_same _ _ _
      · rw [setKey_other _ _ _ _ huu] at hu'
        have hs := h1 u h hu'
        by_cases hh : h = h0
        · subst hh
          exact absurd ((h2 h u hs).2 u0 hmem).symm huu
        · rw [setKey_other _ _ _ _ hh]
          exact hs
    · intro h u hu
      have hu' : setKey s.socketUserId h0 u0 h = some u := hu
      by_cases hh : h = h0
      · subst hh
        rw [setKey_same] at hu'
        cases hu'
        exact ⟨hids h u0 hmem, fun u' hm =>
          hsingle h u' u0 (List.mem_cons_of_mem _ hm) hmem⟩
      · rw [setKey_other _ _ _ _ hh] at hu'
        exact ⟨(h2 h u hu').1, fun u' hm => (h2 h u hu').2 u' (List.mem_cons_of_mem _ hm)⟩
  | disconnect h0 =>
    have hsock : (registryStep s (.disconnect h0)).socketUserId = s.socketUserId := by
      show (disconnect s h0).socketUserId = s.socketUserId
      unfold disconnect
      split_ifs
      · split <;> rfl
      · rfl
    have hsub : ∀ u h, (registryStep s (.disconnect h0)).userSockets u = some h →
        s.userSockets u = some h := by
      intro u h
      show (disconnect s h0).userSockets u = some h → _
      unfold disconnect
      split_ifs
      · split
        · intro hd
          have hd' : deleteKey s.userSockets _ u = some h := hd
          unfold deleteKey at hd'
          split_ifs at hd'
          exact hd'
        · exact id
      · exact id
    constructor
    · intro u h hu
      rw [hsock]
      exact h1 u h (hsub u h hu)
    · intro h u hu
      rw [hsock] at hu
      exact ⟨(h2 h u hu).1, fun u' hm => (h2 h u hu).2 u' (List.mem_cons_of_mem _ hm)⟩

theorem runRegistry_inv (events : List RegistryEvent) (s : Server)
    (hsingle : ∀ h u u', RegistryEvent.authenticate h u ∈ events →
      RegistryEvent.authenticate h u' ∈ events → u = u')
    (hids : ∀ h u, RegistryEvent.authenticate h u ∈ events → u ≠ "")
    (hinv : RegistryInv s events) : RegistryInv (runRegistry s events) [] := by
  induction events generalizing s with
  | nil => exact hinv
  | cons e es ih =>
    show RegistryInv (runRegistry (registryStep s e) es) []
    apply ih
    · intro h u u' hu hu'
      exact hsingle h u u' (List.mem_cons_of_mem _ hu) (List.mem_cons_of_mem _ hu')
    · intro h u hu
      exact hids h u (List.mem_cons_of_mem _ hu)
    · exact registryStep_inv s e es hsingle hids hinv

/-- When every socket authenticates under one user id only and no id is empty, a socket
that disconnects leaves no entry behind: after any such run from the state at process
start, followed by the disconnect of `h`, no user is mapped to `h`. -/
theorem disconnect_removes_single_registration (events : List RegistryEvent) (h : SocketId)
    (hsingle : ∀ h u u', RegistryEvent.authenticate h u ∈ events →
      RegistryEvent.authenticate h u' ∈ events → u = u')
    (hids : ∀ h u, RegistryEvent.authenticate h u ∈ events → u ≠ "") (u : UserId) :
    (disconnect (runRegistry Server.init events) h).userSockets u ≠ some h := by
  have hinv := runRegistry_inv events Server.init hsingle hids
    (And.intro (fun _ _ hu => by simp [Server.init] at hu)
      (fun _ _ hu => by simp [Server.init] at hu))
  generalize runRegistry Server.init events = s at hinv
  obtain ⟨h1, h2⟩ := hinv
  intro hu
  unfold disconnect at hu
  cases hs : s.socketUserId h with
  | none =>
    rw [hs] at hu
    simp only [truthy, Bool.false_eq_true, if_false] at hu
    have := h1 u h hu
    rw [hs] at this
    cases this
  | some u0 =>
    rw [hs, truthy_some u0 (h2 h u0 hs).1] at hu
    simp only [if_true] at hu
    have hu' : deleteKey s.userSockets u0 u = some h := hu
    unfold deleteKey at hu'
    split_ifs at hu' with huu
    have := h1 u h hu'
    rw [hs] at this
    exact huu (Option.some.inj this).symm

/-! ## Theorems: friends lists -/

theorem statusIn_cons (g : Friend) (l : List Friend) (b : UserId) :
    statusIn (g :: l) b = if g.user = b then some g.status else statusIn l b := by
  unfold statusIn
  by_cases h : g.user = b <;> simp [List.find?_cons, h]

theorem statusIn_eq_none_iff (l : List Friend) (b : UserId) :
    statusIn l b = none ↔ b ∉ l.map Friend.user := by
  induction l with
  | nil => simp [statusIn]
  | cons g gs ih =>
    rw [statusIn_cons]
    by_cases h : g.user = b
    · simp [h]
    · have h' : ¬ b = g.user := fun hc => h hc.symm
      simp [h, h', ih]

theorem statusIn_append_single (l : List Friend) (e : Friend) (b : UserId) :
    statusIn (l ++ [e]) b =
      match statusIn l b with
      | some s => some s
      | none => if e.user = b then some e.status else none := by
  induction l with
  | nil => simp [statusIn_cons, statusIn]
  | cons g gs ih =>
    rw [List.cons_append, statusIn_cons, statusIn_cons]
    by_cases h : g.user = b
    · simp [h]
    · simp only [h, if_false]
      exact ih

theorem statusIn_of_mem (l : List Friend) (hnd : (l.map Friend.user).Nodup) (g : Friend)
    (hg : g ∈ l) : statusIn l g.user = some g.status := by
  induction l with
  | nil => cases hg
  | cons x xs ih =>
    rw [statusIn_cons]
    rw [List.map_cons, List.nodup_cons] at hnd
    rcases List.mem_cons.mp hg with h | h
    · subst h
      simp
    · have hne : x.user ≠ g.user := by
        intro hc
        exact hnd.1 (hc ▸ List.mem_map_of_mem Friend.user h)
      rw [if_neg hne]
      exact ih hnd.2 h

theorem statusIn_congr (l l' : List Friend)
    (h : l.map (fun f => (f.user, f.status)) = l'.map fun f => (f.user, f.status))
    (b : UserId) : statusIn l b = statusIn l' b := by
  induction l generalizing l' with
  | nil =>
    cases l' with
    | nil => rfl
    | cons y ys => simp at h
  | cons x xs ih =>
    cases l' with
    | nil => simp at h
    | cons y ys =>
      simp only [List.map_cons, List.cons.injEq, Prod.mk.injEq] at h
      rw [statusIn_cons, statusIn_cons, h.1.1, h.1.2, ih ys h.2]

theorem keys_congr (l l' : List Friend)
    (h : l.map (fun f => (f.user, f.status)) = l'.map fun f => (f.user, f.status)) :
    l.map Friend.user = l'.map Friend.user := by
  have := congrArg (List.map Prod.fst) h
  simpa [List.map_map, Function.comp_def] using this

theorem incFirstUnread_map (peer : UserId) (fs : List Friend) :
    (incFirstUnread peer fs).map (fun f => (f.user, f.status))
      = fs.map fun f => (f.user, f.status) := by
  induction fs with
  | nil => rfl
  | cons g gs ih =>
    unfold incFirstUnread
    by_cases hg : g.user = peer
    · rw [if_pos hg]
      simp
    · rw [if_neg hg]
      simp [ih]

theorem incFirstUnread_nonneg (peer : UserId) (fs : List Friend)
    (h : ∀ g ∈ fs, 0 ≤ g.unreadCount) : ∀ g ∈ incFirstUnread peer fs, 0 ≤ g.unreadCount := by
  induction fs with
  | nil => intro g hg; cases hg
  | cons x xs ih =>
    intro g hg
    unfold incFirstUnread at hg
    have hx := h x (List.mem_cons_self _ _)
    have hxs : ∀ g ∈ xs, 0 ≤ g.unreadCount := fun g hg => h g (List.mem_cons_of_mem _ hg)
    split_ifs at hg
    · rcases List.mem_cons.mp hg with e | e
      · rw [e]
        show 0 ≤ x.unreadCount + 1
        omega
      · exact hxs g e
    · rcases List.mem_cons.mp hg with e | e
      · rw [e]
        exact hx
      · exact ih hxs g e

theorem resetFirstUnread_nonneg (peer : UserId) (fs : List Friend)
    (h : ∀ g ∈ fs, 0 ≤ g.unreadCount) : ∀ g ∈ resetFirstUnread peer fs, 0 ≤ g.unreadCount := by
  induction fs with
  | nil => intro g hg; cases hg
  | cons x xs ih =>
    intro g hg
    unfold resetFirstUnread at hg
    have hx := h x (List.mem_cons_self _ _)
    have hxs : ∀ g ∈ xs, 0 ≤ g.unreadCount := fun g hg => h g (List.mem_cons_of_mem _ hg)
    split_ifs at hg
    · rcases List.mem_cons.mp hg with e | e
      · rw [e]
      · exact hxs g e
    · rcases List.mem_cons.mp hg with e | e
      · rw [e]
        exact hx
      · exact ih hxs g e

theorem acceptFirst_keys (peer : UserId) (fs : List Friend) :
    (acceptFirst peer fs).map Friend.user = fs.map Friend.user := by
  induction fs with
  | nil => rfl
  | cons g gs ih =>
    unfold acceptFirst
    by_cases hg : g.user = peer
    · rw [if_pos hg]
      simp
    · rw [if_neg hg]
      simp [ih]

theorem acceptFirst_nonneg (peer : UserId) (fs : List Friend)
    (h : ∀ g ∈ fs, 0 ≤ g.unreadCount) : ∀ g ∈ acceptFirst peer fs, 0 ≤ g.unreadCount := by
  induction fs with
  | nil => intro g hg; cases hg
  | cons x xs ih =>
    intro g hg
    unfold acceptFirst at hg
    have hx := h x (List.mem_cons_self _ _)
    have hxs : ∀ g ∈ xs, 0 ≤ g.unreadCount := fun g hg => h g (List.mem_cons_of_mem _ hg)
    split_ifs at hg
    · rcases List.mem_cons.mp hg with e | e
      · rw [e]
        exact hx
      · exact hxs g e
    · rcases List.mem_cons.mp hg with e | e
      · rw [e]
        exact hx
      · exact ih hxs g e

theorem statusIn_acceptFirst (peer : UserId) (fs : List Friend) (b : UserId) :
    statusIn (acceptFirst peer fs) b =
      if b = peer then (statusIn fs peer).map (fun _ => "accepted") else statusIn fs b := by
  induction fs with
  | nil => simp [acceptFirst, statusIn]
  | cons g gs ih =>
    unfold acceptFirst
    by_cases hg : g.user = peer
    · rw [if_pos hg, statusIn_cons, statusIn_cons, statusIn_cons]
      by_cases hb : b = peer
      · simp [hg, hb]
      · have : ¬ g.user = b := fun hc => hb (hc ▸ hg)
        have : ¬ peer = b := fun hc => hb hc.symm
        simp [hg, hb, this]
    · rw [if_neg hg, statusIn_cons, statusIn_cons, statusIn_cons, ih]
      by_cases hb : b = peer
      · simp [hg, hb]
      · simp [hg, hb]

theorem pairOk_symm (s s' : Option String) (h : PairOk s s') : PairOk s' s := by
  unfold PairOk at h ⊢
  rcases h with ⟨a, b⟩ | ⟨a, b⟩ | ⟨a, b⟩ | ⟨a, b⟩
  · exact Or.inl ⟨b, a⟩
  · exact Or.inr (Or.inr (Or.inl ⟨b, a⟩))
  · exact Or.inr (Or.inl ⟨b, a⟩)
  · exact Or.inr (Or.inr (Or.inr ⟨b, a⟩))

theorem pairOk_none_right (s : Option String) (h : PairOk s none) : s = none := by
  unfold PairOk at h
  rcases h with ⟨a, _⟩ | ⟨_, b⟩ | ⟨_, b⟩ | ⟨_, b⟩
  · exact a
  · cases b
  · cases b
  · cases b

theorem pairOk_accepted (s s' : Option String) (h : PairOk s s') :
    PairOk (s.map fun _ => "accepted") (s'.map fun _ => "accepted") := by
  unfold PairOk at h ⊢
  rcases h with ⟨a, b⟩ | ⟨a, b⟩ | ⟨a, b⟩ | ⟨a, b⟩ <;> rw [a, b] <;> simp

theorem pushFriend_eq (users : UserId → Option User) (id : UserId) (entry : Friend) :
    pushFriend users id entry = updateFriends users id (fun l => l ++ [entry]) := rfl

theorem setAccepted_eq (users : UserId → Option User) (user peer : UserId) :
    setAccepted users user peer = updateFriends users user (acceptFirst peer) := rfl

theorem incUnread_eq (users : UserId → Option User) (toUser fromUser : UserId) :
    incUnread users toUser fromUser = updateFriends users toUser (incFirstUnread fromUser) := rfl

theorem resetUnread_eq (users : UserId → Option User) (user friendId : UserId) :
    resetUnread users user friendId = updateFriends users user (resetFirstUnread friendId) := rfl

theorem updateFriends_other (users : UserId → Option User) (id : UserId)
    (h : List Friend → List Friend) (x : UserId) (hx : x ≠ id) :
    updateFriends users id h x = users x := by
  unfold updateFriends
  cases hu : users id with
  | none => rfl
  | some u => exact setKey_other _ _ _ _ hx

theorem updateFriends_isSome (users : UserId → Option User) (id : UserId)
    (h : List Friend → List Friend) (x : UserId) :
    (updateFriends users id h x).isSome = (users x).isSome := by
  by_cases hx : x = id
  · subst hx
    unfold updateFriends
    cases hu : users x with
    | none => simp [hu]
    | some u => simp [setKey_same]
  · rw [updateFriends_other _ _ _ _ hx]

theorem friendsOf_updateFriends_other (users : UserId → Option User) (id : UserId)
    (h : List Friend → List Friend) (x : UserId) (hx : x ≠ id) :
    friendsOf (updateFriends users id h) x = friendsOf users x := by
  unfold friendsOf
  rw [updateFriends_other _ _ _ _ hx]

theorem friendsOf_updateFriends_same (users : UserId → Option User) (id : UserId)
    (h : List Friend → List Friend) (hs : (users id).isSome = true ∨ h [] = []) :
    friendsOf (updateFriends users id h) id = h (friendsOf users id) := by
  unfold friendsOf updateFriends
  cases hu : users id with
  | none =>
    rcases hs with hs | hs
    · rw [hu] at hs
      cases hs
    · simp [hu, hs]
  | some u => simp [setKey_same]

/-- An update of one `friends` array that keeps the peers and the statuses of its entries
and makes no counter negative keeps the invariant of the friends lists. -/
theorem socialInv_quiet (users : UserId → Option User) (id : UserId)
    (h : List Friend → List Friend)
    (hmap : ∀ l, (h l).map (fun f => (f.user, f.status)) = l.map fun f => (f.user, f.status))
    (hnn : ∀ l, (∀ g ∈ l, 0 ≤ g.unreadCount) → ∀ g ∈ h l, 0 ≤ g.unreadCount)
    (hinv : SocialInv users) : SocialInv (updateFriends users id h) := by
  have hnil : h [] = [] := by
    have := hmap []
    simpa using this
  have hfr : ∀ x, friendsOf (updateFriends users id h) x
      = if x = id then h (friendsOf users x) else friendsOf users x := by
    intro x
    by_cases hx : x = id
    · subst hx
      rw [if_pos rfl, friendsOf_updateFriends_same _ _ _ (Or.inr hnil)]
    · rw [if_neg hx, friendsOf_updateFriends_other _ _ _ _ hx]
  have hst : ∀ x y, statusFor (updateFriends users id h) x y = statusFor users x y := by
    intro x y
    unfold statusFor
    rw [hfr]
    split_ifs
    · exact statusIn_congr _ _ (hmap _) y
    · rfl
  obtain ⟨h1, h2, h3⟩ := hinv
  refine ⟨?_, ?_, ?_⟩
  · intro a
    rw [hfr]
    split_ifs
    · rw [keys_congr _ _ (hmap _)]
      exact h1 a
    · exact h1 a
  · intro a
    rw [hfr]
    split_ifs
    · exact hnn _ (h2 a)
    · exact h2 a
  · intro a b hab ha hb
    rw [hst, hst]
    rw [updateFriends_isSome] at ha hb
    exact h3 a b hab ha hb

/-- Accepting, with both updates made, between two different users keeps the invariant. -/
theorem socialInv_accept (users : UserId → Option User) (R S : UserId) (hne : R ≠ S)
    (hinv : SocialInv users) :
    SocialInv (setAccepted (setAccepted users R S) S R) := by
  rw [setAccepted_eq, setAccepted_eq]
  have hSR : S ≠ R := fun h => hne h.symm
  have hfr : ∀ x, friendsOf (updateFriends (updateFriends users R (acceptFirst S)) S
      (acceptFirst R)) x
      = if x = S then acceptFirst R (friendsOf users S)
        else if x = R then acceptFirst S (friendsOf users R) else friendsOf users x := by
    intro x
    by_cases hx : x = S
    · subst hx
      rw [if_pos rfl, friendsOf_updateFriends_same _ _ _ (Or.inr rfl),
        friendsOf_updateFriends_other _ _ _ _ hSR]
    · rw [if_neg hx, friendsOf_updateFriends_other _ _ _ _ hx]
      by_cases hx' : x = R
      · subst hx'
        rw [if_pos rfl, friendsOf_updateFriends_same _ _ _ (Or.inr rfl)]
      · rw [if_neg hx', friendsOf_updateFriends_other _ _ _ _ hx']
  have hst : ∀ x y, statusFor (updateFriends (updateFriends users R (acceptFirst S)) S
      (acceptFirst R)) x y
      = if x = S ∧ y = R then (statusFor users S R).map (fun _ => "accepted")
        else if x = R ∧ y = S then (statusFor users R S).map (fun _ => "accepted")
        else statusFor users x y := by
    intro x y
    unfold statusFor
    rw [hfr]
    by_cases hx : x = S
    · subst hx
      rw [if_pos rfl, statusIn_acceptFirst]
      by_cases hy : y = R
      · subst hy
        simp
      · have : ¬ (x = R ∧ y = x) := fun hc => hSR hc.1
        simp [hy, this]
    · rw [if_neg hx]
      by_cases hx' : x = R
      · subst hx'
        rw [if_pos rfl, statusIn_acceptFirst]
        by_cases hy : y = S
        · subst hy
          simp [hx]
        · simp [hy, hx]
      · simp [hx, hx']
  obtain ⟨h1, h2, h3⟩ := hinv
  refine ⟨?_, ?_, ?_⟩
  · intro a
    rw [hfr]
    split_ifs
    · rw [acceptFirst_keys]
      exact h1 S
    · rw [acceptFirst_keys]
      exact h1 R
    · exact h1 a
  · intro a
    rw [hfr]
    split_ifs
    · exact acceptFirst_nonneg _ _ (h2 S)
    · exact acceptFirst_nonneg _ _ (h2 R)
    · exact h2 a
  · intro a b hab ha hb
    rw [updateFriends_isSome, updateFriends_isSome] at ha hb
    have hab' := h3 a b hab ha hb
    rw [hst, hst]
    by_cases c1 : a = S ∧ b = R
    · obtain ⟨e1, e2⟩ := c1
      subst e1 e2
      have : ¬ (b = a ∧ a = b) := fun hc => hab hc.2
      simp only [and_self, if_true, this, if_false]
      exact pairOk_accepted _ _ hab'
    · by_cases c2 : a = R ∧ b = S
      · obtain ⟨e1, e2⟩ := c2
        subst e1 e2
        have : ¬ (a = b ∧ b = a) := fun hc => hab hc.1
        simp only [this, if_false, and_self, if_true]
        exact pairOk_accepted _ _ hab'
      · have c3 : ¬ (b = S ∧ a = R) := fun hc => c2 ⟨hc.2, hc.1⟩
        have c4 : ¬ (b = R ∧ a = S) := fun hc => c1 ⟨hc.2, hc.1⟩
        simp only [c1, c2, c3, c4, if_false]
        exact hab'

theorem updateFriends_absent (users : UserId → Option User) (id : UserId)
    (h : List Friend → List Friend) (hu : users id = none) : updateFriends users id h = users := by
  unfold updateFriends
  rw [hu]

theorem statusIn_append_other (l : List Friend) (e : Friend) (b : UserId) (h : e.user ≠ b) :
    statusIn (l ++ [e]) b = statusIn l b := by
  rw [statusIn_append_single]
  cases statusIn l b with
  | none => simp [h]
  | some s => rfl

theorem statusIn_append_new (l : List Friend) (e : Friend) (h : statusIn l e.user = none) :
    statusIn (l ++ [e]) e.user = some e.status := by
  rw [statusIn_append_single, h]
  simp

theorem keys_append_nodup (l : List Friend) (e : Friend) (hnd : (l.map Friend.user).Nodup)
    (h : statusIn l e.user = none) : ((l ++ [e]).map Friend.user).Nodup := by
  rw [List.map_append, List.nodup_append]
  refine ⟨hnd, List.nodup_singleton _, ?_⟩
  intro x hx hx'
  simp only [List.map_cons, List.map_nil, List.mem_singleton] at hx'
  subst hx'
  exact (statusIn_eq_none_iff l e.user).mp h hx

/-- A friend request with both pushes made, between two different users, to a stored
recipient who holds no entry for the sender, keeps the invariant. -/
theorem socialInv_request (users : UserId → Option User) (A B : UserId) (hne : A ≠ B)
    (hB : (users B).isSome = true) (hnone : statusFor users B A = none)
    (hinv : SocialInv users) :
    SocialInv (pushFriend (pushFriend users A { user := B, status := "sent", unreadCount := 0 })
      B { user := A, status := "pending", unreadCount := 0 }) := by
  obtain ⟨h1, h2, h3⟩ := hinv
  have hBA : B ≠ A := fun h => hne h.symm
  rw [pushFriend_eq, pushFriend_eq]
  by_cases hA : (users A).isSome = true
  · have hAB : statusFor users A B = none := pairOk_none_right _ (hnone ▸ h3 A B hne hA hB)
    have hB1 : (updateFriends users A
        (fun l => l ++ [{ user := B, status := "sent", unreadCount := 0 }]) B).isSome = true := by
      rw [updateFriends_isSome]
      exact hB
    have hfr : ∀ x, friendsOf (updateFriends (updateFriends users A
          (fun l => l ++ [{ user := B, status := "sent", unreadCount := 0 }])) B
          (fun l => l ++ [{ user := A, status := "pending", unreadCount := 0 }])) x
        = if x = B then friendsOf users B ++ [{ user := A, status := "pending", unreadCount := 0 }]
          else if x = A then
            friendsOf users A ++ [{ user := B, status := "sent", unreadCount := 0 }]
          else friendsOf users x := by
      intro x
      by_cases hx : x = B
      · subst hx
        rw [if_pos rfl, friendsOf_updateFriends_same _ _ _ (Or.inl hB1),
          friendsOf_updateFriends_other _ _ _ _ hBA]
      · rw [if_neg hx, friendsOf_updateFriends_other _ _ _ _ hx]
        by_cases hx' : x = A
        · subst hx'
          rw [if_pos rfl, friendsOf_updateFriends_same _ _ _ (Or.inl hA)]
        · rw [if_neg hx', friendsOf_updateFriends_other _ _ _ _ hx']
    have hst : ∀ x y, statusFor (updateFriends (updateFriends users A
          (fun l => l ++ [{ user := B, status := "sent", unreadCount := 0 }])) B
          (fun l => l ++ [{ user := A, status := "pending", unreadCount := 0 }])) x y
        = if x = B ∧ y = A then some "pending"
          else if x = A ∧ y = B then some "sent" else statusFor users x y := by
      intro x y
      unfold statusFor
      rw [hfr]
      by_cases hx : x = B
      · subst hx
        rw [if_pos rfl]
        by_cases hy : y = A
        · subst hy
          simp only [and_self, if_true]
          exact statusIn_append_new _ { user := y, status := "pending", unreadCount := 0 } hnone
        · have c : ¬ (x = A ∧ y = x) := fun hc => hBA hc.1
          simp only [hy, and_false, if_false, c]
          exact statusIn_append_other _ _ _ (fun hc => hy hc.symm)
      · rw [if_neg hx]
        by_cases hx' : x = A
        · subst hx'
          rw [if_pos rfl]
          by_cases hy : y = B
          · subst hy
            simp only [hx, false_and, if_false, and_self, if_true]
            exact statusIn_append_new _ { user := y, status := "sent", unreadCount := 0 } hAB
          · simp only [hx, false_and, if_false, hy, and_false]
            exact statusIn_append_other _ _ _ (fun hc => hy hc.symm)
        · simp [hx, hx']
    refine ⟨?_, ?_, ?_⟩
    · intro a
      rw [hfr]
      split_ifs
      · exact keys_append_nodup _ { user := A, status := "pending", unreadCount := 0 } (h1 B) hnone
      · exact keys_append_nodup _ { user := B, status := "sent", unreadCount := 0 } (h1 A) hAB
      · exact h1 a
    · intro a
      rw [hfr]
      split_ifs
      · intro g hg
        rcases List.mem_append.mp hg with e | e
        · exact h2 B g e
        · rw [List.mem_singleton.mp e]
      · intro g hg
        rcases List.mem_append.mp hg with e | e
        · exact h2 A g e
        · rw [List.mem_singleton.mp e]
      · exact h2 a
    · intro a b hab ha hb
      rw [updateFriends_isSome, updateFriends_isSome] at ha hb
      have hab' := h3 a b hab ha hb
      rw [hst, hst]
      by_cases c1 : a = B ∧ b = A
      · obtain ⟨e1, e2⟩ := c1
        subst e1 e2
        have : ¬ (b = a ∧ a = b) := fun hc => hab hc.2
        simp only [and_self, if_true, this, if_false]
        exact Or.inr (Or.inr (Or.inl ⟨rfl, rfl⟩))
      · by_cases c2 : a = A ∧ b = B
        · obtain ⟨e1, e2⟩ := c2
          subst e1 e2
          have : ¬ (a = b ∧ b = a) := fun hc => hab hc.1
          simp only [this, if_false, and_self, if_true]
          exact Or.inr (Or.inl ⟨rfl, rfl⟩)
        · have c3 : ¬ (b = B ∧ a = A) := fun hc => c2 ⟨hc.2, hc.1⟩
          have c4 : ¬ (b = A ∧ a = B) := fun hc => c1 ⟨hc.2, hc.1⟩
          simp only [c1, c2, c3, c4, if_false]
          exact hab'
  · have hAn : users A = none := by
      cases hu : users A with
      | none => rfl
      | some u => rw [hu] at hA; simp at hA
    rw [updateFriends_absent users A _ hAn]
    have hfr : ∀ x, friendsOf (updateFriends users B
          (fun l => l ++ [{ user := A, status := "pending", unreadCount := 0 }])) x
        = if x = B then friendsOf users B ++ [{ user := A, status := "pending", unreadCount := 0 }]
          else friendsOf users x := by
      intro x
      by_cases hx : x = B
      · subst hx
        rw [if_pos rfl, friendsOf_updateFriends_same _ _ _ (Or.inl hB)]
      · rw [if_neg hx, friendsOf_updateFriends_other _ _ _ _ hx]
    refine ⟨?_, ?_, ?_⟩
    · intro a
      rw [hfr]
      split_ifs
      · exact keys_append_nodup _ { user := A, status := "pending", unreadCount := 0 } (h1 B) hnone
      · exact h1 a
    · intro a
      rw [hfr]
      split_ifs
      · intro g hg
        rcases List.mem_append.mp hg with e | e
        · exact h2 B g e
        · rw [List.mem_singleton.mp e]
      · exact h2 a
    · intro a b hab ha hb
      rw [updateFriends_isSome] at ha hb
      have haA : a ≠ A := fun hc => hA (hc ▸ ha)
      have hbA : b ≠ A := fun hc => hA (hc ▸ hb)
      have hab' := h3 a b hab ha hb
      have hst : ∀ x y, y ≠ A → statusFor (updateFriends users B
            (fun l => l ++ [{ user := A, status := "pending", unreadCount := 0 }])) x y
          = statusFor users x y := by
        intro x y hy
        unfold statusFor
        rw [hfr]
        split_ifs with hx
        · subst hx
          exact statusIn_append_other _ _ _ (fun hc => hy hc.symm)
        · rfl
      rw [hst a b hbA, hst b a haA]
      exact hab'

/-- Every way a friend request can leave the user collection. -/
theorem requestFriend_users (srv : Server) (db : Db) (f : FriendFaults) (A B : UserId) :
    (requestFriend srv db f A B).db.users = db.users ∨
    (f.recipientPush = true ∧ (requestFriend srv db f A B).db.users
        = pushFriend db.users A { user := B, status := "sent", unreadCount := 0 }) ∨
    (∃ r, db.users B = some r ∧ r.friends.any (fun fr => fr.user == A) = false ∧
      (requestFriend srv db f A B).db.users
        = pushFriend (pushFriend db.users A { user := B, status := "sent", unreadCount := 0 }) B
            { user := A, status := "pending", unreadCount := 0 }) := by
  unfold requestFriend
  by_cases h1 : f.recipientFind = true
  · left; simp [h1]
  cases hB : db.users B with
  | none => left; simp [h1]
  | some recipient =>
    by_cases h2 : recipient.friends.any (fun fr => fr.user == A) = true
    · left; simp [h1, h2]
    by_cases h3 : f.senderPush = true
    · left; simp [h1, h2, h3]
    by_cases h4 : f.recipientPush = true
    · right; left; simp [h1, h2, h3, h4]
    right; right
    refine ⟨recipient, rfl, by simpa using h2, ?_⟩
    simp only [h1, h2, h3, h4, if_false, Bool.false_eq_true]
    split_ifs
    · split <;> rfl
    · split <;> rfl
    · rfl

/-- Every way an acceptance can leave the user collection. -/
theorem acceptFriend_users (db : Db) (f : AcceptFaults) (R S : UserId) :
    (acceptFriend db f R S).db.users = db.users ∨ f.senderUpdate = true ∨
    (acceptFriend db f R S).db.users = setAccepted (setAccepted db.users R S) S R := by
  unfold acceptFriend
  by_cases h1 : f.recipientUpdate = true
  · left; simp [h1]
  by_cases h2 : f.senderUpdate = true
  · right; left; exact h2
  right; right
  simp [h1, h2]

/-- Every way a `sendMessage` event can leave the user collection. -/
theorem sendMessage_users (srv : Server) (db : Db) (f : RelayFaults) (data : SendData) :
    (sendMessage srv db f data).db.users = db.users ∨
    (sendMessage srv db f data).db.users = incUnread db.users data.toUser data.fromUser := by
  unfold sendMessage
  simp only
  split_ifs
  · left; rfl
  · left; split <;> rfl
  · left; split <;> rfl
  · left; rfl
  · right; rfl

/-- Every way marking messages as read can leave the user collection. -/
theorem readMessages_users (db : Db) (updateFails : Bool) (reqUser friendId : UserId) :
    (readMessages db updateFails reqUser friendId).db.users = db.users ∨
    (readMessages db updateFails reqUser friendId).db.users
      = resetUnread db.users reqUser friendId := by
  unfold readMessages
  split_ifs
  · left; rfl
  · right; rfl

theorem any_user_eq_false (l : List Friend) (A : UserId)
    (h : l.any (fun fr => fr.user == A) = false) : statusIn l A = none := by
  rw [statusIn_eq_none_iff]
  intro hm
  obtain ⟨g, hg, hgA⟩ := List.mem_map.mp hm
  have : l.any (fun fr => fr.user == A) = true := by
    rw [List.any_eq_true]
    exact ⟨g, hg, by simp [hgA]⟩
  rw [h] at this
  cases this

/-- An operation between different users that is not cut between its two writes keeps the
invariant of the friends lists. -/
theorem socialStep_inv (db : Db) (op : SocialOp) (hw : op.whole) (hd : op.distinct)
    (hinv : SocialInv db.users) : SocialInv (socialStep db op).users := by
  cases op with
  | request srv f A B =>
    show SocialInv (requestFriend srv db f A B).db.users
    rcases requestFriend_users srv db f A B with h | ⟨h, _⟩ | ⟨r, hr, hany, h⟩
    · rw [h]; exact hinv
    · have hw' : f.recipientPush = false := hw
      rw [hw'] at h
      cases h
    · rw [h]
      refine socialInv_request db.users A B hd (by rw [hr]; rfl) ?_ hinv
      unfold statusFor friendsOf
      rw [hr]
      exact any_user_eq_false _ _ hany
  | accept f R S =>
    show SocialInv (acceptFriend db f R S).db.users
    rcases acceptFriend_users db f R S with h | h | h
    · rw [h]; exact hinv
    · have hw' : f.senderUpdate = false := hw
      rw [hw'] at h
      cases h
    · rw [h]
      exact socialInv_accept db.users R S hd hinv
  | send srv f data =>
    show SocialInv (sendMessage srv db f data).db.users
    rcases sendMessage_users srv db f data with h | h
    · rw [h]; exact hinv
    · rw [h, incUnread_eq]
      exact socialInv_quiet _ _ _ (incFirstUnread_map _) (incFirstUnread_nonneg _) hinv
  | read uf u p =>
    show SocialInv (readMessages db uf u p).db.users
    rcases readMessages_users db uf u p with h | h
    · rw [h]; exact hinv
    · rw [h, resetUnread_eq]
      exact socialInv_quiet _ _ _ (resetFirstUnread_map _) (resetFirstUnread_nonneg _) hinv

theorem runSocial_inv (ops : List SocialOp) (db : Db)
    (hops : ∀ op ∈ ops, op.whole ∧ op.distinct) (hinv : SocialInv db.users) :
    SocialInv (runSocial db ops).users := by
  induction ops generalizing db with
  | nil => exact hinv
  | cons op rest ih =>
    show SocialInv (runSocial (socialStep db op) rest).users
    apply ih
    · intro o ho
      exact hops o (List.mem_cons_of_mem _ ho)
    · exact socialStep_inv db op (hops op (List.mem_cons_self _ _)).1
        (hops op (List.mem_cons_self _ _)).2 hinv

theorem socialInv_of_empty (users : UserId → Option User)
    (h : ∀ id, friendsOf users id = []) : SocialInv users := by
  refine ⟨?_, ?_, ?_⟩
  · intro a
    rw [h a]
    exact List.nodup_nil
  · intro a g hg
    rw [h a] at hg
    cases hg
  · intro a b _ _ _
    unfold statusFor
    rw [h a, h b]
    exact Or.inl ⟨rfl, rfl⟩

theorem runSocial_isSome (ops : List SocialOp) (db : Db) (x : UserId) :
    ((runSocial db ops).users x).isSome = (db.users x).isSome := by
  induction ops generalizing db with
  | nil => rfl
  | cons op rest ih =>
    show ((runSocial (socialStep db op) rest).users x).isSome = _
    rw [ih]
    cases op with
    | request srv f A B =>
      show ((requestFriend srv db f A B).db.users x).isSome = _
      rcases requestFriend_users srv db f A B with h | ⟨_, h⟩ | ⟨_, _, _, h⟩
      · rw [h]
      · rw [h, pushFriend_isSome]
      · rw [h, pushFriend_isSome, pushFriend_isSome]
    | accept f R S =>
      show ((acceptFriend db f R S).db.users x).isSome = _
      rcases acceptFriend_users db f R S with h | h | h
      · rw [h]
      · unfold acceptFriend
        simp only [h, if_true]
        split_ifs
        · rfl
        · show (setAccepted db.users R S x).isSome = _
          rw [setAccepted_eq, updateFriends_isSome]
      · rw [h, setAccepted_eq, setAccepted_eq, updateFriends_isSome, updateFriends_isSome]
    | send srv f data =>
      show ((sendMessage srv db f data).db.users x).isSome = _
      rcases sendMessage_users srv db f data with h | h
      · rw [h]
      · rw [h, incUnread_eq, updateFriends_isSome]
    | read uf u p =>
      show ((readMessages db uf u p).db.users x).isSome = _
      rcases readMessages_users db uf u p with h | h
      · rw [h]
      · rw [h, resetUnread_eq, updateFriends_isSome]

theorem mem_user_iff_statusIn (l : List Friend) (b : UserId) :
    (∃ g ∈ l, g.user = b) ↔ statusIn l b ≠ none := by
  rw [Ne, statusIn_eq_none_iff, not_not, List.mem_map]

theorem friendsOf_newUsersDb (id : UserId) : friendsOf newUsersDb.users id = [] := by
  unfold friendsOf newUsersDb
  simp only [setKey]
  split_ifs <;> rfl

/-- C28: starting from users whose friends lists are empty, after every sequence of friend
requests and acceptances between different users in which no database failure cuts an
operation between its two writes (`sendMessage` events and read marks may come in between),
for every two different stored users `A` and `B`: the list of `A` has an entry for `B` if
and only if the list of `B` has an entry for `A`, and the statuses of two such entries are
`sent` and `pending`, `pending` and `sent`, or `accepted` and `accepted`. -/
theorem friend_graph_symmetric (db : Db) (ops : List SocialOp) (A B : UserId)
    (hinit : ∀ id, friendsOf db.users id = [])
    (hops : ∀ op ∈ ops, op.whole ∧ op.distinct)
    (hAB : A ≠ B) (hA : (db.users A).isSome = true) (hB : (db.users B).isSome = true) :
    ((∃ g ∈ friendsOf (runSocial db ops).users A, g.user = B) ↔
      (∃ g ∈ friendsOf (runSocial db ops).users B, g.user = A)) ∧
    (∀ g ∈ friendsOf (runSocial db ops).users A, g.user = B →
      ∀ g' ∈ friendsOf (runSocial db ops).users B, g'.user = A →
        (g.status = "sent" ∧ g'.status = "pending") ∨
        (g.status = "pending" ∧ g'.status = "sent") ∨
        (g.status = "accepted" ∧ g'.status = "accepted")) := by
  obtain ⟨h1, _, h3⟩ := runSocial_inv ops db hops (socialInv_of_empty db.users hinit)
  have hp := h3 A B hAB (by rw [runSocial_isSome]; exact hA) (by rw [runSocial_isSome]; exact hB)
  unfold statusFor at hp
  constructor
  · rw [mem_user_iff_statusIn, mem_user_iff_statusIn]
    rcases hp with ⟨a, b⟩ | ⟨a, b⟩ | ⟨a, b⟩ | ⟨a, b⟩ <;> rw [a, b] <;> simp
  · intro g hg hgB g' hg' hgA
    have e := statusIn_of_mem _ (h1 A) g hg
    have e' := statusIn_of_mem _ (h1 B) g' hg'
    rw [hgB] at e
    rw [hgA] at e'
    rw [e, e'] at hp
    rcases hp with ⟨a, _⟩ | ⟨a, b⟩ | ⟨a, b⟩ | ⟨a, b⟩
    · cases a
    · exact Or.inl ⟨Option.some.inj a, Option.some.inj b⟩
    · exact Or.inr (Or.inl ⟨Option.some.inj a, Option.some.inj b⟩)
    · exact Or.inr (Or.inr ⟨Option.some.inj a, Option.some.inj b⟩)

/-- In the store of three new users `asha` sends a request to `bala` and `bala` accepts. -/
theorem friend_graph_symmetric_witness :
    (∃ g ∈ friendsOf (runSocial newUsersDb requestThenAccept).users ashaId, g.user = balaId) ↔
      (∃ g ∈ friendsOf (runSocial newUsersDb requestThenAccept).users balaId,
        g.user = ashaId) :=
  (friend_graph_symmetric newUsersDb requestThenAccept ashaId balaId friendsOf_newUsersDb
    (by decide) (by decide) (by decide) (by decide)).1

/-- The friends lists of the sample run after the request and after the acceptance. The
route does not test who accepts: the same lists result when `asha`, who sent the request,
calls the accept route herself. -/
theorem requestThenAccept_sample :
    friendsOf (runSocial newUsersDb [.request Server.init noFriendFaults ashaId balaId]).users
        ashaId = [{ user := balaId, status := "sent", unreadCount := 0 }] ∧
    friendsOf (runSocial newUsersDb [.request Server.init noFriendFaults ashaId balaId]).users
        balaId = [{ user := ashaId, status := "pending", unreadCount := 0 }] ∧
    friendsOf (runSocial newUsersDb requestThenAccept).users ashaId
      = [{ user := balaId, status := "accepted", unreadCount := 0 }] ∧
    friendsOf (runSocial newUsersDb requestThenAccept).users balaId
      = [{ user := ashaId, status := "accepted", unreadCount := 0 }] ∧
    friendsOf (runSocial newUsersDb [.request Server.init noFriendFaults ashaId balaId,
        .accept noAcceptFaults ashaId balaId]).users balaId
      = [{ user := ashaId, status := "accepted", unreadCount := 0 }] := by
  decide

/-- C23 (the code's behaviour): a friend request that a stored user `A` sends to
themselves and that is answered with 200 appends two entries for the peer `A` to the
`friends` array of `A`, one `sent` and one `pending`: the test of lines 37-40 looks for an
entry before either is pushed, and both pushes go to the same array. The array then holds
two entries for one peer. -/
theorem self_request_duplicates_entry (srv : Server) (db : Db) (f : FriendFaults) (A : UserId)
    (a : User) (hA : db.users A = some a)
    (hok : (requestFriend srv db f A A).code = 200) :
    friendsOf (requestFriend srv db f A A).db.users A
      = a.friends ++ [{ user := A, status := "sent", unreadCount := 0 },
                      { user := A, status := "pending", unreadCount := 0 }] ∧
    ¬ ((friendsOf (requestFriend srv db f A A).db.users A).map Friend.user).Nodup := by
  have h := (requestFriend_ok srv db f A A hok).2.1
  have e : friendsOf (requestFriend srv db f A A).db.users A
      = a.friends ++ [{ user := A, status := "sent", unreadCount := 0 },
                      { user := A, status := "pending", unreadCount := 0 }] := by
    rw [h]
    simp [friendsOf, pushFriend, hA, setKey_same]
  refine ⟨e, ?_⟩
  rw [e]
  intro hnd
  rw [List.map_append, List.nodup_append] at hnd
  have := hnd.2.1
  simp at this

/-- The new user `asha` sends a friend request to herself. -/
theorem self_request_duplicates_entry_witness :
    friendsOf (requestFriend Server.init newUsersDb noFriendFaults ashaId ashaId).db.users ashaId
      = [] ++ [{ user := ashaId, status := "sent", unreadCount := 0 },
               { user := ashaId, status := "pending", unreadCount := 0 }] ∧
    ¬ ((friendsOf (requestFriend Server.init newUsersDb noFriendFaults ashaId
        ashaId).db.users ashaId).map Friend.user).Nodup :=
  self_request_duplicates_entry Server.init newUsersDb noFriendFaults ashaId
    { username := "asha", points := 0, streak := 0, lastCompletionDate := none, friends := [] }
    (by decide) (by decide)

/-- Without requests to oneself and without a request or an acceptance cut between its two
writes, the friends lists stay sets with counters that are not negative: starting from
empty friends lists, after every sequence of friend requests, acceptances, `sendMessage`
events and read marks, no list holds two entries for one peer and no `unreadCount` is
negative. -/
theorem friends_lists_are_sets (db : Db) (ops : List SocialOp)
    (hinit : ∀ id, friendsOf db.users id = [])
    (hops : ∀ op ∈ ops, op.whole ∧ op.distinct) (a : UserId) :
    ((friendsOf (runSocial db ops).users a).map Friend.user).Nodup ∧
    ∀ g ∈ friendsOf (runSocial db ops).users a, 0 ≤ g.unreadCount := by
  obtain ⟨h1, h2, _⟩ := runSocial_inv ops db hops (socialInv_of_empty db.users hinit)
  exact ⟨h1 a, h2 a⟩

theorem nonneg_updateFriends (users : UserId → Option User) (id : UserId)
    (h : List Friend → List Friend)
    (hh : ∀ l, (∀ g ∈ l, 0 ≤ g.unreadCount) → ∀ g ∈ h l, 0 ≤ g.unreadCount)
    (hU : ∀ a, ∀ g ∈ friendsOf users a, 0 ≤ g.unreadCount) :
    ∀ a, ∀ g ∈ friendsOf (updateFriends users id h) a, 0 ≤ g.unreadCount := by
  intro a
  by_cases ha : a = id
  · subst ha
    cases hu : users a with
    | none =>
      rw [updateFriends_absent _ _ _ hu]
      exact hU a
    | some u =>
      rw [friendsOf_updateFriends_same _ _ _ (Or.inl (by rw [hu]; rfl))]
      exact hh _ (hU a)
  · rw [friendsOf_updateFriends_other _ _ _ _ ha]
    exact hU a

theorem append_entry_nonneg (e : Friend) (he : 0 ≤ e.unreadCount) (l : List Friend)
    (h : ∀ g ∈ l, 0 ≤ g.unreadCount) : ∀ g ∈ l ++ [e], 0 ≤ g.unreadCount := by
  intro g hg
  rcases List.mem_append.mp hg with m | m
  · exact h g m
  · rw [List.mem_singleton.mp m]
    exact he

/-- No operation makes a counter negative, whatever the ids it names and whatever database
failure it meets. -/
theorem socialStep_nonneg (db : Db) (op : SocialOp)
    (hU : ∀ a, ∀ g ∈ friendsOf db.users a, 0 ≤ g.unreadCount) :
    ∀ a, ∀ g ∈ friendsOf (socialStep db op).users a, 0 ≤ g.unreadCount := by
  cases op with
  | request srv f A B =>
    show ∀ a, ∀ g ∈ friendsOf (requestFriend srv db f A B).db.users a, 0 ≤ g.unreadCount
    have p1 := nonneg_updateFriends db.users A _
      (append_entry_nonneg { user := B, status := "sent", unreadCount := 0 } (le_refl _)) hU
    have p2 := nonneg_updateFriends _ B _
      (append_entry_nonneg { user := A, status := "pending", unreadCount := 0 } (le_refl _)) p1
    rcases requestFriend_users srv db f A B with h | ⟨_, h⟩ | ⟨_, _, _, h⟩
    · rw [h]; exact hU
    · rw [h]; exact p1
    · rw [h]; exact p2
  | accept f R S =>
    show ∀ a, ∀ g ∈ friendsOf (acceptFriend db f R S).db.users a, 0 ≤ g.unreadCount
    have p1 := nonneg_updateFriends db.users R _ (acceptFirst_nonneg S) hU
    have p2 := nonneg_updateFriends _ S _ (acceptFirst_nonneg R) p1
    unfold acceptFriend
    simp only
    split_ifs
    · exact hU
    · exact p1
    · exact p2
  | send srv f data =>
    show ∀ a, ∀ g ∈ friendsOf (sendMessage srv db f data).db.users a, 0 ≤ g.unreadCount
    rcases sendMessage_users srv db f data with h | h
    · rw [h]; exact hU
    · rw [h]
      exact nonneg_updateFriends _ _ _ (incFirstUnread_nonneg _) hU
  | read uf u p =>
    show ∀ a, ∀ g ∈ friendsOf (readMessages db uf u p).db.users a, 0 ≤ g.unreadCount
    rcases readMessages_users db uf u p with h | h
    · rw [h]; exact hU
    · rw [h]
      exact nonneg_updateFriends _ _ _ (resetFirstUnread_nonneg _) hU

/-- Counters never become negative: starting from counters that are not negative, after
every sequence of friend requests, acceptances, `sendMessage` events and read marks, for
any ids and with any database failures, every `unreadCount` is at least 0. -/
theorem unread_counts_never_negative (ops : List SocialOp) (db : Db)
    (hU : ∀ a, ∀ g ∈ friendsOf db.users a, 0 ≤ g.unreadCount) :
    ∀ a, ∀ g ∈ friendsOf (runSocial db ops).users a, 0 ≤ g.unreadCount := by
  induction ops generalizing db with
  | nil => exact hU
  | cons op rest ih => exact ih (socialStep db op) (socialStep_nonneg db op hU)

/-- A request cut between its two writes also leads to a double entry: the second push of
the request of `asha` to `bala` rejects, so only `asha` gets an entry; the test of the next
request looks at the list of `bala`, finds none, and `asha` gets a second entry for `bala`. -/
theorem split_request_duplicates_entry :
    friendsOf (runSocial newUsersDb
      [.request Server.init { noFriendFaults with recipientPush := true } ashaId balaId,
       .request Server.init noFriendFaults ashaId balaId]).users ashaId
      = [{ user := balaId, status := "sent", unreadCount := 0 },
         { user := balaId, status := "sent", unreadCount := 0 }] ∧
    friendsOf (runSocial newUsersDb
      [.request Server.init { noFriendFaults with recipientPush := true } ashaId balaId,
       .request Server.init noFriendFaults ashaId balaId]).users balaId
      = [{ user := ashaId, status := "pending", unreadCount := 0 }] := by
  decide

/-! ## Theorems: the sender of a message -/

/-- C27 as stated fails: on the connection `sockC`, authenticated as `chitra`, a
`sendMessage` whose payload names `asha` as `fromUser` is persisted with `fromUser = asha`,
and the `chatNotification` that `bala` receives names `asha` as the sender. -/
theorem sender_not_checked_against_connection :
    chitraOnline.socketUserId "sockC" = some chitraId ∧ chitraId ≠ ashaId ∧
    (onSendMessage chitraOnline "sockC" chatDb noRelayFaults (hiToBala ashaId)).db.messages
      = [{ fromUser := ashaId, toUser := balaId, content := "hi" }] ∧
    (onSendMessage chitraOnline "sockC" chatDb noRelayFaults (hiToBala ashaId)).emitted
      = [{ target := some "64b7f0a1c2d3e4f5a6b7c8d9-64b7f0a1c2d3e4f5a6b7c8e0"
           name := "receiveMessage"
           payload := .message { fromUser := ashaId, toUser := balaId, content := "hi" } },
         { target := some "sockB", name := "chatNotification"
           payload := .chat (some { id := ashaId, username := "asha" }) "hi" }] := by
  decide

/-- C27 (amended): for every `sendMessage` handled on any connection, whatever user the
connection authenticated as: the message persisted, if one is, has the `fromUser` and the
`toUser` of the payload; every `chatNotification` emitted names as sender the user stored
under the payload's `fromUser`; and the outcome is the same on every other connection and
for every other value of the connections' `userId`. -/
theorem sender_taken_from_payload (srv : Server) (socket : SocketId) (db : Db)
    (f : RelayFaults) (data : SendData) :
    ((onSendMessage srv socket db f data).db.messages = db.messages ∨
      (onSendMessage srv socket db f data).db.messages
        = db.messages ++ [{ fromUser := data.fromUser, toUser := data.toUser
                            content := trim data.content }]) ∧
    (∀ e ∈ (onSendMessage srv socket db f data).emitted, e.name = "chatNotification" →
      e.payload = .chat (findSender db.users data.fromUser) (trim data.content)) ∧
    (∀ (socket' : SocketId) (ids : SocketId → Option UserId),
      onSendMessage { srv with socketUserId := ids } socket' db f data
        = onSendMessage srv socket db f data) := by
  refine ⟨?_, ?_, fun _ _ => rfl⟩
  · unfold onSendMessage sendMessage
    simp only [Message.new]
    split_ifs
    · left; rfl
    · right; split <;> rfl
    · right; split <;> rfl
    · right; rfl
    · right; rfl
  · unfold onSendMessage sendMessage
    simp only [Message.new]
    split_ifs
    · intro e he
      cases he
    · split <;> intro e he hn
      · simp only [List.mem_singleton] at he
        rw [he] at hn
        simp at hn
      · simp only [List.mem_singleton] at he
        rw [he] at hn
        simp at hn
    · split <;> intro e he hn
      · simp only [List.mem_cons, List.mem_singleton, List.not_mem_nil, or_false] at he
        rcases he with he | he
        · rw [he] at hn
          simp at hn
        · rw [he]
      · simp only [List.mem_singleton] at he
        rw [he] at hn
        simp at hn
    · intro e he hn
      simp only [List.mem_singleton] at he
      rw [he] at hn
      simp at hn
    · intro e he hn
      simp only [List.mem_singleton] at he
      rw [he] at hn
      simp at hn

/-! ## Theorems: the conversation room -/

theorem unitsLess_asymm : ∀ (a b : List Nat), unitsLess a b = true → unitsLess b a = false
  | _, [], h => by simp [unitsLess] at h
  | [], _ :: _, _ => by simp [unitsLess]
  | x :: xs, y :: ys, h => by
    unfold unitsLess at h ⊢
    by_cases h1 : x < y
    · have h2 : ¬ y < x := by omega
      simp [h1, h2]
    · by_cases h2 : y < x
      · simp [h1, h2] at h
      · simp only [h1, h2, if_false] at h ⊢
        exact unitsLess_asymm xs ys h

theorem unitsLess_total : ∀ (a b : List Nat), unitsLess a b = false → unitsLess b a = false →
    a = b
  | [], [], _, _ => rfl
  | [], _ :: _, h, _ => by simp [unitsLess] at h
  | _ :: _, [], _, h => by simp [unitsLess] at h
  | x :: xs, y :: ys, h, h' => by
    unfold unitsLess at h h'
    by_cases h1 : x < y
    · simp [h1] at h
    · by_cases h2 : y < x
      · simp [h2] at h'
      · simp only [h1, h2, if_false] at h h'
        have e : x = y := by omega
        rw [e, unitsLess_total xs ys h h']

theorem utf16_append_cancel (c d : Char) (xs ys : List Nat)
    (h : utf16 c ++ xs = utf16 d ++ ys) : c = d ∧ xs = ys := by
  have hc : c.toNat < 55296 ∨ (57343 < c.toNat ∧ c.toNat < 1114112) := c.valid
  have hd : d.toNat < 55296 ∨ (57343 < d.toNat ∧ d.toNat < 1114112) := d.valid
  have hext : c.toNat = d.toNat → c = d := fun e => Char.ext (UInt32.ext e)
  unfold utf16 at h
  by_cases h1 : c.toNat < 65536 <;> by_cases h2 : d.toNat < 65536
  · simp only [h1, h2, if_true, List.cons_append, List.nil_append, List.cons.injEq] at h
    exact ⟨hext h.1, h.2⟩
  · simp only [h1, h2, if_true, if_false, List.cons_append, List.nil_append,
      List.cons.injEq] at h
    omega
  · simp only [h1, h2, if_true, if_false, List.cons_append, List.nil_append,
      List.cons.injEq] at h
    omega
  · simp only [h1, h2, if_false, List.cons_append, List.nil_append, List.cons.injEq] at h
    refine ⟨hext ?_, h.2.2⟩
    omega

theorem utf16_ne_nil (c : Char) : utf16 c ≠ [] := by
  unfold utf16
  split_ifs <;> simp

theorem codeUnitsOf_injective : ∀ (a b : List Char), codeUnitsOf a = codeUnitsOf b → a = b
  | [], [], _ => rfl
  | [], d :: ds, h => by
    unfold codeUnitsOf at h
    have := utf16_ne_nil d
    cases hu : utf16 d with
    | nil => exact absurd hu this
    | cons x xs => rw [hu] at h; simp at h
  | c :: cs, [], h => by
    unfold codeUnitsOf at h
    have := utf16_ne_nil c
    cases hu : utf16 c with
    | nil => exact absurd hu this
    | cons x xs => rw [hu] at h; simp at h
  | c :: cs, d :: ds, h => by
    unfold codeUnitsOf at h
    obtain ⟨e1, e2⟩ := utf16_append_cancel c d _ _ h
    rw [e1, codeUnitsOf_injective cs ds e2]

theorem codeUnits_injective (a b : String) (h : codeUnits a = codeUnits b) : a = b := by
  unfold codeUnits at h
  have := codeUnitsOf_injective a.data b.data h
  exact String.ext this

theorem sortPair_comm (a b : String) : sortPair a b = sortPair b a := by
  unfold sortPair
  by_cases h1 : jsLess b a = true
  · have h2 : jsLess a b = false := unitsLess_asymm _ _ h1
    simp [h1, h2]
  · by_cases h2 : jsLess a b = true
    · simp [h1, h2]
    · have e : a = b := by
        apply codeUnits_injective
        apply unitsLess_total
        · simpa using h2
        · simpa using h1
      rw [e]

theorem sendMessage_room (srv : Server) (db : Db) (f : RelayFaults) (data : SendData) :
    ∀ e ∈ (sendMessage srv db f data).emitted, e.name = "receiveMessage" →
      e.target = some data.roomName := by
  unfold sendMessage
  simp only
  split_ifs
  · intro e he
    cases he
  · split <;> intro e he hn
    · simp only [List.mem_singleton] at he
      rw [he]
    · simp only [List.mem_singleton] at he
      rw [he]
  · split <;> intro e he hn
    · simp only [List.mem_cons, List.mem_singleton, List.not_mem_nil, or_false] at he
      rcases he with he | he
      · rw [he]
      · rw [he] at hn
        simp at hn
    · simp only [List.mem_singleton] at he
      rw [he]
  · intro e he hn
    simp only [List.mem_singleton] at he
    rw [he]
  · intro e he hn
    simp only [List.mem_singleton] at he
    rw [he]

/-- C30: for every pair of user ids `a` and `b`, the room name the chat window computes
for the current user `a` and the friend `b` equals the one it computes for the current user
`b` and the friend `a`: the room that the window of `b` joins is the room named in every
message that the window of `a` sends, and every `receiveMessage` event the server emits for
such a message goes to that room. -/
theorem room_name_symmetric (a b : String) :
    roomName a b = roomName b a ∧
    joinedRoom b a = joinedRoom a b ∧
    (∀ (text : String) (d : SendData), handleSendMessage a b text = some d →
      d.roomName = joinedRoom b a ∧
      ∀ (srv : Server) (db : Db) (f : RelayFaults),
        ∀ e ∈ (sendMessage srv db f d).emitted, e.name = "receiveMessage" →
          e.target = some (joinedRoom b a)) := by
  have h : roomName a b = roomName b a := by
    unfold roomName
    rw [sortPair_comm a b]
  refine ⟨h, h.symm, ?_⟩
  intro text d hd
  unfold handleSendMessage at hd
  split_ifs at hd
  cases hd
  refine ⟨h, ?_⟩
  intro srv db f e he hn
  rw [sendMessage_room srv db f _ e he hn]
  exact congrArg some h

/-- The room of `asha` and `bala`, computed from either side, and the room of two ids that
differ in a character outside the basic plane: JavaScript orders it before the full-width
`ｚ` (`U+FF5A`) by its first code unit `0xD83D`, although its code point is larger. -/
theorem roomName_samples :
    roomName ashaId balaId = "64b7f0a1c2d3e4f5a6b7c8d9-64b7f0a1c2d3e4f5a6b7c8e0" ∧
    roomName balaId ashaId = "64b7f0a1c2d3e4f5a6b7c8d9-64b7f0a1c2d3e4f5a6b7c8e0" ∧
    (handleSendMessage ashaId balaId " hi ").map SendData.roomName
      = some "64b7f0a1c2d3e4f5a6b7c8d9-64b7f0a1c2d3e4f5a6b7c8e0" ∧
    roomName "ｚ" "😀" = "😀-ｚ" ∧ roomName "😀" "ｚ" = "😀-ｚ" := by
  decide

/-! ## Theorems: confirmations across timer cycles and session ledgers -/

/-- A user action that resolves the prompt of a task sets the task's marker. -/
theorem resolveConfirmation_marker (storage : Storage) (action : Resolution) (taskId : String)
    (putOk : Bool) (clock : Nat) (hres : action = Resolution.dismiss ∨ putOk = true) :
    truthy (resolveConfirmation storage action taskId putOk clock (confirmKey taskId))
      = true := by
  have hset : resolveConfirmation storage action taskId putOk clock
      = setKey storage (confirmKey taskId) (toString clock) := by
    rcases hres with h | h
    · rw [h]
      rfl
    · rw [h]
      cases action <;> rfl
  rw [hset, setKey_same]
  exact truthy_some _ (toString_nat_ne_empty clock)

theorem sessionStorageAfter_resolved (events : List SessionEvent) (storage : Storage)
    (taskId : String) (h : truthy (storage (confirmKey taskId)) = true) :
    truthy (sessionStorageAfter storage events (confirmKey taskId)) = true := by
  induction events generalizing storage with
  | nil => exact h
  | cons e es ih => exact ih _ (sessionStep_resolved storage e taskId h).1

/-- The sample session, evaluated: the prompt of `report` is dismissed at 09:50; the task
is started again at 11:00 with an estimate of 30 minutes; the Dashboard run at 12:00, half
an hour after the new timer ended, shows the alert that the timer ended but raises no
confirmation and no confirmation toast, while on a page without the marker the same run
raises it. -/
theorem restarted_timer_not_confirmed :
    restartedReport.status = "In Progress" ∧
    (restartedReport.startedAt, restartedReport.estimatedCompletionTime)
      = (some ((clockNow : Int) + 60 * MS_IN_MIN), some 30) ∧
    (clockLater : Int) = (clockNow : Int) + 60 * MS_IN_MIN + 30 * MS_IN_MIN + 30 * MS_IN_MIN ∧
    (checkDeadlines clockLater none
      (resolveConfirmation (fun _ => none) Resolution.dismiss reportTask.id false 1709373000000)
      [restartedReport]).confirmCalls = [] ∧
    (checkDeadlines clockLater none
      (resolveConfirmation (fun _ => none) Resolution.dismiss reportTask.id false 1709373000000)
      [restartedReport]).toasts.map Toast.message
        = ["⚠️ Timer ended for \"report\". Please confirm."] ∧
    (checkDeadlines clockLater none (fun _ => none) [restartedReport]).confirmCalls
      = [restartedReport] := by
  decide

/-- C25 (the code's behaviour): once the confirmation of a task `T` was resolved in a
browser session (the dialog was closed, or a button was pressed and the update succeeded),
then after any further events of that session no Dashboard run raises a confirmation for
`T`, also when `T` is `In Progress` again with a new start time and estimate whose deadline
has passed at most 24 hours ago and `T` is not the task held as outstanding confirmation:
the marker written at the resolution holds the time of the resolution, but the run tests
only that it is there, and nothing removes it. The same run on a `sessionStorage` without
the marker raises the confirmation. -/
theorem confirmation_not_raised_after_restart (storage : Storage) (action : Resolution)
    (putOk : Bool) (clock : Nat) (events : List SessionEvent)
    (now : Nat) (ct : Option ClientTask) (tasks : List ClientTask) (T : ClientTask)
    (started est : Int)
    (hres : action = Resolution.dismiss ∨ putOk = true)
    (hmem : T ∈ tasks) (hids : ∀ t ∈ tasks, isObjectId t.id = true)
    (hstatus : T.status = "In Progress")
    (hs : T.startedAt = some started) (he : T.estimatedCompletionTime = some est)
    (hest : est ≠ 0) (hpast : started + est * MS_IN_MIN ≤ now)
    (hday : now - (started + est * MS_IN_MIN) ≤ MS_24H)
    (hout : ∀ c, ct = some c → c.id ≠ T.id) :
    (∀ t ∈ (checkDeadlines now ct
        (sessionStorageAfter (resolveConfirmation storage action T.id putOk clock) events)
        tasks).confirmCalls, t.id ≠ T.id) ∧
    T ∈ (checkDeadlines now ct (fun _ => none) tasks).confirmCalls := by
  constructor
  · exact (checkDeadlines_resolved now ct _ tasks T.id
      (sessionStorageAfter_resolved events _ T.id
        (resolveConfirmation_marker storage action T.id putOk clock hres))).2
  · exact (foldl_raises now ct tasks T started est hmem hids hstatus hs he hest hpast hday
      hout { storage := fun _ => none, alertsThisRun := [], upcomingAlerts := [], toasts := []
             confirmCalls := [] } rfl).1

/-- The prompt of `report` is dismissed, a Dashboard run follows at 10:00, the task is
started again at 11:00 and the Dashboard runs at 12:00. -/
theorem confirmation_not_raised_after_restart_witness :
    (checkDeadlines clockLater none
      (sessionStorageAfter
        (resolveConfirmation (fun _ => none) Resolution.dismiss restartedReport.id false
          1709373000000)
        [SessionEvent.dashboardRun clockNow none [reportTask]])
      [restartedReport]).confirmCalls.all (fun t => decide (t.id ≠ restartedReport.id)) = true ∧
    restartedReport ∈ (checkDeadlines clockLater none (fun _ => none)
      [restartedReport]).confirmCalls :=
  ⟨List.all_eq_true.mpr (fun t ht => decide_eq_true
      ((confirmation_not_raised_after_restart (fun _ => none) Resolution.dismiss false
        1709373000000 [SessionEvent.dashboardRun clockNow none [reportTask]] clockLater none
        [restartedReport] restartedReport 1709377200000 30 (Or.inl rfl) (by decide) (by decide)
        rfl rfl rfl (by decide) (by decide) (by decide) (fun c hc => by cases hc)).1 t ht)),
    (confirmation_not_raised_after_restart (fun _ => none) Resolution.dismiss false
      1709373000000 [SessionEvent.dashboardRun clockNow none [reportTask]] clockLater none
      [restartedReport] restartedReport 1709377200000 30 (Or.inl rfl) (by decide) (by decide)
      rfl rfl rfl (by decide) (by decide) (by decide) (fun c hc => by cases hc)).2⟩

theorem raiseConfirmation_confirmCalls_congr (ct : Option ClientTask) (st1 st2 : RunState)
    (task : ClientTask) (hc : st1.confirmCalls = st2.confirmCalls)
    (hs : st1.storage (confirmKey task.id) = st2.storage (confirmKey task.id)) :
    (raiseConfirmation ct st1 task).confirmCalls = (raiseConfirmation ct st2 task).confirmCalls := by
  have hs' : st1.storage ("confirm-shown-" ++ task.id)
      = st2.storage ("confirm-shown-" ++ task.id) := hs
  unfold raiseConfirmation
  simp only [hs']
  split_ifs
  · show st1.confirmCalls ++ [task] = st2.confirmCalls ++ [task]
    rw [hc]
  · exact hc

theorem estimateStep_confirmCalls_congr (now : Nat) (ct : Option ClientTask)
    (st1 st2 : RunState) (task : ClientTask) (hc : st1.confirmCalls = st2.confirmCalls)
    (hs : st1.storage (confirmKey task.id) = st2.storage (confirmKey task.id)) :
    (estimateStep now ct st1 task).confirmCalls = (estimateStep now ct st2 task).confirmCalls := by
  unfold estimateStep
  split
  · split_ifs
    · rw [estimateAlerts_eq, estimateAlerts_eq]
      split_ifs
      · rw [makeAlertIfNew_confirmCalls, makeAlertIfNew_confirmCalls]
        exact hc
      · rw [makeAlertIfNew_confirmCalls, makeAlertIfNew_confirmCalls]
        exact raiseConfirmation_confirmCalls_congr ct st1 st2 task hc hs
      · exact hc
    · exact hc
  · exact hc

theorem dueStep_confirmCalls (now : Nat) (st : RunState) (task : ClientTask) :
    (dueStep now st task).confirmCalls = st.confirmCalls := by
  unfold dueStep
  split
  · split
    · exact makeAlertIfNew_confirmCalls now st _
    · rfl
  · rfl

theorem dueStep_confirm_storage (now : Nat) (st : RunState) (task : ClientTask)
    (taskId : String) (hid : isObjectId task.id = true) :
    (dueStep now st task).storage (confirmKey taskId) = st.storage (confirmKey taskId) :=
  dueStep_preserves now
    (fun s => s.storage (confirmKey taskId) = st.storage (confirmKey taskId)) task
    (fun s c hc hs => by
      show (makeAlertIfNew now s c).storage (confirmKey taskId) = _
      rw [makeAlertIfNew_storage_other now s c _ (bucketKey_ne_confirmKey task c taskId hid hc)]
      exact hs) st rfl

/-- Two runs of the loop body on states that agree on the prompts raised so far and on the
markers agree on them afterwards. -/
theorem checkTask_confirm_congr (now : Nat) (ct : Option ClientTask) (st1 st2 : RunState)
    (task : ClientTask) (hid : isObjectId task.id = true)
    (h : st1.confirmCalls = st2.confirmCalls ∧
      ∀ taskId, st1.storage (confirmKey taskId) = st2.storage (confirmKey taskId)) :
    (checkTask now ct st1 task).confirmCalls = (checkTask now ct st2 task).confirmCalls ∧
    ∀ taskId, (checkTask now ct st1 task).storage (confirmKey taskId)
      = (checkTask now ct st2 task).storage (confirmKey taskId) := by
  constructor
  · unfold checkTask
    split_ifs
    · exact h.1
    · apply estimateStep_confirmCalls_congr
      · rw [dueStep_confirmCalls, dueStep_confirmCalls]
        exact h.1
      · rw [dueStep_confirm_storage now st1 task task.id hid,
          dueStep_confirm_storage now st2 task task.id hid]
        exact h.2 task.id
  · intro taskId
    rw [checkTask_confirm_storage now ct st1 task taskId hid _ rfl,
      checkTask_confirm_storage now ct st2 task taskId hid _ rfl]
    exact h.2 taskId

theorem foldl_checkTask_confirm_congr (now : Nat) (ct : Option ClientTask)
    (tasks : List ClientTask) (hids : ∀ t ∈ tasks, isObjectId t.id = true)
    (st1 st2 : RunState)
    (h : st1.confirmCalls = st2.confirmCalls ∧
      ∀ taskId, st1.storage (confirmKey taskId) = st2.storage (confirmKey taskId)) :
    (tasks.foldl (checkTask now ct) st1).confirmCalls
      = (tasks.foldl (checkTask now ct) st2).confirmCalls := by
  induction tasks generalizing st1 st2 with
  | nil => exact h.1
  | cons t ts ih =>
    simp only [List.foldl_cons]
    exact ih (fun x hx => hids x (List.mem_cons_of_mem _ hx)) _ _
      (checkTask_confirm_congr now ct st1 st2 t (hids t (List.mem_cons_self _ _)) h)

/-- C26: for every task list (with the ids the server gives), time and outstanding
confirmation, two Dashboard runs started from two states of `sessionStorage` that hold the
same `confirm-shown` markers, whatever else they hold (alert stamps in particular), pass
the same tasks to `setConfirmationTask`, in the same order. -/
theorem alert_cache_not_read_by_confirmations (now : Nat) (ct : Option ClientTask)
    (storage1 storage2 : Storage) (tasks : List ClientTask)
    (hids : ∀ t ∈ tasks, isObjectId t.id = true)
    (hsame : ∀ taskId, storage1 (confirmKey taskId) = storage2 (confirmKey taskId)) :
    (checkDeadlines now ct storage1 tasks).confirmCalls
      = (checkDeadlines now ct storage2 tasks).confirmCalls :=
  foldl_checkTask_confirm_congr now ct tasks hids _ _ ⟨rfl, hsame⟩

/-- A run on the alert stamps that an earlier run left and a run on an empty
`sessionStorage` (the page reloaded in a new session) prompt for the same tasks. -/
theorem alert_cache_not_read_by_confirmations_witness :
    (checkDeadlines clockNow none
      (checkDeadlines clockNow none (fun _ => none) [invoiceTask, reportTask]).storage
      [invoiceTask, reportTask, slidesTask]).confirmCalls
      = (checkDeadlines clockNow none (fun _ => none)
          [invoiceTask, reportTask, slidesTask]).confirmCalls :=
  alert_cache_not_read_by_confirmations clockNow none
    (checkDeadlines clockNow none (fun _ => none) [invoiceTask, reportTask]).storage
    (fun _ => none) [invoiceTask, reportTask, slidesTask] (by decide)
    (fun taskId => checkDeadlines_confirm_storage clockNow none (fun _ => none)
      [invoiceTask, reportTask] (by decide) taskId)

/-- The two sample runs, evaluated: with the stamps of the earlier run no alert is shown
again, yet both runs prompt for `report` and `slides`. -/
theorem alert_cache_sample :
    (checkDeadlines clockNow none
      (checkDeadlines clockNow none (fun _ => none) [invoiceTask, reportTask]).storage
      [invoiceTask, reportTask, slidesTask]).confirmCalls = [reportTask, slidesTask] ∧
    (checkDeadlines clockNow none (fun _ => none)
      [invoiceTask, reportTask, slidesTask]).confirmCalls = [reportTask, slidesTask] ∧
    (checkDeadlines clockNow none
      (checkDeadlines clockNow none (fun _ => none) [invoiceTask, reportTask]).storage
      [invoiceTask, reportTask, slidesTask]).upcomingAlerts.map Alert.id
        = ["64b7f0a1c2d3e4f5a6b7c8a2-est-overdue"] ∧
    (checkDeadlines clockNow none (fun _ => none)
      [invoiceTask, reportTask, slidesTask]).upcomingAlerts.map Alert.id
        = ["64b7f0a1c2d3e4f5a6b7c8a3-due-overdue", "64b7f0a1c2d3e4f5a6b7c8a1-est-overdue",
           "64b7f0a1c2d3e4f5a6b7c8a2-est-overdue"] := by
  decide

end TaskManagement
